import Mathlib

/-!
# OGRE `BillboardSet`: the billboard pool

A shallow embedding of `OgreMain/src/OgreBillboardSet.cpp`, and of the scene-node import of
`Components/SceneFormat/src/OgreSceneFormatImporter.cpp`.

Conventions of the embedding.

* `Real` (a C++ `float`) is modelled by the exact rationals; rounding is out of scope.
* A `Billboard*` is modelled by the index of the record in `mBillboardPool`: slot `i` of the
  pool vector holds the record that `increasePool` allocated for it with `OGRE_NEW`, so the
  index identifies the record.  `mActiveBillboards` and `mFreeBillboards` are lists of such
  handles; a `std::list` iterator is a position in the list, `end()` being its length.
* `unsigned int` is 32 bits wide; arithmetic done in that type is reduced modulo `2 ^ 32`.
  `size_t` values are natural numbers.
* Undefined behaviour (a failed `assert`, `front()` of an empty list, a store through the
  lock pointer outside the region the lock mapped) is the result `none`.
* Functions of the engine that live outside this source file (`Math`, `AxisAlignedBox`,
  `Billboard`, `RadixSort`) are parameters or are modelled from the specification, as their
  doc comments say.
-/

namespace Ogre

/-- The engine scalar `Real`, modelled by exact rationals. -/
abbrev Real := ℚ

/-- Number of values of a 32-bit `unsigned int`. -/
def UINT_RANGE : Nat := 2 ^ 32

/-- Modelled from the spec: `Vector3` (OgreVector.h is not part of the sources), a triple of
scalars with component-wise arithmetic. -/
structure Vector3 where
  x : Real
  y : Real
  z : Real
deriving DecidableEq, Inhabited

namespace Vector3

def ZERO : Vector3 := ⟨0, 0, 0⟩
def UNIT_X : Vector3 := ⟨1, 0, 0⟩
def UNIT_Y : Vector3 := ⟨0, 1, 0⟩
def UNIT_Z : Vector3 := ⟨0, 0, 1⟩

def add (a b : Vector3) : Vector3 := ⟨a.x + b.x, a.y + b.y, a.z + b.z⟩
def sub (a b : Vector3) : Vector3 := ⟨a.x - b.x, a.y - b.y, a.z - b.z⟩
def neg (a : Vector3) : Vector3 := ⟨-a.x, -a.y, -a.z⟩
def scale (a : Vector3) (k : Real) : Vector3 := ⟨a.x * k, a.y * k, a.z * k⟩

instance : Add Vector3 := ⟨add⟩
instance : Sub Vector3 := ⟨sub⟩
instance : Neg Vector3 := ⟨neg⟩

def dotProduct (a b : Vector3) : Real := a.x * b.x + a.y * b.y + a.z * b.z

def crossProduct (a b : Vector3) : Vector3 :=
  ⟨a.y * b.z - a.z * b.y, a.z * b.x - a.x * b.z, a.x * b.y - a.y * b.x⟩

def squaredLength (a : Vector3) : Real := a.x * a.x + a.y * a.y + a.z * a.z

/-- Component-wise minimum, `Vector3::makeFloor`. -/
def makeFloor (a cmp : Vector3) : Vector3 :=
  ⟨if cmp.x < a.x then cmp.x else a.x,
   if cmp.y < a.y then cmp.y else a.y,
   if cmp.z < a.z then cmp.z else a.z⟩

/-- Component-wise maximum, `Vector3::makeCeil`. -/
def makeCeil (a cmp : Vector3) : Vector3 :=
  ⟨if cmp.x > a.x then cmp.x else a.x,
   if cmp.y > a.y then cmp.y else a.y,
   if cmp.z > a.z then cmp.z else a.z⟩

end Vector3

/-- Modelled from the spec: `Quaternion` (OgreQuaternion.h is not part of the sources), the
camera orientation. -/
structure Quaternion where
  w : Real
  x : Real
  y : Real
  z : Real
deriving DecidableEq, Inhabited

namespace Quaternion

/-- Modelled from the spec: `Quaternion::operator*(const Vector3&)`, the rotation of a vector
by the orientation ("direct rotation of world axes by camera orientation"), computed as
`v + 2w (q x v) + 2 q x (q x v)` with `q` the vector part. -/
def rotate (q : Quaternion) (v : Vector3) : Vector3 :=
  let qvec : Vector3 := ⟨q.x, q.y, q.z⟩
  let uv := qvec.crossProduct v
  let uuv := qvec.crossProduct uv
  v + uv.scale (2 * q.w) + uuv.scale 2

end Quaternion

/-- Modelled from the spec: `ColourValue`, an RGBA colour. -/
structure ColourValue where
  r : Real
  g : Real
  b : Real
  a : Real
deriving DecidableEq, Inhabited

/-- Modelled from the spec: `FloatRect`, a texture-coordinate rectangle. -/
structure FloatRect where
  left : Real
  top : Real
  right : Real
  bottom : Real
deriving DecidableEq, Inhabited

/-- Modelled from the spec: `AxisAlignedBox` (OgreAxisAlignedBox.h is not part of the
sources): a box is null, finite with a minimum and a maximum corner, or infinite. -/
inductive AxisAlignedBox where
  | null
  | finite (mMinimum mMaximum : Vector3)
  | infinite
deriving DecidableEq, Inhabited

namespace AxisAlignedBox

/-- Modelled from the spec: `AxisAlignedBox::merge(const Vector3&)`, which extends the box so
that it contains the point ("merged into the set's bounding box", "never shrinks"). -/
def merge (box : AxisAlignedBox) (point : Vector3) : AxisAlignedBox :=
  match box with
  | null => finite point point
  | finite mn mx => finite (mn.makeFloor point) (mx.makeCeil point)
  | infinite => infinite

/-- Modelled from the spec: `AxisAlignedBox::setNull` ("null box"). -/
def setNull (_box : AxisAlignedBox) : AxisAlignedBox := null

/-- Modelled from the spec: `AxisAlignedBox::setExtents`, the finite box with the given
corners. -/
def setExtents (_box : AxisAlignedBox) (min max : Vector3) : AxisAlignedBox := finite min max

/-- Modelled from the spec: `AxisAlignedBox::contains(const Vector3&)`: a null box holds no
point, an infinite box every point, a finite box the points between its corners. -/
def containsPoint (box : AxisAlignedBox) (v : Vector3) : Prop :=
  match box with
  | null => False
  | finite mn mx =>
    mn.x ≤ v.x ∧ v.x ≤ mx.x ∧ mn.y ≤ v.y ∧ v.y ≤ mx.y ∧ mn.z ≤ v.z ∧ v.z ≤ mx.z
  | infinite => True

instance (box : AxisAlignedBox) (v : Vector3) : Decidable (box.containsPoint v) := by
  unfold containsPoint
  split <;> infer_instance

/-- Modelled from the spec: `AxisAlignedBox::contains(const AxisAlignedBox&)`: every box
contains the null box, the infinite box contains every box, and a finite box contains the
finite boxes whose corners lie between its own. -/
def contains (box other : AxisAlignedBox) : Prop :=
  match box, other with
  | _, null => True
  | infinite, _ => True
  | null, _ => False
  | finite _ _, infinite => False
  | finite mn mx, finite omn omx =>
    mn.x ≤ omn.x ∧ mn.y ≤ omn.y ∧ mn.z ≤ omn.z ∧
    omx.x ≤ mx.x ∧ omx.y ≤ mx.y ∧ omx.z ≤ mx.z

instance (box other : AxisAlignedBox) : Decidable (box.contains other) := by
  unfold contains
  split <;> infer_instance

end AxisAlignedBox

/-- The functions of `Ogre::Math` used by the billboard set.  OgreMath.cpp is not part of the
sources and these functions are irrational, so they are parameters of the embedding. -/
structure Math where
  Sqrt : Real → Real
  Cos : Real → Real
  Sin : Real → Real
  boundingRadiusFromAABB : AxisAlignedBox → Real

namespace Vector3

/-- Modelled from the spec: `Vector3::normalise` ("normalize"): the vector divided by its
length, left as it is when the length is not positive. -/
def normalise (M : Math) (v : Vector3) : Vector3 :=
  let fLength := M.Sqrt v.squaredLength
  if fLength > 0 then v.scale (1 / fLength) else v

end Vector3

/-- Modelled from the spec: `Matrix3::FromAngleAxis` followed by the product with a vector:
the vector rotated about `axis` by `angle`. -/
def rotateAboutAxis (M : Math) (axis : Vector3) (angle : Real) (v : Vector3) : Vector3 :=
  let fCos := M.Cos angle
  let fSin := M.Sin angle
  let fOneMinusCos := 1 - fCos
  let fXYM := axis.x * axis.y * fOneMinusCos
  let fXZM := axis.x * axis.z * fOneMinusCos
  let fYZM := axis.y * axis.z * fOneMinusCos
  let fXSin := axis.x * fSin
  let fYSin := axis.y * fSin
  let fZSin := axis.z * fSin
  ⟨(axis.x * axis.x * fOneMinusCos + fCos) * v.x + (fXYM - fZSin) * v.y + (fXZM + fYSin) * v.z,
   (fXYM + fZSin) * v.x + (axis.y * axis.y * fOneMinusCos + fCos) * v.y + (fYZM - fXSin) * v.z,
   (fXZM - fYSin) * v.x + (fYZM + fXSin) * v.y + (axis.z * axis.z * fOneMinusCos + fCos) * v.z⟩

/-- The collaborators of a billboard set that live outside this source file: the colour
packing of the render system (`Root::convertColourValue`), the full transform of the parent
scene node applied to a point, and the sphere visibility test of the current camera
(`Camera::isVisible`, on centre and radius). -/
structure Scene where
  convertColourValue : ColourValue → Nat
  parentNodeFullTransform : Vector3 → Vector3
  cameraIsVisible : Vector3 → Real → Bool

inductive BillboardOrigin where
  | BBO_TOP_LEFT | BBO_TOP_CENTER | BBO_TOP_RIGHT
  | BBO_CENTER_LEFT | BBO_CENTER | BBO_CENTER_RIGHT
  | BBO_BOTTOM_LEFT | BBO_BOTTOM_CENTER | BBO_BOTTOM_RIGHT
deriving DecidableEq, Inhabited

inductive BillboardRotationType where
  | BBR_VERTEX | BBR_TEXCOORD
deriving DecidableEq, Inhabited

inductive BillboardType where
  | BBT_POINT | BBT_ORIENTED_COMMON | BBT_ORIENTED_SELF
  | BBT_PERPENDICULAR_COMMON | BBT_PERPENDICULAR_SELF
deriving DecidableEq, Inhabited

inductive SortMode where
  | SM_DIRECTION | SM_DISTANCE
deriving DecidableEq, Inhabited

/-! ## The scene-node import of `SceneFormatImporter`

A shallow embedding of `importSceneNode` and `importSceneNodes` of
`Components/SceneFormat/src/OgreSceneFormatImporter.cpp`.  A JSON entry is reduced to what
these two functions read of it.  The recursion of `importSceneNode` is bounded by a fuel
argument: one unit per call, and the result `none` when it runs out. -/

namespace SceneFormatImporter

/-- What `importSceneNode` reads of the `node` object of a scene-node entry: `parent_id`
when the member is present and an unsigned integer, and `is_static` (false when absent or not
a boolean).  The transform members read by `importNode` are not part of the embedding. -/
structure NodeValue where
  parent_id : Option Nat
  is_static : Bool
deriving DecidableEq, Inhabited

/-- An entry of the `scene_nodes` array: not a JSON object, or an object with its `node`
member (when present and an object) and its `is_root_node` member (false when absent or not
a boolean). -/
inductive SceneNodeValue where
  | notObject
  | object (node : Option NodeValue) (is_root_node : Bool)
deriving DecidableEq, Inhabited

/-- A `SceneNode*`: the root scene node of the scene manager for a memory type, or a node
created by the import, identified by its serial number. -/
inductive SceneNode where
  | root (isStatic : Bool)
  | created (id : Nat)
deriving DecidableEq, Inhabited

/-- The exception codes raised by the node import. -/
inductive ExceptionCodes where
  | ERR_ITEM_NOT_FOUND
deriving DecidableEq, Inhabited

/-- An `Ogre::Exception` of the node import: its code, the node index its description names
and, for an unresolved parent, the parent index it names as well. -/
structure Exception where
  code : ExceptionCodes
  nodeIdx : Nat
  parentIdx : Option Nat
deriving DecidableEq, Inhabited

/-- The state of the importer and of the scene manager it drives: `mCreatedSceneNodes` as
an association list (a later entry for an index comes first), and for every created node its
parent (`none` for a node made by `createSceneNode`) and its memory type. -/
structure Importer where
  mCreatedSceneNodes : List (Nat × SceneNode)
  sceneNodes : List (Option SceneNode × Bool)
deriving DecidableEq, Inhabited

/-- `parentNode->createChildSceneNode(sceneNodeType)`. -/
def createChildSceneNode (imp : Importer) (parentNode : SceneNode) (isStatic : Bool) :
    Importer × SceneNode :=
  ({ imp with sceneNodes := imp.sceneNodes ++ [(some parentNode, isStatic)] },
   SceneNode.created imp.sceneNodes.length)

/-- `mSceneManager->createSceneNode(sceneNodeType)`. -/
def createSceneNode (imp : Importer) (isStatic : Bool) : Importer × SceneNode :=
  ({ imp with sceneNodes := imp.sceneNodes ++ [(none, isStatic)] },
   SceneNode.created imp.sceneNodes.length)

/-- The end of `importSceneNode`: `importNode(nodeValue, sceneNode)` (no effect in the
embedding) and `mCreatedSceneNodes[nodeIdx] = sceneNode`. -/
def registerSceneNode (p : Importer × SceneNode) (nodeIdx : Nat) : Importer × SceneNode :=
  ({ p.1 with mCreatedSceneNodes := (nodeIdx, p.2) :: p.1.mCreatedSceneNodes }, p.2)

/-- `SceneFormatImporter::importSceneNode` for the entry with the members `node` and
`is_root_node`, at index `nodeIdx` of the array `sceneNodesJson`.  The result is `none` when
the fuel does not suffice, an exception, or the importer after the call with the node
created. -/
def importSceneNode : Nat → Importer → Option NodeValue → Bool → Nat → List SceneNodeValue →
    Option (Except Exception (Importer × SceneNode))
  | 0, _, _, _, _, _ => none
  | _ + 1, _, none, _, nodeIdx, _ =>
    some (Except.error
      { code := ExceptionCodes.ERR_ITEM_NOT_FOUND, nodeIdx := nodeIdx, parentIdx := none })
  | fuel + 1, imp, some nodeValue, isRootNode, nodeIdx, sceneNodesJson =>
    let parentIdx := nodeValue.parent_id.getD nodeIdx
    if parentIdx ≠ nodeIdx then
      match imp.mCreatedSceneNodes.lookup parentIdx with
      | none =>
        match sceneNodesJson[parentIdx]? with
        | some (SceneNodeValue.object parentValue parentIsRoot) =>
          match importSceneNode fuel imp parentValue parentIsRoot parentIdx sceneNodesJson with
          | none => none
          | some (Except.error e) => some (Except.error e)
          | some (Except.ok (imp1, parentNode)) =>
            some (Except.ok (registerSceneNode
              (createChildSceneNode imp1 parentNode nodeValue.is_static) nodeIdx))
        | _ =>
          some (Except.error
            { code := ExceptionCodes.ERR_ITEM_NOT_FOUND, nodeIdx := nodeIdx,
              parentIdx := some parentIdx })
      | some parentNode =>
        some (Except.ok (registerSceneNode
          (createChildSceneNode imp parentNode nodeValue.is_static) nodeIdx))
    else if isRootNode then
      some (Except.ok (registerSceneNode (imp, SceneNode.root nodeValue.is_static) nodeIdx))
    else
      some (Except.ok (registerSceneNode (createSceneNode imp nodeValue.is_static) nodeIdx))

/-- The loop of `importSceneNodes` from the entry at index `nodeIdx` on, `entries` being the
entries not yet visited. -/
def importSceneNodesFrom (fuel : Nat) (json : List SceneNodeValue) :
    List SceneNodeValue → Nat → Importer → Option (Except Exception Importer)
  | [], _, imp => some (Except.ok imp)
  | SceneNodeValue.notObject :: entries, nodeIdx, imp =>
    importSceneNodesFrom fuel json entries (nodeIdx + 1) imp
  | SceneNodeValue.object node isRootNode :: entries, nodeIdx, imp =>
    if (imp.mCreatedSceneNodes.lookup nodeIdx).isNone then
      match importSceneNode fuel imp node isRootNode nodeIdx json with
      | none => none
      | some (Except.error e) => some (Except.error e)
      | some (Except.ok (imp1, _)) => importSceneNodesFrom fuel json entries (nodeIdx + 1) imp1
    else
      importSceneNodesFrom fuel json entries (nodeIdx + 1) imp

/-- `SceneFormatImporter::importSceneNodes`. -/
def importSceneNodes (fuel : Nat) (imp : Importer) (json : List SceneNodeValue) :
    Option (Except Exception Importer) :=
  importSceneNodesFrom fuel json json 0 imp

/-- An importer that has created no node yet. -/
def freshImporter : Importer := { mCreatedSceneNodes := [], sceneNodes := [] }

/-- Two entries that name each other as parent. -/
def cyclicNodes : List SceneNodeValue :=
  [SceneNodeValue.object (some { parent_id := some 1, is_static := false }) false,
   SceneNodeValue.object (some { parent_id := some 0, is_static := false }) false]

/-- A child that comes before its parent, the parent being the root node. -/
def forwardNodes : List SceneNodeValue :=
  [SceneNodeValue.object (some { parent_id := some 1, is_static := false }) false,
   SceneNodeValue.object (some { parent_id := none, is_static := false }) true]

end SceneFormatImporter

/-- Modelled from the spec: the `Billboard` record (OgreBillboard.h is not part of the
sources): position, colour, rotation, direction, optional own dimensions, a texcoord index or
an explicit rectangle, and the back-reference to the owning set (`true` once
`_notifyOwner` has stored it). -/
structure Billboard where
  mOwnDimensions : Bool
  mUseTexcoordRect : Bool
  mTexcoordIndex : Nat
  mTexcoordRect : FloatRect
  mWidth : Real
  mHeight : Real
  mPosition : Vector3
  mDirection : Vector3
  mParentSet : Bool
  mColour : ColourValue
  mRotation : Real
deriving DecidableEq, Inhabited

namespace Billboard

/-- Modelled from the spec: the record `OGRE_NEW Billboard()` creates. -/
def new : Billboard :=
  { mOwnDimensions := false, mUseTexcoordRect := false, mTexcoordIndex := 0,
    mTexcoordRect := ⟨0, 0, 0, 0⟩, mWidth := 0, mHeight := 0,
    mPosition := Vector3.ZERO, mDirection := Vector3.ZERO, mParentSet := false,
    mColour := ⟨1, 1, 1, 1⟩, mRotation := 0 }

/-- Modelled from the spec: `Billboard::setPosition`. -/
def setPosition (b : Billboard) (position : Vector3) : Billboard :=
  { b with mPosition := position }

/-- Modelled from the spec: `Billboard::setColour`. -/
def setColour (b : Billboard) (colour : ColourValue) : Billboard :=
  { b with mColour := colour }

/-- Modelled from the spec: `Billboard::setRotation`. -/
def setRotation (b : Billboard) (rotation : Real) : Billboard :=
  { b with mRotation := rotation }

/-- Modelled from the spec: `Billboard::setTexcoordIndex`, which selects the indexed
rectangle of the set instead of an explicit one. -/
def setTexcoordIndex (b : Billboard) (texcoordIndex : Nat) : Billboard :=
  { b with mTexcoordIndex := texcoordIndex, mUseTexcoordRect := false }

/-- Modelled from the spec: `Billboard::resetDimensions`, back to the default dimensions. -/
def resetDimensions (b : Billboard) : Billboard :=
  { b with mOwnDimensions := false }

/-- Modelled from the spec: `Billboard::_notifyOwner`. -/
def _notifyOwner (b : Billboard) : Billboard :=
  { b with mParentSet := true }

end Billboard

/-- GPU vertex data descriptor (`mVertexData`). -/
structure VertexData where
  vertexStart : Nat
  vertexCount : Nat
deriving DecidableEq, Inhabited

/-- GPU index data descriptor (`mIndexData`) with the 16-bit indices written into it. -/
structure IndexData where
  indexStart : Nat
  indexCount : Nat
  indexBuffer : List Nat
deriving DecidableEq, Inhabited

/-- A 32-bit word of the mapped vertex buffer: not written yet, a float, or a packed RGBA
colour. -/
inductive BufferWord where
  | junk
  | float (value : Real)
  | colour (rgba : Nat)
deriving DecidableEq, Inhabited

/-- GPU vertex buffer (`mMainBuf`): stride in bytes, vertex count and usage, whether it is
locked, and its storage as 32-bit words in two parts: `contents`, the words of the region
the last lock mapped (all of the storage before the first lock), which are the words a store
through the lock pointer can reach, and `unmapped`, the words of the storage past that
region. -/
structure HardwareVertexBuffer where
  vertexSize : Nat
  numVertices : Nat
  dynamicUsage : Bool
  contents : List BufferWord
  unmapped : List BufferWord
  isLocked : Bool
deriving DecidableEq, Inhabited

namespace HardwareVertexBuffer

/-- Modelled from the spec: `HardwareBuffer::getSizeInBytes` (OgreHardwareBuffer.h is not
part of the sources). -/
def getSizeInBytes (buf : HardwareVertexBuffer) : Nat := buf.vertexSize * buf.numVertices

/-- Modelled from the spec: `HardwareBuffer::lock(0, length, options)` with `length` in
bytes ("lock(offset,size,mode)→writable pointer"): the first `length / 4` words of the
storage become the mapped region, the rest is out of reach of the lock pointer. -/
def lock (buf : HardwareVertexBuffer) (length : Nat) : HardwareVertexBuffer :=
  let storage := buf.contents ++ buf.unmapped
  { buf with contents := storage.take (length / 4), unmapped := storage.drop (length / 4),
             isLocked := true }

/-- Modelled from the spec: `HardwareBuffer::unlock` ("releases the write lock"). -/
def unlock (buf : HardwareVertexBuffer) : HardwareVertexBuffer :=
  { buf with isLocked := false }

end HardwareVertexBuffer

/-- A `Vector3[4]` array of corner offsets, indexed 0 to 3: top-left, top-right, bottom-left,
bottom-right. -/
structure CornerOffsets where
  v0 : Vector3
  v1 : Vector3
  v2 : Vector3
  v3 : Vector3
deriving DecidableEq, Inhabited

/-- The state of a `BillboardSet`.  Active and free lists hold handles into
`mBillboardPool`.  The material, the render-queue settings and the scene-node link of the
class are not part of the embedding.  `mLockPtr` is the write cursor as a word index into the
storage of `mMainBuf`.  The visible counter `mNumVisibleBillboards` is a natural number (its
declaration is in the header, which is not part of the sources). -/
structure BillboardSet where
  mAABB : AxisAlignedBox
  mBoundingRadius : Real
  mOriginType : BillboardOrigin
  mRotationType : BillboardRotationType
  mDefaultWidth : Real
  mDefaultHeight : Real
  mAllDefaultSize : Bool
  mAutoExtendPool : Bool
  mSortingEnabled : Bool
  mAccurateFacing : Bool
  mAllDefaultRotation : Bool
  mWorldSpace : Bool
  mActiveBillboards : List Nat
  mFreeBillboards : List Nat
  mBillboardPool : List Billboard
  mVertexData : Option VertexData
  mIndexData : Option IndexData
  mMainBuf : Option HardwareVertexBuffer
  mCullIndividual : Bool
  mTextureCoords : List FloatRect
  mBillboardType : BillboardType
  mCommonDirection : Vector3
  mCommonUpVector : Vector3
  mLeftOff : Real
  mRightOff : Real
  mTopOff : Real
  mBottomOff : Real
  mCamX : Vector3
  mCamY : Vector3
  mVOffset : CornerOffsets
  mLockPtr : Nat
  mCamQ : Quaternion
  mCamPos : Vector3
  mCamDir : Vector3
  mNumVisibleBillboards : Nat
  mPointRendering : Bool
  mBuffersCreated : Bool
  mPoolSize : Nat
  mExternalData : Bool
  mAutoUpdate : Bool
  mBillboardDataChanged : Bool
deriving DecidableEq, Inhabited

namespace BillboardSet

/-- `BillboardSet::setDefaultDimensions`. -/
def setDefaultDimensions (s : BillboardSet) (width height : Real) : BillboardSet :=
  { s with mDefaultWidth := width, mDefaultHeight := height }

/-- `BillboardSet::setAutoextend`. -/
def setAutoextend (s : BillboardSet) (autoextend : Bool) : BillboardSet :=
  { s with mAutoExtendPool := autoextend }

/-- `BillboardSet::getAutoextend`. -/
def getAutoextend (s : BillboardSet) : Bool := s.mAutoExtendPool

/-- `BillboardSet::getNumBillboards`. -/
def getNumBillboards (s : BillboardSet) : Nat := s.mActiveBillboards.length

/-- `BillboardSet::getPoolSize`: the size of the pool vector, cast to `unsigned int`. -/
def getPoolSize (s : BillboardSet) : Nat := s.mBillboardPool.length % UINT_RANGE

/-- `BillboardSet::_destroyBuffers`. -/
def _destroyBuffers (s : BillboardSet) : BillboardSet :=
  { s with mVertexData := none, mIndexData := none, mMainBuf := none,
           mBuffersCreated := false }

/-- `BillboardSet::increasePool`: resize the pool vector to `size` and fill every new slot
with a freshly allocated billboard. -/
def increasePool (s : BillboardSet) (size : Nat) : BillboardSet :=
  let oldSize := s.mBillboardPool.length
  { s with mBillboardPool :=
      s.mBillboardPool.take size ++ (List.range' oldSize (size - oldSize)).map fun _ =>
        Billboard.new }

/-- `BillboardSet::setPoolSize`. -/
def setPoolSize (s : BillboardSet) (size : Nat) : BillboardSet :=
  if s.mExternalData = false then
    let currSize := s.mBillboardPool.length
    if currSize ≥ size then s
    else
      let s1 := s.increasePool size
      let s2 := { s1 with mFreeBillboards :=
                    s1.mFreeBillboards ++ List.range' currSize (size - currSize) }
      _destroyBuffers { s2 with mPoolSize := size }
  else
    _destroyBuffers { s with mPoolSize := size }

/-- `BillboardSet::setTextureStacksAndSlices`: the rectangles of a stacks x slices grid, row
by row.  The arguments are `uchar` values. -/
def setTextureStacksAndSlices (s : BillboardSet) (nStacks nSlices : Nat) : BillboardSet :=
  let nStacks := if nStacks = 0 then 1 else nStacks
  let nSlices := if nSlices = 0 then 1 else nSlices
  { s with mTextureCoords :=
      (List.range nStacks).flatMap fun (v : Nat) =>
        (List.range nSlices).map fun (u : Nat) =>
          { left := (u : Real) / (nSlices : Real),
            bottom := ((v : Real) + 1) / (nStacks : Real),
            right := ((u : Real) + 1) / (nSlices : Real),
            top := (v : Real) / (nStacks : Real) } }

/-- The constructor `BillboardSet(name, poolSize, externalData)`.  The argument `uninit`
supplies the members the constructor leaves uninitialised (the cached camera state and the
visible counter); containers and buffer pointers start empty and the box starts null. -/
def mk3 (uninit : BillboardSet) (poolSize : Nat) (externalData : Bool) : BillboardSet :=
  let s : BillboardSet :=
    { uninit with
      mAABB := AxisAlignedBox.null
      mBoundingRadius := 0
      mOriginType := BillboardOrigin.BBO_CENTER
      mRotationType := BillboardRotationType.BBR_TEXCOORD
      mAllDefaultSize := true
      mAutoExtendPool := true
      mSortingEnabled := false
      mAccurateFacing := false
      mAllDefaultRotation := true
      mWorldSpace := false
      mActiveBillboards := []
      mFreeBillboards := []
      mBillboardPool := []
      mVertexData := none
      mIndexData := none
      mMainBuf := none
      mCullIndividual := false
      mTextureCoords := []
      mBillboardType := BillboardType.BBT_POINT
      mCommonDirection := Vector3.UNIT_Z
      mCommonUpVector := Vector3.UNIT_Y
      mPointRendering := false
      mBuffersCreated := false
      mPoolSize := poolSize
      mExternalData := externalData
      mAutoUpdate := true
      mBillboardDataChanged := true }
  let s := s.setDefaultDimensions 100 100
  let s := s.setPoolSize poolSize
  s.setTextureStacksAndSlices 1 1

/-- The default constructor `BillboardSet()`: pool size 0, own data, no `setPoolSize`
call. -/
def mk0 (uninit : BillboardSet) : BillboardSet :=
  let s : BillboardSet :=
    { uninit with
      mAABB := AxisAlignedBox.null
      mBoundingRadius := 0
      mOriginType := BillboardOrigin.BBO_CENTER
      mRotationType := BillboardRotationType.BBR_TEXCOORD
      mAllDefaultSize := true
      mAutoExtendPool := true
      mSortingEnabled := false
      mAccurateFacing := false
      mAllDefaultRotation := true
      mWorldSpace := false
      mActiveBillboards := []
      mFreeBillboards := []
      mBillboardPool := []
      mVertexData := none
      mIndexData := none
      mMainBuf := none
      mCullIndividual := false
      mTextureCoords := []
      mBillboardType := BillboardType.BBT_POINT
      mCommonDirection := Vector3.UNIT_Z
      mCommonUpVector := Vector3.UNIT_Y
      mPointRendering := false
      mBuffersCreated := false
      mPoolSize := 0
      mExternalData := false
      mAutoUpdate := true
      mBillboardDataChanged := true }
  let s := s.setDefaultDimensions 100 100
  s.setTextureStacksAndSlices 1 1

/-- The result of the loop `for (it = begin(); index; --index, ++it);`: the iterator is
advanced once per unit of `index`. -/
def walkForward : Nat → Nat → Nat
  | it, 0 => it
  | it, index + 1 => walkForward (it + 1) index

/-- The result of the loop `for (it = end(); index; --index, --it);`: the iterator is moved
back once per unit of `index`. -/
def walkBackward : Nat → Nat → Nat
  | it, 0 => it
  | it, index + 1 => walkBackward (it - 1) index

/-- The iterator that `getBillboard` and `removeBillboard(unsigned int)` compute for `index`:
from the end when `index >= size >> 1`, with the step count `size - index` taken in
`unsigned int` arithmetic, from the front otherwise. -/
def locate (s : BillboardSet) (index : Nat) : Nat :=
  let size := s.mActiveBillboards.length
  if index ≥ size >>> 1 then
    walkBackward size ((size % UINT_RANGE + UINT_RANGE - index) % UINT_RANGE)
  else
    walkForward 0 index

/-- `BillboardSet::getBillboard`; `none` when the assertion `index < size` fails. -/
def getBillboard (s : BillboardSet) (index : Nat) : Option Nat :=
  if index < s.mActiveBillboards.length then
    s.mActiveBillboards[s.locate index]?
  else none

/-- The single-element splice `mFreeBillboards.splice(mFreeBillboards.end(),
mActiveBillboards, it)`; `none` when `it` does not point at an element. -/
def spliceToFree (s : BillboardSet) (it : Nat) : Option BillboardSet :=
  match s.mActiveBillboards[it]? with
  | none => none
  | some bill =>
    some { s with mFreeBillboards := s.mFreeBillboards ++ [bill],
                  mActiveBillboards := s.mActiveBillboards.eraseIdx it }

/-- `BillboardSet::removeBillboard(unsigned int index)`; `none` when the assertion
`index < size` fails. -/
def removeBillboard (s : BillboardSet) (index : Nat) : Option BillboardSet :=
  if index < s.mActiveBillboards.length then
    s.spliceToFree (s.locate index)
  else none

/-- `BillboardSet::removeBillboard(Billboard* pBill)`: `std::find` gives the first position
holding `pBill`; `none` when the assertion that it was found fails. -/
def removeBillboardByPointer (s : BillboardSet) (pBill : Nat) : Option BillboardSet :=
  let it := s.mActiveBillboards.indexOf pBill
  if it ≠ s.mActiveBillboards.length then
    s.spliceToFree it
  else none

/-- `BillboardSet::clear`: splice the whole active list onto the end of the free list. -/
def clear (s : BillboardSet) : BillboardSet :=
  { s with mFreeBillboards := s.mFreeBillboards ++ s.mActiveBillboards,
           mActiveBillboards := [] }

/-- The writes `createBillboard` makes through `newBill`. -/
def resetBillboard (b : Billboard) (position : Vector3) (colour : ColourValue) : Billboard :=
  let b := b.setPosition position
  let b := b.setColour colour
  let b := { b with mDirection := Vector3.ZERO }
  let b := b.setRotation 0
  let b := b.setTexcoordIndex 0
  let b := b.resetDimensions
  b._notifyOwner

/-- The part of `createBillboard` from `// Get a new billboard` on: take the front of the
free list (`none`, undefined behaviour, when the list is empty), splice it to the back of the
active list, reset the record and merge its extent into the bounds. -/
def getNewBillboard (M : Math) (s : BillboardSet) (position : Vector3)
    (colour : ColourValue) : Option (Option Nat × BillboardSet) :=
  match s.mFreeBillboards with
  | [] => none
  | newBill :: rest =>
    let s2 := { s with mActiveBillboards := s.mActiveBillboards ++ [newBill],
                       mFreeBillboards := rest }
    let pool := s2.mBillboardPool.modify (fun b => resetBillboard b position colour) newBill
    let s3 := { s2 with mBillboardPool := pool }
    let adjust := max s3.mDefaultWidth s3.mDefaultHeight
    let vecAdjust : Vector3 := ⟨adjust, adjust, adjust⟩
    let newMin := position - vecAdjust
    let newMax := position + vecAdjust
    let s4 := { s3 with mAABB := (s3.mAABB.merge newMin).merge newMax }
    let s5 := { s4 with mBoundingRadius := M.boundingRadiusFromAABB s4.mAABB }
    some (some newBill, s5)

/-- `BillboardSet::createBillboard`.  The outer `none` is undefined behaviour (`front()` of
an empty free list); `some (none, s)` is the null return; `some (some newBill, s)` returns
the handle `newBill`.  The product `getPoolSize() * 2` is taken in `unsigned int`. -/
def createBillboard (M : Math) (s : BillboardSet) (position : Vector3)
    (colour : ColourValue) : Option (Option Nat × BillboardSet) :=
  if s.mFreeBillboards.isEmpty then
    if s.mAutoExtendPool then
      getNewBillboard M (s.setPoolSize (s.getPoolSize * 2 % UINT_RANGE)) position colour
    else
      some (none, s)
  else
    getNewBillboard M s position colour

/-- `BillboardSet::_getSortMode`. -/
def _getSortMode (s : BillboardSet) : SortMode :=
  if s.mAccurateFacing ||
      s.mBillboardType == BillboardType.BBT_PERPENDICULAR_SELF ||
      s.mBillboardType == BillboardType.BBT_PERPENDICULAR_COMMON then
    SortMode.SM_DISTANCE
  else
    SortMode.SM_DIRECTION

/-- `SortByDirectionFunctor::operator()`. -/
def SortByDirectionFunctor (sortDir : Vector3) (bill : Billboard) : Real :=
  sortDir.dotProduct bill.mPosition

/-- `SortByDistanceFunctor::operator()`. -/
def SortByDistanceFunctor (sortPos : Vector3) (bill : Billboard) : Real :=
  - (sortPos - bill.mPosition).squaredLength

/-- Modelled from the spec: `RadixSort::sort` (OgreRadixSort.h is not part of the sources),
which orders the list ascending by the key the functor gives; ties are not specified. -/
def RadixSort.sort (key : Nat → Real) (l : List Nat) : List Nat :=
  l.insertionSort fun a b => key a ≤ key b

/-- The record a handle points at. -/
def deref (s : BillboardSet) (bill : Nat) : Billboard :=
  s.mBillboardPool.getD bill Billboard.new

/-- `BillboardSet::_sortBillboards`. -/
def _sortBillboards (s : BillboardSet) : BillboardSet :=
  match s._getSortMode with
  | SortMode.SM_DIRECTION =>
    let key := fun b => SortByDirectionFunctor (-s.mCamDir) (s.deref b)
    { s with mActiveBillboards := RadixSort.sort key s.mActiveBillboards }
  | SortMode.SM_DISTANCE =>
    let key := fun b => SortByDistanceFunctor s.mCamPos (s.deref b)
    { s with mActiveBillboards := RadixSort.sort key s.mActiveBillboards }

/-- The pool operations a client can invoke on a set. -/
inductive Op where
  | createBillboard (position : Vector3) (colour : ColourValue)
  | removeBillboard (index : Nat)
  | removeBillboardByPointer (pBill : Nat)
  | clear
  | setPoolSize (size : Nat)
  | sortBillboards
  | setAutoextend (autoextend : Bool)
deriving DecidableEq

/-- One operation; `none` when the operation has undefined behaviour in the state. -/
def step (M : Math) (s : BillboardSet) : Op → Option BillboardSet
  | Op.createBillboard position colour => (s.createBillboard M position colour).map Prod.snd
  | Op.removeBillboard index => s.removeBillboard index
  | Op.removeBillboardByPointer pBill => s.removeBillboardByPointer pBill
  | Op.clear => some s.clear
  | Op.setPoolSize size => some (s.setPoolSize size)
  | Op.sortBillboards => some s._sortBillboards
  | Op.setAutoextend autoextend => some (s.setAutoextend autoextend)

/-- A sequence of operations, left to right. -/
def run (M : Math) (s : BillboardSet) : List Op → Option BillboardSet
  | [] => some s
  | op :: ops => (s.step M op).bind fun s1 => s1.run M ops

/-- `BillboardSet::_notifyBillboardResized`. -/
def _notifyBillboardResized (s : BillboardSet) : BillboardSet :=
  { s with mAllDefaultSize := false }

/-- `BillboardSet::_notifyBillboardRotated`. -/
def _notifyBillboardRotated (s : BillboardSet) : BillboardSet :=
  { s with mAllDefaultRotation := false }

/-- `BillboardSet::getParametricOffsets`: the values stored through the references
`(left, right, top, bottom)` for the origin type of the set. -/
def getParametricOffsets (s : BillboardSet) : Real × Real × Real × Real :=
  match s.mOriginType with
  | BillboardOrigin.BBO_TOP_LEFT => (0, 1, 0, -1)
  | BillboardOrigin.BBO_TOP_CENTER => (-1/2, 1/2, 0, -1)
  | BillboardOrigin.BBO_TOP_RIGHT => (-1, 0, 0, -1)
  | BillboardOrigin.BBO_CENTER_LEFT => (0, 1, 1/2, -1/2)
  | BillboardOrigin.BBO_CENTER => (-1/2, 1/2, 1/2, -1/2)
  | BillboardOrigin.BBO_CENTER_RIGHT => (-1, 0, 1/2, -1/2)
  | BillboardOrigin.BBO_BOTTOM_LEFT => (0, 1, 1, 0)
  | BillboardOrigin.BBO_BOTTOM_CENTER => (-1/2, 1/2, 1, 0)
  | BillboardOrigin.BBO_BOTTOM_RIGHT => (-1, 0, 1, 0)

/-- `BillboardSet::genVertOffsets`: the array written through `pDestVec`. -/
def genVertOffsets (inleft inright intop inbottom width height : Real) (x y : Vector3) :
    CornerOffsets :=
  let vLeftOff := x.scale (inleft * width)
  let vRightOff := x.scale (inright * width)
  let vTopOff := y.scale (intop * height)
  let vBottomOff := y.scale (inbottom * height)
  { v0 := vLeftOff + vTopOff
    v1 := vRightOff + vTopOff
    v2 := vLeftOff + vBottomOff
    v3 := vRightOff + vBottomOff }

/-- The first step of `genBillboardAxes`: with accurate facing and a POINT, ORIENTED_COMMON
or ORIENTED_SELF set, `mCamDir` becomes the normalised direction from the camera to the
billboard; `none` when that needs the billboard and `bb` is null. -/
def accurateCamDir (M : Math) (s : BillboardSet) (bb : Option Billboard) :
    Option BillboardSet :=
  if s.mAccurateFacing &&
      (s.mBillboardType == BillboardType.BBT_POINT ||
       s.mBillboardType == BillboardType.BBT_ORIENTED_COMMON ||
       s.mBillboardType == BillboardType.BBT_ORIENTED_SELF) then
    match bb with
    | none => none
    | some b => some { s with mCamDir := (b.mPosition - s.mCamPos).normalise M }
  else
    some s

/-- `BillboardSet::genBillboardAxes`: the set with its updated `mCamDir` and the vectors
stored through `pX` and `pY`; `none` when a null `bb` is dereferenced. -/
def genBillboardAxes (M : Math) (s : BillboardSet) (bb : Option Billboard) :
    Option (BillboardSet × Vector3 × Vector3) :=
  match accurateCamDir M s bb with
  | none => none
  | some s1 =>
    match s1.mBillboardType with
    | BillboardType.BBT_POINT =>
      if s1.mAccurateFacing then
        let pY := s1.mCamQ.rotate Vector3.UNIT_Y
        let pX := (s1.mCamDir.crossProduct pY).normalise M
        some (s1, pX, pX.crossProduct s1.mCamDir)
      else
        some (s1, s1.mCamQ.rotate Vector3.UNIT_X, s1.mCamQ.rotate Vector3.UNIT_Y)
    | BillboardType.BBT_ORIENTED_COMMON =>
      let pY := s1.mCommonDirection
      some (s1, (s1.mCamDir.crossProduct pY).normalise M, pY)
    | BillboardType.BBT_ORIENTED_SELF =>
      match bb with
      | none => none
      | some b =>
        let pY := b.mDirection
        some (s1, (s1.mCamDir.crossProduct pY).normalise M, pY)
    | BillboardType.BBT_PERPENDICULAR_COMMON =>
      let pX := s1.mCommonUpVector.crossProduct s1.mCommonDirection
      some (s1, pX, s1.mCommonDirection.crossProduct pX)
    | BillboardType.BBT_PERPENDICULAR_SELF =>
      match bb with
      | none => none
      | some b =>
        let pX := (s1.mCommonUpVector.crossProduct b.mDirection).normalise M
        some (s1, pX, b.mDirection.crossProduct pX)

/-- `BillboardSet::getWorldTransforms`, applied to a point: the identity in world space, the
full transform of the parent node otherwise. -/
def getWorldTransforms (E : Scene) (s : BillboardSet) (p : Vector3) : Vector3 :=
  if s.mWorldSpace then p else E.parentNodeFullTransform p

/-- `BillboardSet::billboardVisible`, for the current camera. -/
def billboardVisible (E : Scene) (s : BillboardSet) (bill : Billboard) : Bool :=
  if !s.mCullIndividual then true
  else
    let centre := s.getWorldTransforms E bill.mPosition
    let radius := if bill.mOwnDimensions then max bill.mWidth bill.mHeight
                  else max s.mDefaultWidth s.mDefaultHeight
    E.cameraIsVisible centre radius

/-- Number of values of a 16-bit `unsigned short`. -/
def USHORT_RANGE : Nat := 2 ^ 16

/-- The six indices `_createBuffers` writes for quad `bboard`, each cast to
`unsigned short`. -/
def quadIndices (bboard : Nat) : List Nat :=
  let idxOff := bboard * 4
  [idxOff % USHORT_RANGE, (idxOff + 2) % USHORT_RANGE, (idxOff + 1) % USHORT_RANGE,
   (idxOff + 1) % USHORT_RANGE, (idxOff + 2) % USHORT_RANGE, (idxOff + 3) % USHORT_RANGE]

/-- `BillboardSet::_createBuffers`.  The element sizes are those of the vertex declaration:
12 bytes for the position (`VET_FLOAT3`), 4 for the colour (`VET_COLOUR`) and, unless point
rendering, 8 for the texture coordinates (`VET_FLOAT2`).  A new buffer holds unwritten
words. -/
def _createBuffers (s : BillboardSet) : BillboardSet :=
  let vertexCount := if s.mPointRendering then s.mPoolSize else s.mPoolSize * 4
  let vertexSize := if s.mPointRendering then 12 + 4 else 12 + 4 + 8
  let mainBuf : HardwareVertexBuffer :=
    { vertexSize := vertexSize, numVertices := vertexCount, dynamicUsage := s.mAutoUpdate,
      contents := List.replicate (vertexSize * vertexCount / 4) BufferWord.junk,
      unmapped := [], isLocked := false }
  let s1 := { s with mVertexData := some { vertexStart := 0, vertexCount := vertexCount },
                     mMainBuf := some mainBuf }
  let s2 :=
    if s1.mPointRendering then s1
    else
      let indexData : IndexData :=
        { indexStart := 0, indexCount := s1.mPoolSize * 6,
          indexBuffer := (List.range s1.mPoolSize).flatMap quadIndices }
      { s1 with mIndexData := some indexData }
  { s2 with mBuffersCreated := true }

/-- The stores `*mLockPtr++ = w` for the words of `ws` in turn on the mapped region
`contents`: the region and the cursor after them; `none` when a store falls outside the
region. -/
def writeWords : List BufferWord → Nat → List BufferWord → Option (List BufferWord × Nat)
  | contents, ptr, [] => some (contents, ptr)
  | contents, ptr, w :: ws =>
    if ptr < contents.length then writeWords (contents.set ptr w) (ptr + 1) ws else none

/-- The words of one vertex with texture coordinates: position, packed colour, `u`, `v`. -/
def vertexWords (pos : Vector3) (colour : Nat) (u v : Real) : List BufferWord :=
  [BufferWord.float pos.x, BufferWord.float pos.y, BufferWord.float pos.z,
   BufferWord.colour colour, BufferWord.float u, BufferWord.float v]

/-- The words `genVertices` stores for billboard `bb` with texcoord rectangle `r`, in the
order of the stores, by branch: point rendering, no rotation, vertex rotation, texcoord
rotation. -/
def billboardWords (M : Math) (E : Scene) (s : BillboardSet) (offsets : CornerOffsets)
    (bb : Billboard) (r : FloatRect) : List BufferWord :=
  let colour := E.convertColourValue bb.mColour
  if s.mPointRendering then
    [BufferWord.float bb.mPosition.x, BufferWord.float bb.mPosition.y,
     BufferWord.float bb.mPosition.z, BufferWord.colour colour]
  else if s.mAllDefaultRotation || bb.mRotation == 0 then
    vertexWords (offsets.v0 + bb.mPosition) colour r.left r.top ++
    vertexWords (offsets.v1 + bb.mPosition) colour r.right r.top ++
    vertexWords (offsets.v2 + bb.mPosition) colour r.left r.bottom ++
    vertexWords (offsets.v3 + bb.mPosition) colour r.right r.bottom
  else if s.mRotationType == BillboardRotationType.BBR_VERTEX then
    let axis :=
      ((offsets.v3 - offsets.v0).crossProduct (offsets.v2 - offsets.v1)).normalise M
    let rotation := rotateAboutAxis M axis bb.mRotation
    vertexWords (rotation offsets.v0 + bb.mPosition) colour r.left r.top ++
    vertexWords (rotation offsets.v1 + bb.mPosition) colour r.right r.top ++
    vertexWords (rotation offsets.v2 + bb.mPosition) colour r.left r.bottom ++
    vertexWords (rotation offsets.v3 + bb.mPosition) colour r.right r.bottom
  else
    let cos_rot := M.Cos bb.mRotation
    let sin_rot := M.Sin bb.mRotation
    let width := (r.right - r.left) / 2
    let height := (r.bottom - r.top) / 2
    let mid_u := r.left + width
    let mid_v := r.top + height
    let cos_rot_w := cos_rot * width
    let cos_rot_h := cos_rot * height
    let sin_rot_w := sin_rot * width
    let sin_rot_h := sin_rot * height
    vertexWords (offsets.v0 + bb.mPosition) colour
      (mid_u - cos_rot_w + sin_rot_h) (mid_v - sin_rot_w - cos_rot_h) ++
    vertexWords (offsets.v1 + bb.mPosition) colour
      (mid_u + cos_rot_w + sin_rot_h) (mid_v + sin_rot_w - cos_rot_h) ++
    vertexWords (offsets.v2 + bb.mPosition) colour
      (mid_u - cos_rot_w - sin_rot_h) (mid_v - sin_rot_w + cos_rot_h) ++
    vertexWords (offsets.v3 + bb.mPosition) colour
      (mid_u + cos_rot_w - sin_rot_h) (mid_v + sin_rot_w + cos_rot_h)

/-- The texcoord rectangle `genVertices` binds to `r`; `none` when the assertion
`bb.mUseTexcoordRect || bb.mTexcoordIndex < mTextureCoords.size()` fails. -/
def texcoordRect (s : BillboardSet) (bb : Billboard) : Option FloatRect :=
  if bb.mUseTexcoordRect then some bb.mTexcoordRect
  else s.mTextureCoords[bb.mTexcoordIndex]?

/-- `BillboardSet::genVertices`: the words of the billboard are stored at the cursor, which
moves past them; `none` when the texcoord assertion fails, there is no buffer, or a store
falls outside the locked region of the buffer. -/
def genVertices (M : Math) (E : Scene) (s : BillboardSet) (offsets : CornerOffsets)
    (bb : Billboard) : Option BillboardSet :=
  match s.texcoordRect bb with
  | none => none
  | some r =>
    match s.mMainBuf with
    | none => none
    | some buf =>
      match writeWords buf.contents s.mLockPtr (billboardWords M E s offsets bb r) with
      | none => none
      | some (contents, ptr) =>
        some { s with mMainBuf := some { buf with contents := contents }, mLockPtr := ptr }

/-- The condition under which axes and offsets are generated per billboard. -/
def perBillboardAxes (s : BillboardSet) : Bool :=
  s.mBillboardType == BillboardType.BBT_ORIENTED_SELF ||
  s.mBillboardType == BillboardType.BBT_PERPENDICULAR_SELF ||
  (s.mAccurateFacing && s.mBillboardType != BillboardType.BBT_PERPENDICULAR_COMMON)

/-- The first statement of `beginBillboards`:
`if(!mBuffersCreated) _createBuffers();`. -/
def ensureBuffers (s : BillboardSet) : BillboardSet :=
  if !s.mBuffersCreated then s._createBuffers else s

/-- The block `if (!mPointRendering) { ... }` of `beginBillboards`: the parametric offsets
are stored and, unless axes are generated per billboard, the shared axes and the shared
offsets for the default dimensions are generated. -/
def prepareOffsets (M : Math) (s : BillboardSet) : Option BillboardSet :=
  if !s.mPointRendering then
    let (left, right, top, bottom) := s.getParametricOffsets
    let s2 := { s with mLeftOff := left, mRightOff := right, mTopOff := top,
                       mBottomOff := bottom }
    if !s2.perBillboardAxes then
      match genBillboardAxes M s2 none with
      | none => none
      | some (s3, pX, pY) =>
        let s4 := { s3 with mCamX := pX, mCamY := pY }
        let offsets := genVertOffsets s4.mLeftOff s4.mRightOff s4.mTopOff s4.mBottomOff
          s4.mDefaultWidth s4.mDefaultHeight s4.mCamX s4.mCamY
        some { s4 with mVOffset := offsets }
    else some s2
  else some s

/-- The locking at the end of `beginBillboards`: for a non-zero `numBillboards` the region of
`min(mPoolSize, numBillboards)` billboards is locked, for zero the entire buffer, and the
cursor is set to the start of the locked region; `none` when there is no buffer or the
assertion on the locked size fails. -/
def lockBuffer (s : BillboardSet) (numBillboards : Nat) : Option BillboardSet :=
  match s.mMainBuf with
  | none => none
  | some buf =>
    if numBillboards ≠ 0 then
      let numBillboards := min s.mPoolSize numBillboards
      let billboardSize := if s.mPointRendering then buf.vertexSize else buf.vertexSize * 4
      if numBillboards * billboardSize ≤ buf.getSizeInBytes then
        some { s with mMainBuf := some (buf.lock (numBillboards * billboardSize)), mLockPtr := 0 }
      else none
    else
      some { s with mMainBuf := some (buf.lock buf.getSizeInBytes), mLockPtr := 0 }

/-- `BillboardSet::beginBillboards`: buffers are created if need be, offsets prepared, the
visible counter reset and the buffer locked. -/
def beginBillboards (M : Math) (s : BillboardSet) (numBillboards : Nat) :
    Option BillboardSet :=
  match prepareOffsets M s.ensureBuffers with
  | none => none
  | some s5 => lockBuffer { s5 with mNumVisibleBillboards := 0 } numBillboards

/-- The part of `injectBillboard` between the visibility test and the call of
`genVertices`: the set after the per-billboard axes and offsets are generated, and the offset
array passed to `genVertices`. -/
def injectOffsets (M : Math) (s : BillboardSet) (bb : Billboard) :
    Option (BillboardSet × CornerOffsets) :=
  let withAxes : Option BillboardSet :=
    if !s.mPointRendering && s.perBillboardAxes then
      match genBillboardAxes M s (some bb) with
      | none => none
      | some (s1, pX, pY) => some { s1 with mCamX := pX, mCamY := pY }
    else some s
  match withAxes with
  | none => none
  | some s1 =>
    if s1.mAllDefaultSize || s1.mPointRendering then
      let s2 :=
        if !s1.mPointRendering && s1.perBillboardAxes then
          let offsets := genVertOffsets s1.mLeftOff s1.mRightOff s1.mTopOff s1.mBottomOff
            s1.mDefaultWidth s1.mDefaultHeight s1.mCamX s1.mCamY
          { s1 with mVOffset := offsets }
        else s1
      some (s2, s2.mVOffset)
    else
      if s1.mBillboardType == BillboardType.BBT_ORIENTED_SELF ||
          s1.mBillboardType == BillboardType.BBT_PERPENDICULAR_SELF ||
          bb.mOwnDimensions ||
          (s1.mAccurateFacing &&
            s1.mBillboardType != BillboardType.BBT_PERPENDICULAR_COMMON) then
        some (s1, genVertOffsets s1.mLeftOff s1.mRightOff s1.mTopOff s1.mBottomOff
          bb.mWidth bb.mHeight s1.mCamX s1.mCamY)
      else
        some (s1, s1.mVOffset)

/-- `BillboardSet::injectBillboard`. -/
def injectBillboard (M : Math) (E : Scene) (s : BillboardSet) (bb : Billboard) :
    Option BillboardSet :=
  if s.mNumVisibleBillboards = s.mPoolSize then some s
  else if !s.billboardVisible E bb then some s
  else
    match s.injectOffsets M bb with
    | none => none
    | some (s1, offsets) =>
      match genVertices M E s1 offsets bb with
      | none => none
      | some s2 => some { s2 with mNumVisibleBillboards := s2.mNumVisibleBillboards + 1 }

/-- `BillboardSet::endBillboards`; `none` when there is no buffer to unlock. -/
def endBillboards (s : BillboardSet) : Option BillboardSet :=
  match s.mMainBuf with
  | none => none
  | some buf => some { s with mMainBuf := some buf.unlock }

/-- A sequence of `injectBillboard` calls, left to right. -/
def injectAll (M : Math) (E : Scene) (s : BillboardSet) : List Billboard → Option BillboardSet
  | [] => some s
  | bb :: bbs => (s.injectBillboard M E bb).bind fun s1 => s1.injectAll M E bbs

/-- The position `_updateBounds` reads for the billboard with handle `bill`: its position,
taken through `invWorld` when the set is in world space and has a parent scene node
(`invWorld` is the inverse of the full transform of that node, `none` without a node). -/
def boundsPosition (invWorld : Option (Vector3 → Vector3)) (s : BillboardSet) (bill : Nat) :
    Vector3 :=
  let pos := (s.deref bill).mPosition
  match invWorld with
  | some f => if s.mWorldSpace then f pos else pos
  | none => pos

/-- One iteration of the loop of `_updateBounds` on the accumulators `(min, max, maxSqLen)`. -/
def boundsStep (acc : Vector3 × Vector3 × Real) (pos : Vector3) : Vector3 × Vector3 × Real :=
  (acc.1.makeFloor pos, acc.2.1.makeCeil pos, max acc.2.2 pos.squaredLength)

/-- `BillboardSet::_updateBounds`.  The accumulators `min` and `max` start at plus and minus
infinity, which no position reaches, so after the first iteration both hold the first
position; `maxSqLen` starts at -1.  The notification of the parent node is not part of the
embedding. -/
def _updateBounds (M : Math) (invWorld : Option (Vector3 → Vector3)) (s : BillboardSet) :
    BillboardSet :=
  match s.mActiveBillboards with
  | [] => { s with mAABB := s.mAABB.setNull, mBoundingRadius := 0 }
  | first :: rest =>
    let pos := boundsPosition invWorld s first
    let acc := (rest.map (boundsPosition invWorld s)).foldl boundsStep
      (pos, pos, max (-1) pos.squaredLength)
    let adjust := max s.mDefaultWidth s.mDefaultHeight
    let vecAdjust : Vector3 := ⟨adjust, adjust, adjust⟩
    let min := acc.1 - vecAdjust
    let max := acc.2.1 + vecAdjust
    { s with mAABB := s.mAABB.setExtents min max, mBoundingRadius := M.Sqrt acc.2.2 }

/-- Every pool record is held exactly once by the two lists together. -/
def PoolInv (s : BillboardSet) : Prop :=
  (s.mActiveBillboards ++ s.mFreeBillboards).Perm (List.range s.mBillboardPool.length)

instance (s : BillboardSet) : Decidable (PoolInv s) := by
  unfold PoolInv
  infer_instance

/-- An instance of the `Math` interface for evaluating concrete runs; the pool operations do
not depend on its values. -/
def exampleMath : Math :=
  { Sqrt := fun x => x, Cos := fun _ => 1, Sin := fun _ => 0,
    boundingRadiusFromAABB := fun _ => 0 }

/-- A `createBillboard` request at the origin with a white colour. -/
def createAtOrigin : Op := Op.createBillboard Vector3.ZERO ⟨1, 1, 1, 1⟩

/-- Pool capacity, active count and free count of a set. -/
def poolShape (s : BillboardSet) : Nat × Nat × Nat :=
  (s.mBillboardPool.length, s.mActiveBillboards.length, s.mFreeBillboards.length)

/-- The state after the run `ops` from a set constructed with pool size `poolSize`. -/
def stateAfter (poolSize : Nat) (ops : List Op) : BillboardSet :=
  ((mk3 default poolSize false).run exampleMath ops).getD default

/-- The specification of removal by index, in the words of the spec: the record at position
`i` of the active list, counted from the front, leaves the active list, whose other records
keep their order, and `bill` is appended to the back of the free list. -/
def removeBillboardSpec (s : BillboardSet) (i : Nat) (bill : Nat) : BillboardSet :=
  { s with mActiveBillboards := s.mActiveBillboards.take i ++ s.mActiveBillboards.drop (i + 1),
           mFreeBillboards := s.mFreeBillboards ++ [bill] }

/-- A run used as an example: two creates, a removal by index, a clear, an explicit growth
and one more create. -/
def exampleOps : List Op :=
  [createAtOrigin, createAtOrigin, Op.removeBillboard 0, Op.clear, Op.setPoolSize 5,
    createAtOrigin]

/-- The shape of a fresh own-data pool of `n` records of which the first `k` are active. -/
def FreshPool (n k : Nat) (s : BillboardSet) : Prop :=
  s.mExternalData = false ∧ s.mAutoExtendPool = true ∧ s.mBillboardPool.length = n ∧
  s.mActiveBillboards = List.range' 0 k ∧ s.mFreeBillboards = List.range' k (n - k)

/-- An own-data set of capacity `2 ^ 31` whose records are all active: the state after
`2 ^ 31` creates on a set constructed with that pool size. -/
def fullPool : BillboardSet :=
  stateAfter (2 ^ 31) (List.replicate (2 ^ 31) createAtOrigin)

/-- An own-data set with `2 ^ 33 - 1` active billboards: the state after growing an empty
pool to that size and creating that many billboards. -/
def hugeActive : BillboardSet :=
  stateAfter 0 (Op.setPoolSize (2 ^ 33 - 1) :: List.replicate (2 ^ 33 - 1) createAtOrigin)

/-- A set of capacity 4 whose four records are active, in the order 0, 1, 2, 3. -/
def fourActive : BillboardSet :=
  stateAfter 4 [createAtOrigin, createAtOrigin, createAtOrigin, createAtOrigin]

/-! ## Spec-level definitions and example states for the rendering claims -/

/-- The grid of the spec for the parametric offsets: `left` by column, `top` by row. -/
def parametricOffsetsSpec (origin : BillboardOrigin) : Real × Real × Real × Real :=
  let left : Real :=
    match origin with
    | BillboardOrigin.BBO_TOP_LEFT | BillboardOrigin.BBO_CENTER_LEFT
    | BillboardOrigin.BBO_BOTTOM_LEFT => 0
    | BillboardOrigin.BBO_TOP_CENTER | BillboardOrigin.BBO_CENTER
    | BillboardOrigin.BBO_BOTTOM_CENTER => -1/2
    | BillboardOrigin.BBO_TOP_RIGHT | BillboardOrigin.BBO_CENTER_RIGHT
    | BillboardOrigin.BBO_BOTTOM_RIGHT => -1
  let top : Real :=
    match origin with
    | BillboardOrigin.BBO_TOP_LEFT | BillboardOrigin.BBO_TOP_CENTER
    | BillboardOrigin.BBO_TOP_RIGHT => 0
    | BillboardOrigin.BBO_CENTER_LEFT | BillboardOrigin.BBO_CENTER
    | BillboardOrigin.BBO_CENTER_RIGHT => 1/2
    | BillboardOrigin.BBO_BOTTOM_LEFT | BillboardOrigin.BBO_BOTTOM_CENTER
    | BillboardOrigin.BBO_BOTTOM_RIGHT => 1
  (left, left + 1, top, top - 1)

/-- The four corner offsets for a quad of the given size and axes: `getParametricOffsets`
followed by `genVertOffsets`, the way `beginBillboards` chains them. -/
def cornerOffsetsFor (s : BillboardSet) (width height : Real) (x y : Vector3) : CornerOffsets :=
  genVertOffsets s.getParametricOffsets.1 s.getParametricOffsets.2.1
    s.getParametricOffsets.2.2.1 s.getParametricOffsets.2.2.2 width height x y

/-- The sort key of the spec for the billboard with handle `bill`: minus the squared distance
from the camera position in DISTANCE mode (accurate facing, or a PERPENDICULAR type), the dot
product of minus the camera direction with the position in DIRECTION mode. -/
def sortKeySpec (s : BillboardSet) (bill : Nat) : Real :=
  if s.mAccurateFacing = true ∨
      s.mBillboardType = BillboardType.BBT_PERPENDICULAR_SELF ∨
      s.mBillboardType = BillboardType.BBT_PERPENDICULAR_COMMON then
    - (s.mCamPos - (s.deref bill).mPosition).squaredLength
  else
    (-s.mCamDir).dotProduct (s.deref bill).mPosition

/-- The camera direction of the per-mode rule of the spec: with accurate facing and a POINT,
ORIENTED_COMMON or ORIENTED_SELF set it is the normalised direction from the camera position
to the billboard, otherwise the cached camera direction. -/
def camDirSpec (M : Math) (s : BillboardSet) (bb : Billboard) : Vector3 :=
  if s.mAccurateFacing = true ∧
      (s.mBillboardType = BillboardType.BBT_POINT ∨
       s.mBillboardType = BillboardType.BBT_ORIENTED_COMMON ∨
       s.mBillboardType = BillboardType.BBT_ORIENTED_SELF) then
    (bb.mPosition - s.mCamPos).normalise M
  else s.mCamDir

/-- The per-mode rule of the spec for the axes `(right, up)` of billboard `bb`. -/
def axesSpec (M : Math) (s : BillboardSet) (bb : Billboard) : Vector3 × Vector3 :=
  let camDir := camDirSpec M s bb
  match s.mBillboardType with
  | BillboardType.BBT_POINT =>
    if s.mAccurateFacing = true then
      let right := (camDir.crossProduct (s.mCamQ.rotate Vector3.UNIT_Y)).normalise M
      (right, right.crossProduct camDir)
    else
      (s.mCamQ.rotate Vector3.UNIT_X, s.mCamQ.rotate Vector3.UNIT_Y)
  | BillboardType.BBT_ORIENTED_COMMON =>
    ((camDir.crossProduct s.mCommonDirection).normalise M, s.mCommonDirection)
  | BillboardType.BBT_ORIENTED_SELF =>
    ((camDir.crossProduct bb.mDirection).normalise M, bb.mDirection)
  | BillboardType.BBT_PERPENDICULAR_COMMON =>
    (s.mCommonUpVector.crossProduct s.mCommonDirection,
     s.mCommonDirection.crossProduct (s.mCommonUpVector.crossProduct s.mCommonDirection))
  | BillboardType.BBT_PERPENDICULAR_SELF =>
    ((s.mCommonUpVector.crossProduct bb.mDirection).normalise M,
     bb.mDirection.crossProduct ((s.mCommonUpVector.crossProduct bb.mDirection).normalise M))

/-- The buffer `buf` with the words `ws` in place of the words from position `ptr` on. -/
def storedAt (buf : HardwareVertexBuffer) (ptr : Nat) (ws : List BufferWord) :
    HardwareVertexBuffer :=
  { buf with contents := buf.contents.take ptr ++ ws ++ buf.contents.drop (ptr + ws.length) }

/-- A camera that sees everything, the identity as parent transform and a colour packing
that gives 0. -/
def exampleScene : Scene :=
  { convertColourValue := fun _ => 0, parentNodeFullTransform := fun p => p,
    cameraIsVisible := fun _ _ => true }

/-- A set of capacity 1 whose only record is free and still holds the fields of an earlier
use: own dimensions 5 x 5, a rotation, a direction and an explicit texcoord rectangle. -/
def recycledSet : BillboardSet :=
  { stateAfter 1 [] with
    mBillboardPool :=
      [{ mOwnDimensions := true, mUseTexcoordRect := true, mTexcoordIndex := 3,
         mTexcoordRect := ⟨0, 0, 1, 1⟩, mWidth := 5, mHeight := 5,
         mPosition := ⟨1, 2, 3⟩, mDirection := ⟨0, 1, 0⟩, mParentSet := true,
         mColour := ⟨0, 0, 0, 1⟩, mRotation := 1 }] }

/-- The state after `createBillboard` at (7, 8, 9) with a white colour on `recycledSet`. -/
def recycledCreated : BillboardSet :=
  ((recycledSet.createBillboard exampleMath ⟨7, 8, 9⟩ ⟨1, 1, 1, 1⟩).map Prod.snd).getD default

/-- A fresh set of capacity 2 after `beginBillboards 2`. -/
def begunSet : BillboardSet :=
  ((stateAfter 2 []).beginBillboards exampleMath 2).getD default

/-- The set `begunSet` after three injections. -/
def injectedSet : BillboardSet :=
  (begunSet.injectAll exampleMath exampleScene
    [Billboard.new, Billboard.new, Billboard.new]).getD default

/-- A set of capacity 1 with billboard type ORIENTED_SELF, default dimensions 100 x 100,
the all-default-size flag cleared (some billboard was resized), and the camera looking down
the negative z axis, after `beginBillboards 1`. -/
def selfOrientedSet : BillboardSet :=
  (beginBillboards exampleMath
    { stateAfter 1 [] with mBillboardType := BillboardType.BBT_ORIENTED_SELF,
                           mAllDefaultSize := false, mCamDir := ⟨0, 0, -1⟩ } 1).getD default

/-- A billboard without own dimensions whose width and height fields hold 5 from an earlier
use, pointing along the y axis. -/
def staleBillboard : Billboard :=
  { Billboard.new with mWidth := 5, mHeight := 5, mDirection := ⟨0, 1, 0⟩ }

/-- The offsets of a quad of the given width and height centred on the origin in the plane
of the x and y axes. -/
def centredQuad (width height : Real) : CornerOffsets :=
  { v0 := ⟨-width / 2, height / 2, 0⟩, v1 := ⟨width / 2, height / 2, 0⟩,
    v2 := ⟨-width / 2, -height / 2, 0⟩, v3 := ⟨width / 2, -height / 2, 0⟩ }

/-- A set whose camera orientation is the unit quaternion (1/2, 1/2, 1/2, 1/2). -/
def halfTurnedSet : BillboardSet :=
  { stateAfter 1 [] with mCamQ := ⟨1/2, 1/2, 1/2, 1/2⟩ }

/-- The value `m` is the least of the values `f p` for the positions `p` of `ps`. -/
def LeastOn (f : Vector3 → Real) (m : Real) (ps : List Vector3) : Prop :=
  (∀ p ∈ ps, m ≤ f p) ∧ ∃ p ∈ ps, f p = m

/-- The value `m` is the greatest of the values `f p` for the positions `p` of `ps`. -/
def GreatestOn (f : Vector3 → Real) (m : Real) (ps : List Vector3) : Prop :=
  (∀ p ∈ ps, f p ≤ m) ∧ ∃ p ∈ ps, f p = m

/-- The positions of the active billboards, in list order. -/
def activePositions (s : BillboardSet) : List Vector3 :=
  s.mActiveBillboards.map fun bill => (s.deref bill).mPosition

/-- The padding of the bounds: `max(mDefaultWidth, mDefaultHeight)` on every axis. -/
def vecAdjust (s : BillboardSet) : Vector3 :=
  ⟨max s.mDefaultWidth s.mDefaultHeight, max s.mDefaultWidth s.mDefaultHeight,
   max s.mDefaultWidth s.mDefaultHeight⟩

/-- The incrementally maintained box holds, for every active billboard, its position minus
and plus the padding: the two points `createBillboard` merges. -/
def Covers (s : BillboardSet) : Prop :=
  ∀ bill ∈ s.mActiveBillboards,
    s.mAABB.containsPoint ((s.deref bill).mPosition - s.vecAdjust) ∧
    s.mAABB.containsPoint ((s.deref bill).mPosition + s.vecAdjust)

/-- The rectangle of the spec for column `u` and row `v` of a grid of `nStacks` rows and
`nSlices` columns. -/
def gridRect (nStacks nSlices u v : Nat) : FloatRect :=
  { left := (u : Real) / (nSlices : Real), right := ((u : Real) + 1) / (nSlices : Real),
    top := (v : Real) / (nStacks : Real), bottom := ((v : Real) + 1) / (nStacks : Real) }

/-- The six indices found in the index buffer for quad `bboard` after `_createBuffers`:
the entries `bboard * 6` to `bboard * 6 + 5`. -/
def quadIndicesWritten (s : BillboardSet) (bboard : Nat) : Option (List Nat) :=
  s._createBuffers.mIndexData.map fun d => (d.indexBuffer.drop (bboard * 6)).take 6

/-- The number of 32-bit words of one billboard in the vertex buffer: one vertex of 4 words
when point rendering, four vertices of 6 words otherwise. -/
def billboardStride (s : BillboardSet) : Nat :=
  if s.mPointRendering then 4 else 24

/-- A set of type POINT whose all-default-size flag is cleared (some billboard was resized):
the shared offsets of a fresh set are all zero before `beginBillboards`. -/
def resizedSet : BillboardSet :=
  { stateAfter 1 [] with mAllDefaultSize := false, mVOffset := ⟨⟨0, 0, 0⟩, ⟨0, 0, 0⟩, ⟨0, 0, 0⟩,
                                                                 ⟨0, 0, 0⟩⟩,
                         mCamQ := ⟨1, 0, 0, 0⟩ }

/-- The accumulators of the loop of `_updateBounds` hold the least and greatest coordinates
and the greatest squared length of the positions seen. -/
def BoundsOf (acc : Vector3 × Vector3 × Real) (ps : List Vector3) : Prop :=
  LeastOn (fun p => p.x) acc.1.x ps ∧ LeastOn (fun p => p.y) acc.1.y ps ∧
  LeastOn (fun p => p.z) acc.1.z ps ∧
  GreatestOn (fun p => p.x) acc.2.1.x ps ∧ GreatestOn (fun p => p.y) acc.2.1.y ps ∧
  GreatestOn (fun p => p.z) acc.2.1.z ps ∧
  GreatestOn Vector3.squaredLength acc.2.2 ps

/-- The number of billboards whose region `beginBillboards numBillboards` locks: the whole
pool for 0 ("lock the entire thing"), `min(mPoolSize, numBillboards)` otherwise. -/
def lockedBillboards (s : BillboardSet) (numBillboards : Nat) : Nat :=
  if numBillboards = 0 then s.mPoolSize else min s.mPoolSize numBillboards

/-- The buffer `buf` is sized for the whole pool of the set in its rendering mode, the way
`_createBuffers` allocates it: vertices of 16 bytes, one per pool record, when point
rendering, and of 24 bytes, four per pool record, otherwise, with one stride of storage words
per pool record. -/
def SizedFor (s : BillboardSet) (buf : HardwareVertexBuffer) : Prop :=
  buf.vertexSize = (if s.mPointRendering then 16 else 24) ∧
  buf.numVertices = (if s.mPointRendering then s.mPoolSize else s.mPoolSize * 4) ∧
  buf.contents.length + buf.unmapped.length = s.mPoolSize * s.billboardStride

/-- When the buffers-created flag is set, the main buffer exists and is sized for the whole
pool.  This holds after construction, and every operation of the embedding keeps it. -/
def BuffersSized (s : BillboardSet) : Prop :=
  s.mBuffersCreated = true → ∃ buf, s.mMainBuf = some buf ∧ SizedFor s buf

/-- The state between `beginBillboards` and `endBillboards` with `locked` billboards locked:
the cursor is as many strides past the start of the locked region as billboards were
written, the buffers exist and are sized for the whole pool, and the locked region holds
`locked` strides and the cursor lies within it. -/
def CursorInv (s : BillboardSet) (locked : Nat) : Prop :=
  s.mLockPtr = s.mNumVisibleBillboards * s.billboardStride ∧
  s.mBuffersCreated = true ∧
  ∃ buf, s.mMainBuf = some buf ∧ SizedFor s buf ∧
    buf.contents.length = locked * s.billboardStride ∧ s.mLockPtr ≤ buf.contents.length

/-- The state after a first frame: a fresh set of capacity 2 after `beginBillboards 2`, three
injections and `endBillboards`. -/
def secondFrameSet : BillboardSet :=
  (injectedSet.endBillboards).getD default

/-- The set `secondFrameSet` after `beginBillboards 1` of the next frame. -/
def secondFrameBegun : BillboardSet :=
  (secondFrameSet.beginBillboards exampleMath 1).getD default

/-- The set `secondFrameBegun` after one injection. -/
def secondFrameInjected : BillboardSet :=
  (secondFrameBegun.injectAll exampleMath exampleScene [Billboard.new]).getD default

/-- Two creations, at the origin and at (10, 0, 0), followed by the removal of the second
billboard. -/
def boundsOps : List Op :=
  [createAtOrigin, Op.createBillboard ⟨10, 0, 0⟩ ⟨1, 1, 1, 1⟩, Op.removeBillboard 1]

/-- The set `resizedSet` after `beginBillboards 1`. -/
def resizedBegun : BillboardSet :=
  (resizedSet.beginBillboards exampleMath 1).getD default

/-! ## Lemmas on the pool invariant -/

theorem perm_cons_eraseIdx_of_get {α : Type} (l : List α) (i : Nat) (b : α)
    (h : l[i]? = some b) : (b :: l.eraseIdx i).Perm l := by
  induction l generalizing i with
  | nil => simp at h
  | cons a l ih =>
    cases i with
    | zero =>
      simp at h
      subst h
      simp
    | succ i =>
      simp at h
      simp only [List.eraseIdx_cons_succ]
      exact List.Perm.trans (List.Perm.swap a b _) (List.Perm.cons a (ih i h))

theorem poolInv_length {s : BillboardSet} (h : PoolInv s) :
    s.mActiveBillboards.length + s.mFreeBillboards.length = s.mBillboardPool.length := by
  have := List.Perm.length_eq h
  simpa using this

theorem poolInv_nodup {s : BillboardSet} (h : PoolInv s) :
    (s.mActiveBillboards ++ s.mFreeBillboards).Nodup :=
  (List.Perm.nodup_iff h).mpr (List.nodup_range _)

theorem setPoolSize_of_ge (s : BillboardSet) (size : Nat)
    (hown : s.mExternalData = false) (h : size ≤ s.mBillboardPool.length) :
    s.setPoolSize size = s := by
  simp [setPoolSize, hown, h]

theorem setPoolSize_external (s : BillboardSet) (size : Nat)
    (hext : s.mExternalData = true) :
    s.setPoolSize size = _destroyBuffers { s with mPoolSize := size } := by
  simp [setPoolSize, hext]

theorem setPoolSize_active (s : BillboardSet) (size : Nat) :
    (s.setPoolSize size).mActiveBillboards = s.mActiveBillboards := by
  by_cases hown : s.mExternalData = false
  · by_cases h : size ≤ s.mBillboardPool.length
    · simp [setPoolSize, hown, h]
    · simp [setPoolSize, hown, h, _destroyBuffers, increasePool]
  · simp [setPoolSize, hown, _destroyBuffers]

theorem setPoolSize_free_of_lt (s : BillboardSet) (size : Nat)
    (hown : s.mExternalData = false) (h : s.mBillboardPool.length < size) :
    (s.setPoolSize size).mFreeBillboards =
      s.mFreeBillboards ++ List.range' s.mBillboardPool.length (size - s.mBillboardPool.length) := by
  have h2 : ¬ size ≤ s.mBillboardPool.length := by omega
  simp [setPoolSize, hown, h2, _destroyBuffers, increasePool]

theorem setPoolSize_pool_of_lt (s : BillboardSet) (size : Nat)
    (hown : s.mExternalData = false) (h : s.mBillboardPool.length < size) :
    (s.setPoolSize size).mBillboardPool =
      s.mBillboardPool ++ List.replicate (size - s.mBillboardPool.length) Billboard.new := by
  have h2 : ¬ size ≤ s.mBillboardPool.length := by omega
  have h3 : List.take size s.mBillboardPool = s.mBillboardPool :=
    List.take_of_length_le (by omega)
  simp [setPoolSize, hown, h2, _destroyBuffers, increasePool, h3]

theorem poolInv_setPoolSize {s : BillboardSet} (size : Nat) (h : PoolInv s) :
    PoolInv (s.setPoolSize size) := by
  by_cases hown : s.mExternalData = false
  · by_cases hle : size ≤ s.mBillboardPool.length
    · rw [setPoolSize_of_ge s size hown hle]; exact h
    · have hlt : s.mBillboardPool.length < size := by omega
      unfold PoolInv
      rw [setPoolSize_active, setPoolSize_free_of_lt s size hown hlt,
        setPoolSize_pool_of_lt s size hown hlt, ← List.append_assoc]
      have hlen : (s.mBillboardPool ++
          List.replicate (size - s.mBillboardPool.length) Billboard.new).length =
          (size - s.mBillboardPool.length) + s.mBillboardPool.length := by
        simp; omega
      have hr := List.range'_append_1 0 s.mBillboardPool.length (size - s.mBillboardPool.length)
      rw [hlen, List.range_eq_range', ← hr, ← List.range_eq_range', Nat.zero_add]
      exact List.Perm.append_right _ h
  · have hext : s.mExternalData = true := by simpa using hown
    rw [setPoolSize_external s size hext]
    exact h

theorem poolInv_clear {s : BillboardSet} (h : PoolInv s) : PoolInv s.clear := by
  unfold PoolInv at *
  simp only [clear, List.nil_append]
  exact List.Perm.trans List.perm_append_comm h

theorem poolInv_spliceToFree {s t : BillboardSet} (it : Nat) (h : PoolInv s)
    (ht : s.spliceToFree it = some t) : PoolInv t := by
  unfold spliceToFree at ht
  split at ht
  · exact absurd ht (by simp)
  · rename_i bill hb
    injection ht with ht
    subst ht
    unfold PoolInv at *
    simp only
    have hperm := perm_cons_eraseIdx_of_get s.mActiveBillboards it bill hb
    refine List.Perm.trans ?_ h
    refine List.Perm.trans ?_ (List.Perm.append_right _ hperm)
    rw [← List.append_assoc]
    refine List.Perm.trans List.perm_append_comm ?_
    simp only [List.cons_append, List.append_assoc, List.nil_append]
    exact List.Perm.refl _

theorem poolInv_removeBillboard {s t : BillboardSet} (index : Nat) (h : PoolInv s)
    (ht : s.removeBillboard index = some t) : PoolInv t := by
  unfold removeBillboard at ht
  split at ht
  · exact poolInv_spliceToFree _ h ht
  · exact absurd ht (by simp)

theorem poolInv_removeBillboardByPointer {s t : BillboardSet} (pBill : Nat) (h : PoolInv s)
    (ht : s.removeBillboardByPointer pBill = some t) : PoolInv t := by
  unfold removeBillboardByPointer at ht
  simp only at ht
  split at ht
  · exact poolInv_spliceToFree _ h ht
  · exact absurd ht (by simp)

theorem poolInv_sortBillboards {s : BillboardSet} (h : PoolInv s) :
    PoolInv s._sortBillboards := by
  unfold PoolInv at *
  unfold _sortBillboards
  split <;>
  · simp only [RadixSort.sort]
    exact List.Perm.trans (List.Perm.append_right _ (List.perm_insertionSort _ _)) h

theorem poolInv_setAutoextend {s : BillboardSet} (b : Bool) (h : PoolInv s) :
    PoolInv (s.setAutoextend b) := h

theorem getNewBillboard_some {M : Math} {s t : BillboardSet} {position : Vector3}
    {colour : ColourValue} {r : Option Nat}
    (h : getNewBillboard M s position colour = some (r, t)) :
    ∃ newBill rest, r = some newBill ∧ s.mFreeBillboards = newBill :: rest ∧
      t.mActiveBillboards = s.mActiveBillboards ++ [newBill] ∧
      t.mFreeBillboards = rest ∧
      t.mBillboardPool.length = s.mBillboardPool.length := by
  unfold getNewBillboard at h
  split at h
  · simp at h
  · rename_i b rest hfree
    simp only [Option.some.injEq, Prod.mk.injEq] at h
    obtain ⟨hb, ht⟩ := h
    subst ht
    exact ⟨b, rest, hb.symm, hfree, rfl, rfl, by simp⟩

/-- What a call of `createBillboard` that hands out a billboard does to the lists. -/
theorem createBillboard_some {M : Math} {s t : BillboardSet} {position : Vector3}
    {colour : ColourValue} {newBill : Nat}
    (h : s.createBillboard M position colour = some (some newBill, t)) :
    ∃ s1 rest, (s1 = s ∨ (s.mFreeBillboards = [] ∧ s.mAutoExtendPool = true ∧
        s1 = s.setPoolSize (s.getPoolSize * 2 % UINT_RANGE))) ∧
      s1.mFreeBillboards = newBill :: rest ∧
      t.mActiveBillboards = s1.mActiveBillboards ++ [newBill] ∧
      t.mFreeBillboards = rest ∧
      t.mBillboardPool.length = s1.mBillboardPool.length := by
  unfold createBillboard at h
  split at h
  · rename_i hempty
    split at h
    · rename_i hauto
      obtain ⟨b, rest, hb, hfree, hact, hfr, hlen⟩ := getNewBillboard_some h
      injection hb with hb
      subst hb
      exact ⟨_, rest, Or.inr ⟨List.isEmpty_iff.mp hempty, hauto, rfl⟩, hfree, hact, hfr, hlen⟩
    · simp at h
  · obtain ⟨b, rest, hb, hfree, hact, hfr, hlen⟩ := getNewBillboard_some h
    injection hb with hb
    subst hb
    exact ⟨s, rest, Or.inl rfl, hfree, hact, hfr, hlen⟩

/-- A null return of `createBillboard` leaves the set as it was and happens only on an
empty free list with auto-extension off. -/
theorem createBillboard_null {M : Math} {s t : BillboardSet} {position : Vector3}
    {colour : ColourValue} (h : s.createBillboard M position colour = some (none, t)) :
    t = s ∧ s.mFreeBillboards = [] ∧ s.mAutoExtendPool = false := by
  unfold createBillboard at h
  split at h
  · rename_i hempty
    split at h
    · obtain ⟨b, rest, hb, _⟩ := getNewBillboard_some h
      simp at hb
    · rename_i hauto
      simp only [Option.some.injEq, Prod.mk.injEq, true_and] at h
      exact ⟨h.symm, List.isEmpty_iff.mp hempty, by simpa using hauto⟩
  · obtain ⟨b, rest, hb, _⟩ := getNewBillboard_some h
    simp at hb

theorem poolInv_createBillboard {M : Math} {s t : BillboardSet} {position : Vector3}
    {colour : ColourValue} {r : Option Nat} (h : PoolInv s)
    (ht : s.createBillboard M position colour = some (r, t)) : PoolInv t := by
  cases r with
  | none => rw [(createBillboard_null ht).1]; exact h
  | some newBill =>
    obtain ⟨s1, rest, hs1, hfree, hact, hfr, hlen⟩ := createBillboard_some ht
    have h1 : PoolInv s1 := by
      rcases hs1 with rfl | ⟨_, _, rfl⟩
      · exact h
      · exact poolInv_setPoolSize _ h
    unfold PoolInv at *
    rw [hact, hfr, hlen]
    rw [hfree] at h1
    simpa using h1

theorem poolInv_step {M : Math} {s t : BillboardSet} (op : Op) (h : PoolInv s)
    (ht : s.step M op = some t) : PoolInv t := by
  cases op with
  | createBillboard position colour =>
    simp only [step, Option.map_eq_some'] at ht
    obtain ⟨⟨r, t1⟩, hc, rfl⟩ := ht
    exact poolInv_createBillboard h hc
  | removeBillboard index => exact poolInv_removeBillboard index h ht
  | removeBillboardByPointer pBill => exact poolInv_removeBillboardByPointer pBill h ht
  | clear =>
    simp only [step, Option.some.injEq] at ht
    subst ht; exact poolInv_clear h
  | setPoolSize size =>
    simp only [step, Option.some.injEq] at ht
    subst ht; exact poolInv_setPoolSize size h
  | sortBillboards =>
    simp only [step, Option.some.injEq] at ht
    subst ht; exact poolInv_sortBillboards h
  | setAutoextend b =>
    simp only [step, Option.some.injEq] at ht
    subst ht; exact poolInv_setAutoextend b h

theorem poolInv_run {M : Math} (ops : List Op) {s t : BillboardSet} (h : PoolInv s)
    (ht : s.run M ops = some t) : PoolInv t := by
  induction ops generalizing s with
  | nil =>
    simp only [run, Option.some.injEq] at ht
    subst ht; exact h
  | cons op ops ih =>
    simp only [run, Option.bind_eq_some] at ht
    obtain ⟨s1, hs1, hrun⟩ := ht
    exact ih (poolInv_step op h hs1) hrun

theorem poolInv_mk3 (uninit : BillboardSet) (poolSize : Nat) (externalData : Bool) :
    PoolInv (mk3 uninit poolSize externalData) := by
  unfold mk3
  simp only [setTextureStacksAndSlices]
  show PoolInv (setPoolSize _ poolSize)
  apply poolInv_setPoolSize
  simp [PoolInv, setDefaultDimensions]

theorem poolInv_mk0 (uninit : BillboardSet) : PoolInv (mk0 uninit) := by
  simp [PoolInv, mk0, setDefaultDimensions, setTextureStacksAndSlices]

/-! ## Lemmas on createBillboard and on the index walk -/

/-- With a non-empty free list `createBillboard` hands out its front record. -/
theorem createBillboard_of_free_cons (M : Math) (s : BillboardSet) (position : Vector3)
    (colour : ColourValue) (bill : Nat) (rest : List Nat)
    (hfree : s.mFreeBillboards = bill :: rest) :
    ∃ t, s.createBillboard M position colour = some (some bill, t) ∧
      t.mActiveBillboards = s.mActiveBillboards ++ [bill] ∧
      t.mFreeBillboards = rest ∧
      t.mBillboardPool.length = s.mBillboardPool.length ∧
      t.mExternalData = s.mExternalData ∧
      t.mAutoExtendPool = s.mAutoExtendPool := by
  simp [createBillboard, getNewBillboard, hfree]

/-- When doubling does not ask for more records than the pool has, an exhausted own-data set
with auto-extend on reads the front of an empty free list. -/
theorem createBillboard_undefined (M : Math) (s : BillboardSet) (position : Vector3)
    (colour : ColourValue) (hown : s.mExternalData = false)
    (hauto : s.mAutoExtendPool = true) (hfree : s.mFreeBillboards = [])
    (hsize : s.getPoolSize * 2 % UINT_RANGE ≤ s.mBillboardPool.length) :
    s.createBillboard M position colour = none := by
  have h1 := setPoolSize_of_ge s _ hown hsize
  simp [createBillboard, getNewBillboard, hfree, hauto, h1]

/-- On an exhausted set with auto-extend on, `createBillboard` continues from the grown set
as it would when called on that set, provided the growth produced a free record. -/
theorem createBillboard_grow (M : Math) (s : BillboardSet) (position : Vector3)
    (colour : ColourValue) (hauto : s.mAutoExtendPool = true) (hfree : s.mFreeBillboards = [])
    (bill : Nat) (rest : List Nat)
    (hgrown : (s.setPoolSize (s.getPoolSize * 2 % UINT_RANGE)).mFreeBillboards = bill :: rest) :
    s.createBillboard M position colour =
      (s.setPoolSize (s.getPoolSize * 2 % UINT_RANGE)).createBillboard M position colour := by
  have h1 : s.createBillboard M position colour =
      getNewBillboard M (s.setPoolSize (s.getPoolSize * 2 % UINT_RANGE)) position colour := by
    simp [createBillboard, hfree, hauto]
  have h2 : (s.setPoolSize (s.getPoolSize * 2 % UINT_RANGE)).createBillboard M position colour =
      getNewBillboard M (s.setPoolSize (s.getPoolSize * 2 % UINT_RANGE)) position colour := by
    simp [createBillboard, hgrown]
  rw [h1, h2]

/-- Doubling from an exhausted own-data pool of `c` records when `2 * c` fits an unsigned
int. -/
theorem createBillboard_doubles (M : Math) (s : BillboardSet) (c : Nat) (position : Vector3)
    (colour : ColourValue) (hown : s.mExternalData = false)
    (hauto : s.mAutoExtendPool = true) (hcap : s.mBillboardPool.length = c) (hc : 1 ≤ c)
    (hfit : c < 2 ^ 31) (hfree : s.mFreeBillboards = []) :
    ∃ t, s.createBillboard M position colour = some (some c, t) ∧
      t.mBillboardPool.length = 2 * c ∧
      t.mActiveBillboards = s.mActiveBillboards ++ [c] ∧
      t.mFreeBillboards = List.range' (c + 1) (c - 1) := by
  have hsz : s.getPoolSize * 2 % UINT_RANGE = 2 * c := by
    unfold getPoolSize UINT_RANGE
    rw [hcap]
    omega
  have hlt : s.mBillboardPool.length < 2 * c := by omega
  have hfr := setPoolSize_free_of_lt s (2 * c) hown hlt
  have hpl := setPoolSize_pool_of_lt s (2 * c) hown hlt
  have hac := setPoolSize_active s (2 * c)
  rw [hfree, hcap, List.nil_append] at hfr
  have hcc : 2 * c - c = (c - 1) + 1 := by omega
  rw [hcc, List.range'_succ] at hfr
  obtain ⟨t, ht, htact, htfree, htlen, _, _⟩ :=
    createBillboard_of_free_cons M (s.setPoolSize (2 * c)) position colour c _ hfr
  refine ⟨t, ?_, ?_, ?_, ?_⟩
  · rw [← hsz] at hfr
    rw [createBillboard_grow M s position colour hauto hfree c _ hfr, hsz]
    exact ht
  · rw [htlen, hpl]; simp; omega
  · rw [htact, hac]
  · exact htfree


theorem freshPool_mk3 (uninit : BillboardSet) (n : Nat) : FreshPool n 0 (mk3 uninit n false) := by
  rcases Nat.eq_zero_or_pos n with h0 | hpos
  · subst h0
    exact ⟨rfl, rfl, rfl, rfl, rfl⟩
  · have hn : ¬ n = 0 := by omega
    simp [FreshPool, mk3, setPoolSize, setTextureStacksAndSlices, setDefaultDimensions,
      _destroyBuffers, increasePool, hn]

theorem freshPool_step (M : Math) (n k : Nat) (s : BillboardSet) (h : FreshPool n k s)
    (hk : k < n) : ∃ t, s.step M createAtOrigin = some t ∧ FreshPool n (k + 1) t := by
  obtain ⟨hown, hauto, hlen, hact, hfree⟩ := h
  have hnk : n - k = (n - (k + 1)) + 1 := by omega
  rw [hnk, List.range'_succ] at hfree
  obtain ⟨t, ht, htact, htfree, htlen, htown, htauto⟩ :=
    createBillboard_of_free_cons M s Vector3.ZERO ⟨1, 1, 1, 1⟩ k _ hfree
  refine ⟨t, ?_, ?_, ?_, ?_, ?_, ?_⟩
  · simp [step, createAtOrigin, ht]
  · rw [htown, hown]
  · rw [htauto, hauto]
  · rw [htlen, hlen]
  · rw [htact, hact, List.range'_concat]; simp
  · exact htfree

theorem freshPool_run (M : Math) (n j : Nat) :
    ∀ (k : Nat) (s : BillboardSet), FreshPool n k s → k + j ≤ n →
      ∃ t, s.run M (List.replicate j createAtOrigin) = some t ∧ FreshPool n (k + j) t := by
  induction j with
  | zero =>
    intro k s h _
    exact ⟨s, rfl, h⟩
  | succ j ih =>
    intro k s h hk
    obtain ⟨s1, hs1, hf1⟩ := freshPool_step M n k s h (by omega)
    obtain ⟨t, ht, hft⟩ := ih (k + 1) s1 hf1 (by omega)
    refine ⟨t, ?_, ?_⟩
    · rw [List.replicate_succ]
      show (s.step M createAtOrigin).bind _ = _
      rw [hs1]
      exact ht
    · have : k + 1 + j = k + (j + 1) := by omega
      rw [← this]
      exact hft

/-- An exhausted fresh pool of `2 ^ 31` records: the doubled size wraps to 0 in unsigned int
arithmetic and the request reads the front of an empty free list. -/
theorem freshPool_full_undefined (M : Math) (s : BillboardSet) (position : Vector3)
    (colour : ColourValue) (h : FreshPool (2 ^ 31) (2 ^ 31) s) :
    s.createBillboard M position colour = none := by
  obtain ⟨hown, hauto, hlen, _, hfree⟩ := h
  rw [Nat.sub_self] at hfree
  refine createBillboard_undefined M s position colour hown hauto hfree ?_
  unfold getPoolSize UINT_RANGE
  rw [hlen]
  decide


theorem freshPool_setPoolSize (uninit : BillboardSet) (n : Nat) :
    FreshPool n 0 ((mk3 uninit 0 false).setPoolSize n) := by
  rcases Nat.eq_zero_or_pos n with h0 | hpos
  · subst h0
    exact ⟨rfl, rfl, rfl, rfl, rfl⟩
  · have hn : ¬ n = 0 := by omega
    simp [FreshPool, mk3, setPoolSize, setTextureStacksAndSlices, setDefaultDimensions,
      _destroyBuffers, increasePool, hn]

theorem freshPool_fullPool : FreshPool (2 ^ 31) (2 ^ 31) fullPool := by
  obtain ⟨t, ht, hf⟩ := freshPool_run exampleMath (2 ^ 31) (2 ^ 31) 0 _
    (freshPool_mk3 default (2 ^ 31)) (by omega)
  have hfull : fullPool = t := by
    unfold fullPool stateAfter
    rw [ht]
    rfl
  rw [hfull]
  rw [Nat.zero_add] at hf
  exact hf


theorem walkForward_eq (it index : Nat) : walkForward it index = it + index := by
  induction index generalizing it with
  | zero => rfl
  | succ k ih => rw [walkForward, ih]; omega

theorem walkBackward_eq (it index : Nat) : walkBackward it index = it - index := by
  induction index generalizing it with
  | zero => rfl
  | succ k ih => rw [walkBackward, ih]; omega

/-- The two walks of `getBillboard` and `removeBillboard` stop at position `index`, except
when the 32-bit step count of the backward walk wraps to 0. -/
theorem locate_eq (s : BillboardSet) (index : Nat)
    (hi : index < s.mActiveBillboards.length) (hu : index < UINT_RANGE)
    (hedge : ¬ (s.mActiveBillboards.length = 2 * UINT_RANGE - 1 ∧ index = UINT_RANGE - 1)) :
    s.locate index = index := by
  unfold locate
  simp only [Nat.shiftRight_eq_div_pow, pow_one]
  unfold UINT_RANGE at *
  split
  · rename_i hge
    rw [walkBackward_eq]
    omega
  · rw [walkForward_eq]
    omega

theorem run_cons (M : Math) (s : BillboardSet) (op : Op) (ops : List Op) :
    s.run M (op :: ops) = (s.step M op).bind fun s1 => s1.run M ops := rfl

theorem step_setPoolSize (M : Math) (s : BillboardSet) (size : Nat) :
    s.step M (Op.setPoolSize size) = some (s.setPoolSize size) := rfl

theorem freshPool_hugeActive : FreshPool (2 ^ 33 - 1) (2 ^ 33 - 1) hugeActive := by
  obtain ⟨t, ht, hf⟩ := freshPool_run exampleMath (2 ^ 33 - 1) (2 ^ 33 - 1) 0 _
    (freshPool_setPoolSize default (2 ^ 33 - 1)) (by omega)
  have hhuge : hugeActive = t := by
    unfold hugeActive stateAfter
    rw [run_cons, step_setPoolSize, Option.some_bind, ht, Option.getD_some]
  rw [hhuge]
  rw [Nat.zero_add] at hf
  exact hf

/-- The huge set has `2 ^ 33 - 1` active billboards. -/
theorem hugeActive_length : hugeActive.mActiveBillboards.length = 2 ^ 33 - 1 := by
  have h := freshPool_hugeActive
  rw [h.2.2.2.1, List.length_range']

/-- The backward walk: the iterator stops `size - index` steps, computed in unsigned int,
before `end()`. -/
theorem locate_of_ge (s : BillboardSet) (index : Nat)
    (h : index ≥ s.mActiveBillboards.length / 2) :
    s.locate index = s.mActiveBillboards.length -
      (s.mActiveBillboards.length % UINT_RANGE + UINT_RANGE - index) % UINT_RANGE := by
  unfold locate
  simp only [Nat.shiftRight_eq_div_pow, pow_one]
  rw [if_pos h, walkBackward_eq]

/-- With `2 ^ 33 - 1` elements and index `2 ^ 32 - 1` the 32-bit step count is 0. -/
theorem step_count_wraps : 2 ^ 33 - 1 - ((2 ^ 33 - 1) % 2 ^ 32 + 2 ^ 32 - (2 ^ 32 - 1)) % 2 ^ 32
    = 2 ^ 33 - 1 := by norm_num

theorem backward_walk_chosen : 2 ^ 32 - 1 ≥ (2 ^ 33 - 1) / 2 := by norm_num

theorem hugeActive_locate : hugeActive.locate (2 ^ 32 - 1) = 2 ^ 33 - 1 := by
  rw [locate_of_ge _ _ (by rw [hugeActive_length]; exact backward_walk_chosen), hugeActive_length]
  exact step_count_wraps


theorem getBillboard_of_locate_end (s : BillboardSet) (index : Nat)
    (h : s.locate index = s.mActiveBillboards.length) : s.getBillboard index = none := by
  unfold getBillboard
  split
  · rw [h]
    exact List.getElem?_eq_none (Nat.le_refl _)
  · rfl

theorem removeBillboard_of_locate_end (s : BillboardSet) (index : Nat)
    (h : s.locate index = s.mActiveBillboards.length) : s.removeBillboard index = none := by
  unfold removeBillboard
  split
  · unfold spliceToFree
    rw [h, List.getElem?_eq_none (Nat.le_refl _)]
  · rfl

/-! ## Lemmas on sorting, axes, offsets and injection -/

/-- Vector addition by components. -/
theorem vector3_add_def (a b : Vector3) : a + b = ⟨a.x + b.x, a.y + b.y, a.z + b.z⟩ := rfl

/-- Vector subtraction by components. -/
theorem vector3_sub_def (a b : Vector3) : a - b = ⟨a.x - b.x, a.y - b.y, a.z - b.z⟩ := rfl

/-- Vector negation by components. -/
theorem vector3_neg_def (a : Vector3) : -a = ⟨-a.x, -a.y, -a.z⟩ := rfl

/-- The record `getNewBillboard` hands out is the front of the free list, and the pool after
the call is the pool before it with that record reset. -/
theorem getNewBillboard_pool {M : Math} {s t : BillboardSet} {position : Vector3}
    {colour : ColourValue} {newBill : Nat}
    (h : getNewBillboard M s position colour = some (some newBill, t)) :
    newBill ∈ s.mFreeBillboards ∧
    t.mBillboardPool =
      s.mBillboardPool.modify (fun b => resetBillboard b position colour) newBill := by
  unfold getNewBillboard at h
  split at h
  · simp at h
  · rename_i b rest hfree
    simp only [Option.some.injEq, Prod.mk.injEq] at h
    obtain ⟨hb, ht⟩ := h
    subst hb
    subst ht
    exact ⟨by rw [hfree]; exact List.mem_cons_self _ _, rfl⟩

/-- Growing the pool keeps the free list within the pool. -/
theorem setPoolSize_free_valid (s : BillboardSet) (size : Nat)
    (hvalid : ∀ b ∈ s.mFreeBillboards, b < s.mBillboardPool.length) :
    ∀ b ∈ (s.setPoolSize size).mFreeBillboards, b < (s.setPoolSize size).mBillboardPool.length := by
  by_cases hown : s.mExternalData = false
  · by_cases hle : size ≤ s.mBillboardPool.length
    · rw [setPoolSize_of_ge s size hown hle]; exact hvalid
    · have hlt : s.mBillboardPool.length < size := by omega
      rw [setPoolSize_free_of_lt s size hown hlt, setPoolSize_pool_of_lt s size hown hlt]
      intro b hb
      simp only [List.mem_append, List.mem_range'_1] at hb
      simp only [List.length_append, List.length_replicate]
      rcases hb with hb | hb
      · have := hvalid b hb; omega
      · omega
  · have hext : s.mExternalData = true := by simpa using hown
    rw [setPoolSize_external s size hext]
    exact hvalid

/-- The sort permutes its input. -/
theorem radixSort_perm (key : Nat → Real) (l : List Nat) : (RadixSort.sort key l).Perm l :=
  List.perm_insertionSort _ _

/-- The output of the sort is in non-decreasing key order. -/
theorem radixSort_sorted (key : Nat → Real) (l : List Nat) :
    (RadixSort.sort key l).Sorted (fun a b => key a ≤ key b) := by
  haveI : IsTotal Nat (fun a b => key a ≤ key b) := ⟨fun a b => le_total (key a) (key b)⟩
  haveI : IsTrans Nat (fun a b => key a ≤ key b) := ⟨fun _ _ _ h1 h2 => le_trans h1 h2⟩
  exact List.sorted_insertionSort _ _

/-- The functor `_sortBillboards` picks computes the sort key of the spec. -/
theorem sortBillboards_eq (s : BillboardSet) :
    s._sortBillboards =
      { s with mActiveBillboards := RadixSort.sort (sortKeySpec s) s.mActiveBillboards } := by
  unfold _sortBillboards _getSortMode sortKeySpec
  by_cases h : s.mAccurateFacing = true ∨
      s.mBillboardType = BillboardType.BBT_PERPENDICULAR_SELF ∨
      s.mBillboardType = BillboardType.BBT_PERPENDICULAR_COMMON
  · have h2 : (s.mAccurateFacing ||
        s.mBillboardType == BillboardType.BBT_PERPENDICULAR_SELF ||
        s.mBillboardType == BillboardType.BBT_PERPENDICULAR_COMMON) = true := by
      simpa [or_assoc] using h
    simp [h2, h, SortByDistanceFunctor]
  · have h2 : ¬ (s.mAccurateFacing ||
        s.mBillboardType == BillboardType.BBT_PERPENDICULAR_SELF ||
        s.mBillboardType == BillboardType.BBT_PERPENDICULAR_COMMON) = true := by
      simpa [or_assoc] using h
    simp [h2, h, SortByDirectionFunctor]

/-- For a billboard the first step of `genBillboardAxes` sets the camera direction of the
per-mode rule. -/
theorem accurateCamDir_some (M : Math) (s : BillboardSet) (bb : Billboard) :
    accurateCamDir M s (some bb) = some { s with mCamDir := camDirSpec M s bb } := by
  unfold accurateCamDir camDirSpec
  by_cases h : s.mAccurateFacing = true ∧
      (s.mBillboardType = BillboardType.BBT_POINT ∨
       s.mBillboardType = BillboardType.BBT_ORIENTED_COMMON ∨
       s.mBillboardType = BillboardType.BBT_ORIENTED_SELF)
  · have hb : (s.mAccurateFacing &&
        (s.mBillboardType == BillboardType.BBT_POINT ||
         s.mBillboardType == BillboardType.BBT_ORIENTED_COMMON ||
         s.mBillboardType == BillboardType.BBT_ORIENTED_SELF)) = true := by
      simpa [or_assoc] using h
    rw [if_pos hb, if_pos h]
  · have hb : ¬ (s.mAccurateFacing &&
        (s.mBillboardType == BillboardType.BBT_POINT ||
         s.mBillboardType == BillboardType.BBT_ORIENTED_COMMON ||
         s.mBillboardType == BillboardType.BBT_ORIENTED_SELF)) = true := by
      simpa [or_assoc] using h
    rw [if_neg hb, if_neg h]

/-- For a billboard `genBillboardAxes` is defined and yields the axes of the per-mode
rule. -/
theorem genBillboardAxes_of_some (M : Math) (s : BillboardSet) (bb : Billboard) :
    genBillboardAxes M s (some bb) =
      some ({ s with mCamDir := camDirSpec M s bb }, (axesSpec M s bb).1,
        (axesSpec M s bb).2) := by
  unfold genBillboardAxes
  rw [accurateCamDir_some]
  unfold axesSpec
  cases htype : s.mBillboardType <;> cases hacc : s.mAccurateFacing <;> simp [htype, hacc]

/-- `genBillboardAxes` changes nothing but the cached camera direction. -/
theorem genBillboardAxes_frame {M : Math} {s s1 : BillboardSet} {bb : Option Billboard}
    {pX pY : Vector3} (h : genBillboardAxes M s bb = some (s1, pX, pY)) :
    s1 = { s with mCamDir := s1.mCamDir } := by
  unfold genBillboardAxes at h
  have hacc : ∀ s0, accurateCamDir M s bb = some s0 → s0 = { s with mCamDir := s0.mCamDir } := by
    intro s0 h0
    unfold accurateCamDir at h0
    split at h0
    · split at h0
      · simp at h0
      · simp only [Option.some.injEq] at h0
        subst h0
        rfl
    · simp only [Option.some.injEq] at h0
      subst h0
      rfl
  split at h
  · simp at h
  · rename_i s0 h0
    have hs0 := hacc s0 h0
    have : s1 = s0 := by
      split at h
      · split at h <;> simp at h <;> exact h.1.symm
      · simp at h; exact h.1.symm
      · split at h
        · simp at h
        · simp at h; exact h.1.symm
      · simp at h; exact h.1.symm
      · split at h
        · simp at h
        · simp at h; exact h.1.symm
    rw [this]
    exact hs0

/-- `injectOffsets` is defined for every billboard and changes nothing but the cached camera
direction, axes and shared offsets. -/
theorem injectOffsets_some (M : Math) (s : BillboardSet) (bb : Billboard) :
    ∃ s1 offsets, s.injectOffsets M bb = some (s1, offsets) ∧
      s1 = { s with mCamDir := s1.mCamDir, mCamX := s1.mCamX, mCamY := s1.mCamY,
                    mVOffset := s1.mVOffset } := by
  unfold injectOffsets
  cases hper : (!s.mPointRendering && s.perBillboardAxes)
  · simp only [Bool.false_eq_true, ↓reduceIte, hper]
    split_ifs <;> exact ⟨_, _, rfl, rfl⟩
  · have hper2 : (!s.mPointRendering && perBillboardAxes
        { s with mCamDir := camDirSpec M s bb, mCamX := (axesSpec M s bb).1,
                 mCamY := (axesSpec M s bb).2 }) = true := hper
    simp only [↓reduceIte, genBillboardAxes_of_some, hper2]
    split_ifs <;> exact ⟨_, _, rfl, rfl⟩

/-- One store followed by a splice of the following words is a splice of all the words. -/
theorem set_splice {α : Type} (c : List α) (ptr : Nat) (w : α) (ws : List α)
    (hlt : ptr < c.length) :
    (c.set ptr w).take (ptr + 1) ++ ws ++ (c.set ptr w).drop (ptr + 1 + ws.length) =
      c.take ptr ++ w :: ws ++ c.drop (ptr + (ws.length + 1)) := by
  have hA : (c.take ptr).length = ptr := by simp; omega
  rw [List.set_eq_take_append_cons_drop, if_pos hlt]
  have h1 : List.take (ptr + 1) (List.take ptr c ++ w :: List.drop (ptr + 1) c) =
      List.take ptr c ++ [w] := by
    rw [List.take_append_eq_append_take, hA]
    simp
  have h2 : List.drop (ptr + 1 + ws.length) (List.take ptr c ++ w :: List.drop (ptr + 1) c) =
      List.drop (ptr + (ws.length + 1)) c := by
    rw [List.drop_append_eq_append_drop, hA]
    have : ptr + 1 + ws.length - ptr = ws.length + 1 := by omega
    rw [this, List.drop_succ_cons, List.drop_drop]
    have h3 : List.drop (ptr + 1 + ws.length) (List.take ptr c) = [] := by
      apply List.drop_eq_nil_of_le; rw [hA]; omega
    rw [h3]
    simp
    congr 1
    omega
  rw [h1, h2]
  simp

/-- Stores that stay inside the storage replace the words at the cursor and move the cursor
past them. -/
theorem writeWords_of_fits (ws : List BufferWord) :
    ∀ (contents : List BufferWord) (ptr : Nat), ptr + ws.length ≤ contents.length →
      writeWords contents ptr ws =
        some (contents.take ptr ++ ws ++ contents.drop (ptr + ws.length), ptr + ws.length) := by
  induction ws with
  | nil =>
    intro contents ptr _
    simp [writeWords]
  | cons w ws ih =>
    intro contents ptr h
    have hlt : ptr < contents.length := by simp at h; omega
    have hfit : ptr + 1 + ws.length ≤ (contents.set ptr w).length := by
      simp at h ⊢; omega
    rw [writeWords, if_pos hlt, ih _ _ hfit, set_splice contents ptr w ws hlt]
    simp only [List.length_cons, Option.some.injEq, Prod.mk.injEq, true_and]
    omega

/-- A store sequence that succeeds moves the cursor past the words and keeps the size of the
storage. -/
theorem writeWords_some (ws : List BufferWord) :
    ∀ (contents contents1 : List BufferWord) (ptr ptr1 : Nat),
      writeWords contents ptr ws = some (contents1, ptr1) →
      ptr1 = ptr + ws.length ∧ contents1.length = contents.length := by
  induction ws with
  | nil =>
    intro contents contents1 ptr ptr1 h
    simp [writeWords] at h
    exact ⟨by simp [h.2], by rw [h.1]⟩
  | cons w ws ih =>
    intro contents contents1 ptr ptr1 h
    rw [writeWords] at h
    split at h
    · rename_i hlt
      obtain ⟨h1, h2⟩ := ih _ _ _ _ h
      simp at h2 ⊢
      omega
    · simp at h

/-- `genVertices` touches only the storage of the buffer and the cursor. -/
theorem genVertices_frame {M : Math} {E : Scene} {s t : BillboardSet}
    {offsets : CornerOffsets} {bb : Billboard} (h : genVertices M E s offsets bb = some t) :
    t = { s with mMainBuf := t.mMainBuf, mLockPtr := t.mLockPtr } := by
  unfold genVertices at h
  split at h
  · simp at h
  · split at h
    · simp at h
    · split at h
      · simp at h
      · simp only [Option.some.injEq] at h
        subst h
        rfl

/-- The number of words `genVertices` stores for a billboard: 4 when point rendering, 24
otherwise. -/
theorem billboardWords_length (M : Math) (E : Scene) (s : BillboardSet)
    (offsets : CornerOffsets) (bb : Billboard) (r : FloatRect) :
    (billboardWords M E s offsets bb r).length = if s.mPointRendering then 4 else 24 := by
  unfold billboardWords
  split_ifs <;> simp [vertexWords]

/-- `genVertices` with a buffer that has room at the cursor. -/
theorem genVertices_of_fits (M : Math) (E : Scene) (s : BillboardSet) (offsets : CornerOffsets)
    (bb : Billboard) (buf : HardwareVertexBuffer) (r : FloatRect)
    (hbuf : s.mMainBuf = some buf) (hr : s.texcoordRect bb = some r)
    (hfit : s.mLockPtr + (billboardWords M E s offsets bb r).length ≤ buf.contents.length) :
    ∃ t, genVertices M E s offsets bb = some t ∧
      t.mMainBuf = some (storedAt buf s.mLockPtr (billboardWords M E s offsets bb r)) ∧
      t.mLockPtr = s.mLockPtr + (billboardWords M E s offsets bb r).length ∧
      t = { s with mMainBuf := t.mMainBuf, mLockPtr := t.mLockPtr } := by
  unfold genVertices
  simp only [hr, hbuf, writeWords_of_fits _ _ _ hfit]
  exact ⟨_, rfl, rfl, rfl, rfl⟩

/-- What an `injectBillboard` call that passes both tests does: the offsets are chosen, the
words are stored and the counter goes up by one. -/
theorem injectBillboard_of_visible (M : Math) (E : Scene) (s : BillboardSet) (bb : Billboard)
    (hcount : s.mNumVisibleBillboards ≠ s.mPoolSize) (hvis : s.billboardVisible E bb = true) :
    s.injectBillboard M E bb =
      (s.injectOffsets M bb).bind fun p =>
        (genVertices M E p.1 p.2 bb).map fun s2 =>
          { s2 with mNumVisibleBillboards := s2.mNumVisibleBillboards + 1 } := by
  unfold injectBillboard
  rw [if_neg hcount]
  simp only [hvis, Bool.not_true, Bool.false_eq_true, ↓reduceIte]
  cases h1 : s.injectOffsets M bb with
  | none => rfl
  | some p =>
    obtain ⟨s1, offsets⟩ := p
    simp only [Option.some_bind]
    cases h2 : genVertices M E s1 offsets bb <;> rfl

/-- `injectBillboard` keeps the pool size and never takes the counter past it. -/
theorem injectBillboard_counter {M : Math} {E : Scene} {s t : BillboardSet} {bb : Billboard}
    (h : s.injectBillboard M E bb = some t) :
    t.mPoolSize = s.mPoolSize ∧
    (t.mNumVisibleBillboards = s.mNumVisibleBillboards ∨
      (s.mNumVisibleBillboards ≠ s.mPoolSize ∧
        t.mNumVisibleBillboards = s.mNumVisibleBillboards + 1)) := by
  by_cases hcount : s.mNumVisibleBillboards = s.mPoolSize
  · simp only [injectBillboard, hcount, if_true, Option.some.injEq] at h
    subst h
    exact ⟨rfl, Or.inl rfl⟩
  · by_cases hvis : s.billboardVisible E bb = true
    · rw [injectBillboard_of_visible M E s bb hcount hvis] at h
      obtain ⟨s1, offsets, h1, hs1⟩ := injectOffsets_some M s bb
      rw [h1, Option.some_bind, Option.map_eq_some'] at h
      obtain ⟨s2, h2, rfl⟩ := h
      have hs2 := genVertices_frame h2
      refine ⟨?_, Or.inr ⟨hcount, ?_⟩⟩
      · show s2.mPoolSize = s.mPoolSize
        rw [hs2, hs1]
      · show s2.mNumVisibleBillboards + 1 = s.mNumVisibleBillboards + 1
        rw [hs2, hs1]
    · have hv : s.billboardVisible E bb = false := by simpa using hvis
      simp only [injectBillboard, if_neg hcount, hv, Bool.not_false, if_true,
        Option.some.injEq] at h
      subst h
      exact ⟨rfl, Or.inl rfl⟩

/-- A run of injections keeps the pool size and the counter within it. -/
theorem injectAll_counter {M : Math} {E : Scene} (bbs : List Billboard) :
    ∀ {s t : BillboardSet}, s.injectAll M E bbs = some t →
      s.mNumVisibleBillboards ≤ s.mPoolSize →
      t.mPoolSize = s.mPoolSize ∧ t.mNumVisibleBillboards ≤ t.mPoolSize := by
  induction bbs with
  | nil =>
    intro s t h hle
    simp only [injectAll, Option.some.injEq] at h
    subst h
    exact ⟨rfl, hle⟩
  | cons bb bbs ih =>
    intro s t h hle
    simp only [injectAll, Option.bind_eq_some] at h
    obtain ⟨s1, h1, h2⟩ := h
    obtain ⟨hp, hc⟩ := injectBillboard_counter h1
    have hle1 : s1.mNumVisibleBillboards ≤ s1.mPoolSize := by
      rcases hc with hc | ⟨hne, hc⟩ <;> omega
    obtain ⟨hp2, hc2⟩ := ih h2 hle1
    exact ⟨by rw [hp2, hp], hc2⟩

/-- Creating the buffers keeps the pool size. -/
theorem createBuffers_poolSize (s : BillboardSet) : s._createBuffers.mPoolSize = s.mPoolSize := by
  unfold _createBuffers
  simp only
  split <;> rfl

/-- The buffer check at the start of `beginBillboards` keeps the pool size. -/
theorem ensureBuffers_poolSize (s : BillboardSet) : s.ensureBuffers.mPoolSize = s.mPoolSize := by
  unfold ensureBuffers
  split
  · exact createBuffers_poolSize s
  · rfl

/-- The offset precomputation keeps the pool size. -/
theorem prepareOffsets_poolSize {M : Math} {s t : BillboardSet}
    (h : prepareOffsets M s = some t) : t.mPoolSize = s.mPoolSize := by
  unfold prepareOffsets at h
  split at h
  · simp only at h
    split at h
    · split at h
      · simp at h
      · rename_i s3 pX pY hax
        simp only [Option.some.injEq] at h
        subst h
        have hf := genBillboardAxes_frame hax
        show s3.mPoolSize = s.mPoolSize
        rw [hf]
    · simp only [Option.some.injEq] at h
      subst h
      rfl
  · simp only [Option.some.injEq] at h
    subst h
    rfl

/-- Locking keeps the counter and the pool size and puts the cursor at the start. -/
theorem lockBuffer_some {s t : BillboardSet} {numBillboards : Nat}
    (h : s.lockBuffer numBillboards = some t) :
    t.mNumVisibleBillboards = s.mNumVisibleBillboards ∧ t.mLockPtr = 0 ∧
      t.mPoolSize = s.mPoolSize := by
  unfold lockBuffer at h
  split at h
  · simp at h
  · simp only at h
    split_ifs at h
    all_goals (injection h with h; subst h; exact ⟨rfl, rfl, rfl⟩)

/-- A successful `beginBillboards` resets the counter and the cursor and keeps the pool
size. -/
theorem beginBillboards_some {M : Math} {s t : BillboardSet} {numBillboards : Nat}
    (h : s.beginBillboards M numBillboards = some t) :
    t.mNumVisibleBillboards = 0 ∧ t.mLockPtr = 0 ∧ t.mPoolSize = s.mPoolSize := by
  unfold beginBillboards at h
  split at h
  · simp at h
  · rename_i s5 hprep
    obtain ⟨h1, h2, h3⟩ := lockBuffer_some h
    refine ⟨h1, h2, ?_⟩
    rw [h3]
    show s5.mPoolSize = s.mPoolSize
    rw [prepareOffsets_poolSize hprep, ensureBuffers_poolSize]

/-- The x axis `genBillboardAxes` gives `staleBillboard` under a camera looking down the
negative z axis. -/
theorem selfOriented_axis :
    Vector3.normalise exampleMath
      (Vector3.crossProduct ⟨0, 0, -1⟩ staleBillboard.mDirection) = ⟨1, 0, 0⟩ := by
  simp [Vector3.normalise, Vector3.crossProduct, Vector3.squaredLength, Vector3.scale,
    exampleMath, staleBillboard]

/-- With the CENTER bounds and the world x and y axes `genVertOffsets` yields the centred
quad. -/
theorem genVertOffsets_centred (width height : Real) :
    genVertOffsets (-1/2) (1/2) (1/2) (-1/2) width height ⟨1, 0, 0⟩ ⟨0, 1, 0⟩ =
      centredQuad width height := by
  simp only [genVertOffsets, centredQuad, Vector3.scale, vector3_add_def,
    CornerOffsets.mk.injEq, Vector3.mk.injEq]
  refine ⟨⟨?_, ?_, ?_⟩, ⟨?_, ?_, ?_⟩, ⟨?_, ?_, ?_⟩, ⟨?_, ?_, ?_⟩⟩ <;> ring

/-! ## Lemmas on texture grids, indices, bounds and the write cursor -/

/-- Rows of a fixed length laid end to end: the length of the whole and the entry at
column `u` of row `v`. -/
theorem flatMap_rows {α : Type} (m : Nat) (row : Nat → List α)
    (hrow : ∀ v, (row v).length = m) :
    ∀ n, ((List.range n).flatMap row).length = n * m ∧
      ∀ u v, u < m → v < n → ((List.range n).flatMap row)[v * m + u]? = (row v)[u]? := by
  intro n
  induction n with
  | zero => simp
  | succ n ih =>
    obtain ⟨hlen, hget⟩ := ih
    rw [List.range_succ, List.flatMap_append]
    simp only [List.flatMap_cons, List.flatMap_nil, List.append_nil, List.length_append, hlen,
      hrow]
    refine ⟨by ring, ?_⟩
    intro u v hu hv
    by_cases hvn : v < n
    · have hlt : v * m + u < ((List.range n).flatMap row).length := by
        rw [hlen]
        calc v * m + u < v * m + m := by omega
          _ = (v + 1) * m := by ring
          _ ≤ n * m := Nat.mul_le_mul_right m (by omega)
      rw [List.getElem?_append_left hlt]
      exact hget u v hu hvn
    · have hveq : v = n := by omega
      subst hveq
      have hge : ((List.range v).flatMap row).length ≤ v * m + u := by rw [hlen]; omega
      rw [List.getElem?_append_right hge, hlen]
      congr 1
      omega

/-- The rectangles `setTextureStacksAndSlices` stores. -/
theorem setTextureStacksAndSlices_coords (s : BillboardSet) (nStacks nSlices : Nat)
    (hstacks : 1 ≤ nStacks) (hslices : 1 ≤ nSlices) :
    (s.setTextureStacksAndSlices nStacks nSlices).mTextureCoords =
      (List.range nStacks).flatMap fun v =>
        (List.range nSlices).map fun u => gridRect nStacks nSlices u v := by
  have h1 : ¬ nStacks = 0 := by omega
  have h2 : ¬ nSlices = 0 := by omega
  simp only [setTextureStacksAndSlices, h1, h2, ↓reduceIte, gridRect]

/-- The index buffer `_createBuffers` fills holds, for every quad below the pool size, the
six values of `quadIndices` at the entries `bboard * 6` to `bboard * 6 + 5`. -/
theorem quadIndicesWritten_eq (s : BillboardSet) (bboard : Nat)
    (hquad : s.mPointRendering = false) (hb : bboard < s.mPoolSize) :
    s.quadIndicesWritten bboard = some (quadIndices bboard) := by
  obtain ⟨hlen, hget⟩ := flatMap_rows 6 quadIndices (fun v => rfl) s.mPoolSize
  have hidx : s._createBuffers.mIndexData =
      some { indexStart := 0, indexCount := s.mPoolSize * 6,
             indexBuffer := (List.range s.mPoolSize).flatMap quadIndices } := by
    simp [_createBuffers, hquad]
  unfold quadIndicesWritten
  rw [hidx]
  simp only [Option.map_some', Option.some.injEq]
  apply List.ext_getElem?
  intro i
  by_cases hi : i < 6
  · rw [List.getElem?_take_of_lt hi, List.getElem?_drop, hget i bboard hi hb]
  · have h6 : (quadIndices bboard).length = 6 := rfl
    have hn1 : (quadIndices bboard)[i]? = none :=
      List.getElem?_eq_none (by rw [h6]; omega)
    have hn2 : (List.take 6 (List.drop (bboard * 6)
        ((List.range s.mPoolSize).flatMap quadIndices)))[i]? = none :=
      List.getElem?_eq_none (by simp only [List.length_take]; omega)
    rw [hn1, hn2]

/-- Below quad 16384 the casts to `unsigned short` change nothing. -/
theorem quadIndices_small (bboard : Nat) (hb : bboard < 16384) :
    quadIndices bboard =
      [4 * bboard, 4 * bboard + 2, 4 * bboard + 1, 4 * bboard + 1, 4 * bboard + 2,
       4 * bboard + 3] := by
  simp only [quadIndices, USHORT_RANGE]
  have h0 : bboard * 4 % 2 ^ 16 = 4 * bboard := by omega
  have h1 : (bboard * 4 + 1) % 2 ^ 16 = 4 * bboard + 1 := by omega
  have h2 : (bboard * 4 + 2) % 2 ^ 16 = 4 * bboard + 2 := by omega
  have h3 : (bboard * 4 + 3) % 2 ^ 16 = 4 * bboard + 3 := by omega
  rw [h0, h1, h2, h3]

/-- In local space `_updateBounds` reads the positions as they are. -/
theorem boundsPosition_local (invWorld : Option (Vector3 → Vector3)) (s : BillboardSet)
    (hlocal : s.mWorldSpace = false) (bill : Nat) :
    boundsPosition invWorld s bill = (s.deref bill).mPosition := by
  unfold boundsPosition
  cases invWorld <;> simp [hlocal]

/-- One `makeFloor` step keeps the accumulator the least value seen. -/
theorem leastOn_step (f : Vector3 → Real) (m : Real) (ps : List Vector3) (p : Vector3)
    (h : LeastOn f m ps) : LeastOn f (if f p < m then f p else m) (ps ++ [p]) := by
  obtain ⟨hle, q, hq, hfq⟩ := h
  by_cases hlt : f p < m
  · rw [if_pos hlt]
    refine ⟨?_, p, by simp, rfl⟩
    intro r hr
    rcases List.mem_append.mp hr with hr | hr
    · exact le_trans hlt.le (hle r hr)
    · simp at hr; rw [hr]
  · rw [if_neg hlt]
    refine ⟨?_, q, by simp [hq], hfq⟩
    intro r hr
    rcases List.mem_append.mp hr with hr | hr
    · exact hle r hr
    · simp at hr; rw [hr]; exact not_lt.mp hlt

/-- One `makeCeil` step keeps the accumulator the greatest value seen. -/
theorem greatestOn_step (f : Vector3 → Real) (m : Real) (ps : List Vector3) (p : Vector3)
    (h : GreatestOn f m ps) : GreatestOn f (if f p > m then f p else m) (ps ++ [p]) := by
  obtain ⟨hle, q, hq, hfq⟩ := h
  by_cases hlt : f p > m
  · rw [if_pos hlt]
    refine ⟨?_, p, by simp, rfl⟩
    intro r hr
    rcases List.mem_append.mp hr with hr | hr
    · exact le_trans (hle r hr) (le_of_lt hlt)
    · simp at hr; rw [hr]
  · rw [if_neg hlt]
    refine ⟨?_, q, by simp [hq], hfq⟩
    intro r hr
    rcases List.mem_append.mp hr with hr | hr
    · exact hle r hr
    · simp at hr; rw [hr]; exact not_lt.mp hlt

/-- One `std::max` step keeps the accumulator the greatest value seen. -/
theorem greatestOn_max (f : Vector3 → Real) (m : Real) (ps : List Vector3) (p : Vector3)
    (h : GreatestOn f m ps) : GreatestOn f (max m (f p)) (ps ++ [p]) := by
  have := greatestOn_step f m ps p h
  by_cases hlt : f p > m
  · rw [if_pos hlt] at this
    rw [max_eq_right (le_of_lt hlt)]
    exact this
  · rw [if_neg hlt] at this
    rw [max_eq_left (not_lt.mp hlt)]
    exact this

/-- One iteration of the loop of `_updateBounds` keeps the accumulators exact. -/
theorem boundsOf_step (acc : Vector3 × Vector3 × Real) (ps : List Vector3) (p : Vector3)
    (h : BoundsOf acc ps) : BoundsOf (boundsStep acc p) (ps ++ [p]) := by
  obtain ⟨h1, h2, h3, h4, h5, h6, h7⟩ := h
  exact ⟨leastOn_step _ _ _ p h1, leastOn_step _ _ _ p h2, leastOn_step _ _ _ p h3,
    greatestOn_step _ _ _ p h4, greatestOn_step _ _ _ p h5, greatestOn_step _ _ _ p h6,
    greatestOn_max _ _ _ p h7⟩

/-- The loop of `_updateBounds` keeps the accumulators exact. -/
theorem boundsOf_foldl (rest : List Vector3) :
    ∀ (acc : Vector3 × Vector3 × Real) (ps : List Vector3), BoundsOf acc ps →
      BoundsOf (rest.foldl boundsStep acc) (ps ++ rest) := by
  induction rest with
  | nil => intro acc ps h; simpa using h
  | cons p rest ih =>
    intro acc ps h
    have := ih (boundsStep acc p) (ps ++ [p]) (boundsOf_step acc ps p h)
    simpa using this

/-- A squared length is not negative. -/
theorem squaredLength_nonneg (p : Vector3) : 0 ≤ p.squaredLength := by
  unfold Vector3.squaredLength
  nlinarith [mul_self_nonneg p.x, mul_self_nonneg p.y, mul_self_nonneg p.z]

/-- After the first iteration the accumulators hold the first position. -/
theorem boundsOf_first (p : Vector3) : BoundsOf (p, p, max (-1) p.squaredLength) [p] := by
  have hq : max (-1) p.squaredLength = p.squaredLength :=
    max_eq_right (by linarith [squaredLength_nonneg p])
  rw [hq]
  refine ⟨?_, ?_, ?_, ?_, ?_, ?_, ?_⟩ <;>
    exact ⟨by intro r hr; simp at hr; rw [hr], p, by simp, rfl⟩

/-- The full recompute on a non-empty active list in local space. -/
theorem updateBounds_nonempty (M : Math) (invWorld : Option (Vector3 → Vector3))
    (s : BillboardSet) (hne : s.mActiveBillboards ≠ []) (hlocal : s.mWorldSpace = false) :
    ∃ acc : Vector3 × Vector3 × Real, BoundsOf acc s.activePositions ∧
      (s._updateBounds M invWorld).mAABB =
        AxisAlignedBox.finite (acc.1 - s.vecAdjust) (acc.2.1 + s.vecAdjust) ∧
      (s._updateBounds M invWorld).mBoundingRadius = M.Sqrt acc.2.2 := by
  have hpos : boundsPosition invWorld s = fun bill => (s.deref bill).mPosition := by
    funext bill
    exact boundsPosition_local invWorld s hlocal bill
  unfold _updateBounds activePositions
  cases hact : s.mActiveBillboards with
  | nil => exact absurd hact hne
  | cons first rest =>
    simp only [hpos, List.map_cons]
    refine ⟨_, ?_, rfl, rfl⟩
    exact boundsOf_foldl _ _ [(s.deref first).mPosition] (boundsOf_first _)

/-- A box contains a point merged into it. -/
theorem merge_containsPoint_self (box : AxisAlignedBox) (p : Vector3) :
    (box.merge p).containsPoint p := by
  cases box with
  | null => simp [AxisAlignedBox.merge, AxisAlignedBox.containsPoint]
  | infinite => simp [AxisAlignedBox.merge, AxisAlignedBox.containsPoint]
  | finite mn mx =>
    simp only [AxisAlignedBox.merge, AxisAlignedBox.containsPoint, Vector3.makeFloor,
      Vector3.makeCeil]
    refine ⟨?_, ?_, ?_, ?_, ?_, ?_⟩ <;> split_ifs <;> linarith

/-- Merging a point never removes a point from a box. -/
theorem merge_containsPoint_mono (box : AxisAlignedBox) (p q : Vector3)
    (h : box.containsPoint q) : (box.merge p).containsPoint q := by
  cases box with
  | null => simp [AxisAlignedBox.containsPoint] at h
  | infinite => simp [AxisAlignedBox.merge, AxisAlignedBox.containsPoint]
  | finite mn mx =>
    simp only [AxisAlignedBox.merge, AxisAlignedBox.containsPoint, Vector3.makeFloor,
      Vector3.makeCeil] at h ⊢
    obtain ⟨h1, h2, h3, h4, h5, h6⟩ := h
    refine ⟨?_, ?_, ?_, ?_, ?_, ?_⟩ <;> split_ifs <;> linarith

/-- The covering of the active positions carries over to a state with the same box, the
same default dimensions, the same records and no new active billboard. -/
theorem covers_of_frame {s t : BillboardSet} (h : Covers s)
    (hact : ∀ bill ∈ t.mActiveBillboards, bill ∈ s.mActiveBillboards)
    (hbox : t.mAABB = s.mAABB) (hw : t.mDefaultWidth = s.mDefaultWidth)
    (hh : t.mDefaultHeight = s.mDefaultHeight)
    (hpool : ∀ bill, t.deref bill = s.deref bill) : Covers t := by
  intro bill hb
  have := h bill (hact bill hb)
  simpa only [vecAdjust, hbox, hw, hh, hpool] using this

/-- Growing the pool changes no record a handle points at. -/
theorem deref_setPoolSize (s : BillboardSet) (size bill : Nat) :
    (s.setPoolSize size).deref bill = s.deref bill := by
  by_cases hown : s.mExternalData = false
  · by_cases hle : size ≤ s.mBillboardPool.length
    · rw [setPoolSize_of_ge s size hown hle]
    · have hlt : s.mBillboardPool.length < size := by omega
      unfold deref
      rw [setPoolSize_pool_of_lt s size hown hlt]
      by_cases hb : bill < s.mBillboardPool.length
      · simp [List.getD_eq_getElem?_getD, List.getElem?_append_left hb]
      · have hge : s.mBillboardPool.length ≤ bill := by omega
        simp only [List.getD_eq_getElem?_getD, List.getElem?_append_right hge,
          List.getElem?_eq_none hge, Option.getD_none]
        by_cases hb2 : bill - s.mBillboardPool.length < size - s.mBillboardPool.length
        · simp [List.getElem?_replicate, hb2]
        · simp [List.getElem?_replicate, hb2]
  · have hext : s.mExternalData = true := by simpa using hown
    rw [setPoolSize_external s size hext]
    rfl

/-- Growing the pool keeps the covering. -/
theorem covers_setPoolSize {s : BillboardSet} (size : Nat) (h : Covers s) :
    Covers (s.setPoolSize size) := by
  apply covers_of_frame h
  · intro bill hb; rwa [setPoolSize_active] at hb
  · by_cases hown : s.mExternalData = false
    · by_cases hle : size ≤ s.mBillboardPool.length
      · simp [setPoolSize, hown, hle]
      · simp [setPoolSize, hown, hle, _destroyBuffers, increasePool]
    · simp [setPoolSize, hown, _destroyBuffers]
  · by_cases hown : s.mExternalData = false
    · by_cases hle : size ≤ s.mBillboardPool.length
      · simp [setPoolSize, hown, hle]
      · simp [setPoolSize, hown, hle, _destroyBuffers, increasePool]
    · simp [setPoolSize, hown, _destroyBuffers]
  · by_cases hown : s.mExternalData = false
    · by_cases hle : size ≤ s.mBillboardPool.length
      · simp [setPoolSize, hown, hle]
      · simp [setPoolSize, hown, hle, _destroyBuffers, increasePool]
    · simp [setPoolSize, hown, _destroyBuffers]
  · exact deref_setPoolSize s size

/-- Growing the pool keeps the world-space flag. -/
theorem worldSpace_setPoolSize (s : BillboardSet) (size : Nat) :
    (s.setPoolSize size).mWorldSpace = s.mWorldSpace := by
  by_cases hown : s.mExternalData = false
  · by_cases hle : size ≤ s.mBillboardPool.length
    · simp [setPoolSize, hown, hle]
    · simp [setPoolSize, hown, hle, _destroyBuffers, increasePool]
  · simp [setPoolSize, hown, _destroyBuffers]

/-- Removing a billboard keeps the covering. -/
theorem covers_spliceToFree {s t : BillboardSet} (it : Nat) (h : Covers s)
    (ht : s.spliceToFree it = some t) : Covers t ∧ t.mWorldSpace = s.mWorldSpace := by
  unfold spliceToFree at ht
  split at ht
  · simp at ht
  · simp only [Option.some.injEq] at ht
    subst ht
    refine ⟨covers_of_frame h ?_ rfl rfl rfl (fun _ => rfl), rfl⟩
    intro bill hb
    exact List.mem_of_mem_eraseIdx hb

/-- The merge of `createBillboard` keeps the covering: the new record is within the pool
and not active, so no active position changes, and its own two points are merged. -/
theorem covers_getNewBillboard {M : Math} {s t : BillboardSet} {position : Vector3}
    {colour : ColourValue} {r : Option Nat} (hinv : PoolInv s) (h : Covers s)
    (ht : getNewBillboard M s position colour = some (r, t)) :
    Covers t ∧ t.mWorldSpace = s.mWorldSpace := by
  unfold getNewBillboard at ht
  split at ht
  · simp at ht
  · rename_i newBill rest hfree
    simp only [Option.some.injEq, Prod.mk.injEq] at ht
    obtain ⟨_, ht⟩ := ht
    subst ht
    refine ⟨?_, rfl⟩
    have hnodup := poolInv_nodup hinv
    rw [hfree] at hnodup
    have hnotact : newBill ∉ s.mActiveBillboards := by
      intro hmem
      have := (List.nodup_append.mp hnodup).2.2
      exact this hmem (List.mem_cons_self _ _) 
    have hlt : newBill < s.mBillboardPool.length := by
      have hmem : newBill ∈ s.mActiveBillboards ++ s.mFreeBillboards := by
        rw [hfree]; simp
      have := (List.Perm.mem_iff hinv).mp hmem
      simpa using this
    intro bill hb
    simp only [List.mem_append, List.mem_singleton] at hb
    simp only [vecAdjust, deref]
    rcases hb with hb | hb
    · have hne : bill ≠ newBill := fun e => hnotact (e ▸ hb)
      have hd : (List.modify (fun b => resetBillboard b position colour) newBill
          s.mBillboardPool).getD bill Billboard.new = s.mBillboardPool.getD bill Billboard.new := by
        simp only [List.getD_eq_getElem?_getD, List.getElem?_modify]
        simp [Ne.symm hne]
      rw [hd]
      obtain ⟨h1, h2⟩ := h bill hb
      exact ⟨merge_containsPoint_mono _ _ _ (merge_containsPoint_mono _ _ _ h1),
        merge_containsPoint_mono _ _ _ (merge_containsPoint_mono _ _ _ h2)⟩
    · subst hb
      have hd : ((List.modify (fun b => resetBillboard b position colour) bill
          s.mBillboardPool).getD bill Billboard.new).mPosition = position := by
        simp only [List.getD_eq_getElem?_getD, List.getElem?_modify,
          List.getElem?_eq_getElem hlt]
        simp [resetBillboard, Billboard.setPosition, Billboard.setColour, Billboard.setRotation,
          Billboard.setTexcoordIndex, Billboard.resetDimensions, Billboard._notifyOwner]
      rw [hd]
      exact ⟨merge_containsPoint_mono _ _ _ (merge_containsPoint_self _ _),
        merge_containsPoint_self _ _⟩

/-- `createBillboard` keeps the covering. -/
theorem covers_createBillboard {M : Math} {s t : BillboardSet} {position : Vector3}
    {colour : ColourValue} {r : Option Nat} (hinv : PoolInv s) (h : Covers s)
    (ht : s.createBillboard M position colour = some (r, t)) :
    Covers t ∧ t.mWorldSpace = s.mWorldSpace := by
  unfold createBillboard at ht
  split at ht
  · split at ht
    · obtain ⟨h1, h2⟩ := covers_getNewBillboard (poolInv_setPoolSize _ hinv)
        (covers_setPoolSize _ h) ht
      exact ⟨h1, by rw [h2, worldSpace_setPoolSize]⟩
    · simp only [Option.some.injEq, Prod.mk.injEq] at ht
      rw [← ht.2]
      exact ⟨h, rfl⟩
  · exact covers_getNewBillboard hinv h ht

/-- Every pool operation keeps the covering and the world-space flag. -/
theorem covers_step {M : Math} {s t : BillboardSet} (op : Op) (hinv : PoolInv s)
    (h : Covers s) (ht : s.step M op = some t) :
    Covers t ∧ t.mWorldSpace = s.mWorldSpace := by
  cases op with
  | createBillboard position colour =>
    simp only [step, Option.map_eq_some'] at ht
    obtain ⟨⟨r, t1⟩, hc, rfl⟩ := ht
    exact covers_createBillboard hinv h hc
  | removeBillboard index =>
    simp only [step, removeBillboard] at ht
    split at ht
    · exact covers_spliceToFree _ h ht
    · simp at ht
  | removeBillboardByPointer pBill =>
    simp only [step, removeBillboardByPointer] at ht
    split at ht
    · exact covers_spliceToFree _ h ht
    · simp at ht
  | clear =>
    simp only [step, Option.some.injEq] at ht
    subst ht
    exact ⟨fun bill hb => by simp [clear] at hb, rfl⟩
  | setPoolSize size =>
    simp only [step, Option.some.injEq] at ht
    subst ht
    exact ⟨covers_setPoolSize size h, worldSpace_setPoolSize s size⟩
  | sortBillboards =>
    simp only [step, Option.some.injEq] at ht
    subst ht
    have hs := sortBillboards_eq s
    rw [hs]
    refine ⟨covers_of_frame h ?_ rfl rfl rfl (fun _ => rfl), rfl⟩
    intro bill hb
    exact (List.Perm.mem_iff (radixSort_perm _ _)).mp hb
  | setAutoextend b =>
    simp only [step, Option.some.injEq] at ht
    subst ht
    exact ⟨h, rfl⟩

/-- Every run of pool operations keeps the covering and the world-space flag. -/
theorem covers_run {M : Math} (ops : List Op) {s t : BillboardSet} (hinv : PoolInv s)
    (h : Covers s) (ht : s.run M ops = some t) :
    Covers t ∧ t.mWorldSpace = s.mWorldSpace := by
  induction ops generalizing s with
  | nil =>
    simp only [run, Option.some.injEq] at ht
    subst ht
    exact ⟨h, rfl⟩
  | cons op ops ih =>
    simp only [run, Option.bind_eq_some] at ht
    obtain ⟨s1, h1, h2⟩ := ht
    obtain ⟨hc, hw⟩ := covers_step op hinv h h1
    obtain ⟨hc2, hw2⟩ := ih (poolInv_step op hinv h1) hc h2
    exact ⟨hc2, by rw [hw2, hw]⟩

/-- A box that covers the active positions contains the box of the full recompute. -/
theorem contains_of_covers (M : Math) (invWorld : Option (Vector3 → Vector3))
    (s : BillboardSet) (h : Covers s) (hlocal : s.mWorldSpace = false) :
    s.mAABB.contains (s._updateBounds M invWorld).mAABB := by
  by_cases hne : s.mActiveBillboards = []
  · have : (s._updateBounds M invWorld).mAABB = AxisAlignedBox.null := by
      simp [_updateBounds, hne, AxisAlignedBox.setNull]
    rw [this]
    cases s.mAABB <;> simp [AxisAlignedBox.contains]
  · obtain ⟨acc, hacc, hbox, _⟩ := updateBounds_nonempty M invWorld s hne hlocal
    rw [hbox]
    obtain ⟨⟨_, px, hpx, hx⟩, ⟨_, py, hpy, hy⟩, ⟨_, pz, hpz, hz⟩, ⟨_, qx, hqx, hX⟩,
      ⟨_, qy, hqy, hY⟩, ⟨_, qz, hqz, hZ⟩, _⟩ := hacc
    have key : ∀ p ∈ s.activePositions, s.mAABB.containsPoint (p - s.vecAdjust) ∧
        s.mAABB.containsPoint (p + s.vecAdjust) := by
      intro p hp
      simp only [activePositions, List.mem_map] at hp
      obtain ⟨bill, hb, rfl⟩ := hp
      exact h bill hb
    cases hb : s.mAABB with
    | null =>
      have := (key px hpx).1
      rw [hb] at this
      simp [AxisAlignedBox.containsPoint] at this
    | infinite => simp [AxisAlignedBox.contains]
    | finite mn mx =>
      rw [hb] at key
      simp only [AxisAlignedBox.containsPoint, vector3_sub_def, vector3_add_def] at key
      simp only [AxisAlignedBox.contains, vector3_sub_def, vector3_add_def]
      have kx := (key px hpx).1
      have ky := (key py hpy).1
      have kz := (key pz hpz).1
      have kX := (key qx hqx).2
      have kY := (key qy hqy).2
      have kZ := (key qz hqz).2
      simp only at hx hy hz hX hY hZ
      refine ⟨?_, ?_, ?_, ?_, ?_, ?_⟩
      · rw [← hx]; exact kx.1
      · rw [← hy]; exact ky.2.2.1
      · rw [← hz]; exact kz.2.2.2.2.1
      · rw [← hX]; exact kX.2.1
      · rw [← hY]; exact kY.2.2.2.1
      · rw [← hZ]; exact kZ.2.2.2.2.2

/-- A newly constructed set has no active billboard and is in local space. -/
theorem mk3_active (uninit : BillboardSet) (poolSize : Nat) (externalData : Bool) :
    (mk3 uninit poolSize externalData).mActiveBillboards = [] ∧
    (mk3 uninit poolSize externalData).mWorldSpace = false := by
  unfold mk3
  simp only [setTextureStacksAndSlices]
  refine ⟨?_, ?_⟩
  · show (setPoolSize _ poolSize).mActiveBillboards = []
    rw [setPoolSize_active]
    rfl
  · show (setPoolSize _ poolSize).mWorldSpace = false
    rw [worldSpace_setPoolSize]
    rfl

/-- `_createBuffers` touches only the buffers and the buffers-created flag. -/
theorem createBuffers_frame (s : BillboardSet) :
    s._createBuffers = { s with mVertexData := s._createBuffers.mVertexData,
                                mIndexData := s._createBuffers.mIndexData,
                                mMainBuf := s._createBuffers.mMainBuf,
                                mBuffersCreated := s._createBuffers.mBuffersCreated } := by
  unfold _createBuffers
  simp only
  split <;> rfl

/-- The buffer check of `beginBillboards` touches only the buffers and their flag. -/
theorem ensureBuffers_frame (s : BillboardSet) :
    s.ensureBuffers = { s with mVertexData := s.ensureBuffers.mVertexData,
                               mIndexData := s.ensureBuffers.mIndexData,
                               mMainBuf := s.ensureBuffers.mMainBuf,
                               mBuffersCreated := s.ensureBuffers.mBuffersCreated } := by
  unfold ensureBuffers
  split
  · exact createBuffers_frame s
  · rfl

/-- What the offset block of `beginBillboards` does: nothing when point rendering; otherwise
the parametric offsets are stored and, unless axes are generated per billboard, the shared
axes and the shared offsets for the default dimensions. -/
theorem prepareOffsets_some {M : Math} {s t : BillboardSet} (h : prepareOffsets M s = some t) :
    (s.mPointRendering = true → t = s) ∧
    (s.mPointRendering = false → s.perBillboardAxes = true →
      t = { s with mLeftOff := s.getParametricOffsets.1,
                   mRightOff := s.getParametricOffsets.2.1,
                   mTopOff := s.getParametricOffsets.2.2.1,
                   mBottomOff := s.getParametricOffsets.2.2.2 }) ∧
    (s.mPointRendering = false → s.perBillboardAxes = false →
      t.mVOffset = s.cornerOffsetsFor s.mDefaultWidth s.mDefaultHeight t.mCamX t.mCamY ∧
      t = { s with mLeftOff := s.getParametricOffsets.1,
                   mRightOff := s.getParametricOffsets.2.1,
                   mTopOff := s.getParametricOffsets.2.2.1,
                   mBottomOff := s.getParametricOffsets.2.2.2,
                   mCamDir := t.mCamDir, mCamX := t.mCamX, mCamY := t.mCamY,
                   mVOffset := t.mVOffset }) := by
  unfold prepareOffsets at h
  split at h
  · rename_i hpoint
    have hp : s.mPointRendering = false := by simpa using hpoint
    simp only at h
    split at h
    · rename_i hnot
      have hper : s.perBillboardAxes = false := by
        have h2 : (!s.perBillboardAxes) = true := hnot
        simpa using h2
      split at h
      · simp at h
      · rename_i s3 pX pY hax
        simp only [Option.some.injEq] at h
        subst h
        have hf := genBillboardAxes_frame hax
        have e1 : s3.mLeftOff = s.getParametricOffsets.1 := by rw [hf]
        have e2 : s3.mRightOff = s.getParametricOffsets.2.1 := by rw [hf]
        have e3 : s3.mTopOff = s.getParametricOffsets.2.2.1 := by rw [hf]
        have e4 : s3.mBottomOff = s.getParametricOffsets.2.2.2 := by rw [hf]
        have e5 : s3.mDefaultWidth = s.mDefaultWidth := by rw [hf]
        have e6 : s3.mDefaultHeight = s.mDefaultHeight := by rw [hf]
        refine ⟨fun h1 => ?_, fun _ h2 => ?_, fun _ _ => ⟨?_, ?_⟩⟩
        · rw [hp] at h1; cases h1
        · rw [hper] at h2; cases h2
        · show genVertOffsets s3.mLeftOff s3.mRightOff s3.mTopOff s3.mBottomOff
            s3.mDefaultWidth s3.mDefaultHeight pX pY = _
          rw [e1, e2, e3, e4, e5, e6]
          rfl
        · rw [hf]
    · rename_i hnot
      have hper : s.perBillboardAxes = true := by
        have h2 : ¬ (!s.perBillboardAxes) = true := hnot
        simpa using h2
      simp only [Option.some.injEq] at h
      subst h
      refine ⟨fun h1 => ?_, fun _ _ => rfl, fun _ h2 => ?_⟩
      · rw [hp] at h1; cases h1
      · rw [hper] at h2; cases h2
  · rename_i hpoint
    have hp : s.mPointRendering = true := by simpa using hpoint
    simp only [Option.some.injEq] at h
    subst h
    refine ⟨fun _ => rfl, fun h1 => ?_, fun h1 => ?_⟩ <;> (rw [hp] at h1; cases h1)

/-- Locking marks the buffer locked and puts the cursor at its start. -/
theorem lockBuffer_frame {s t : BillboardSet} {numBillboards : Nat}
    (h : s.lockBuffer numBillboards = some t) :
    ∃ buf length, s.mMainBuf = some buf ∧
      t = { s with mMainBuf := some (buf.lock length), mLockPtr := 0 } ∧
      (numBillboards ≠ 0 →
        length = min s.mPoolSize numBillboards *
          (if s.mPointRendering then buf.vertexSize else buf.vertexSize * 4)) ∧
      (numBillboards = 0 → length = buf.getSizeInBytes) := by
  unfold lockBuffer at h
  split at h
  · simp at h
  · rename_i buf hbuf
    by_cases h1 : numBillboards ≠ 0
    · rw [if_pos h1] at h
      simp only at h
      by_cases h2 : min s.mPoolSize numBillboards *
          (if s.mPointRendering then buf.vertexSize else buf.vertexSize * 4) ≤
          buf.getSizeInBytes
      · rw [if_pos h2] at h
        injection h with h
        subst h
        exact ⟨buf, _, hbuf, rfl, fun _ => rfl, fun h0 => absurd h0 h1⟩
      · rw [if_neg h2] at h
        cases h
    · rw [if_neg h1] at h
      injection h with h
      subst h
      have h0 : numBillboards = 0 := by simpa using h1
      exact ⟨buf, _, hbuf, rfl, fun hn => absurd h0 hn, fun _ => rfl⟩

/-- Where `beginBillboards` leaves the shared offsets. -/
theorem beginBillboards_offsets {M : Math} {s t : BillboardSet} {numBillboards : Nat}
    (h : s.beginBillboards M numBillboards = some t) :
    (s.mPointRendering = false → s.perBillboardAxes = false →
      t.mVOffset = s.cornerOffsetsFor s.mDefaultWidth s.mDefaultHeight t.mCamX t.mCamY) ∧
    (s.mPointRendering = true ∨ s.perBillboardAxes = true → t.mVOffset = s.mVOffset) := by
  unfold beginBillboards at h
  split at h
  · simp at h
  · rename_i s5 hprep
    obtain ⟨buf, length, _, ht, _, _⟩ := lockBuffer_frame h
    obtain ⟨h1, h2, h3⟩ := prepareOffsets_some hprep
    have hf := ensureBuffers_frame s
    have hpoint : s.ensureBuffers.mPointRendering = s.mPointRendering := by rw [hf]
    have hper : s.ensureBuffers.perBillboardAxes = s.perBillboardAxes := by
      unfold perBillboardAxes; rw [hf]
    have hoff : s.ensureBuffers.mVOffset = s.mVOffset := by rw [hf]
    have hcorner : ∀ w h x y, s.ensureBuffers.cornerOffsetsFor w h x y =
        s.cornerOffsetsFor w h x y := by
      intro w h x y
      unfold cornerOffsetsFor getParametricOffsets
      rw [hf]
    have hw : s.ensureBuffers.mDefaultWidth = s.mDefaultWidth := by rw [hf]
    have hh : s.ensureBuffers.mDefaultHeight = s.mDefaultHeight := by rw [hf]
    rw [hpoint] at h1 h2 h3
    rw [hper] at h2 h3
    have tv : t.mVOffset = s5.mVOffset := by rw [ht]
    have tx : t.mCamX = s5.mCamX := by rw [ht]
    have ty : t.mCamY = s5.mCamY := by rw [ht]
    refine ⟨fun hp hq => ?_, fun hor => ?_⟩
    · rw [tv, tx, ty, (h3 hp hq).1, hcorner, hw, hh]
    · rw [tv]
      rcases hor with hp | hq
      · rw [h1 hp, hoff]
      · by_cases hp : s.mPointRendering = true
        · rw [h1 hp, hoff]
        · have hp2 : s.mPointRendering = false := by simpa using hp
          rw [h2 hp2 hq]
          exact hoff

/-- A non-empty store sequence that succeeds ends within the storage. -/
theorem writeWords_bound (ws : List BufferWord) :
    ∀ (contents contents1 : List BufferWord) (ptr ptr1 : Nat),
      writeWords contents ptr ws = some (contents1, ptr1) → ws ≠ [] →
      ptr + ws.length ≤ contents.length := by
  induction ws with
  | nil => intro _ _ _ _ _ h; exact absurd rfl h
  | cons w ws ih =>
    intro contents contents1 ptr ptr1 h _
    rw [writeWords] at h
    split at h
    · rename_i hlt
      by_cases hws : ws = []
      · subst hws
        simp only [List.length_cons, List.length_nil]
        omega
      · have := ih _ _ _ _ h hws
        simp only [List.length_set, List.length_cons] at this ⊢
        omega
    · simp at h

/-- The stride is positive. -/
theorem billboardStride_pos (s : BillboardSet) : 0 < s.billboardStride := by
  unfold billboardStride
  split <;> decide

/-- A call of `genVertices` that returns has stored into the mapped region only, kept its
size, and moved the cursor by one stride without leaving the region. -/
theorem genVertices_advance {M : Math} {E : Scene} {s t : BillboardSet}
    {offsets : CornerOffsets} {bb : Billboard} (h : genVertices M E s offsets bb = some t) :
    t.mLockPtr = s.mLockPtr + s.billboardStride ∧
    ∃ buf contents1, s.mMainBuf = some buf ∧
      t.mMainBuf = some { buf with contents := contents1 } ∧
      contents1.length = buf.contents.length ∧ t.mLockPtr ≤ buf.contents.length := by
  unfold genVertices at h
  split at h
  · simp at h
  · rename_i r hr
    split at h
    · simp at h
    · rename_i buf hbuf
      split at h
      · simp at h
      · rename_i contents ptr hw
        simp only [Option.some.injEq] at h
        subst h
        obtain ⟨h1, h2⟩ := writeWords_some _ _ _ _ _ hw
        have hlen := billboardWords_length M E s offsets bb r
        have hne : billboardWords M E s offsets bb r ≠ [] := by
          intro h0
          rw [h0] at hlen
          simp only [List.length_nil] at hlen
          split at hlen <;> omega
        have hb := writeWords_bound _ _ _ _ _ hw hne
        have hp : ptr = s.mLockPtr + s.billboardStride := by
          rw [h1, hlen]; rfl
        refine ⟨hp, buf, contents, hbuf, rfl, h2, ?_⟩
        show ptr ≤ _
        rw [h1]
        exact hb

/-- Being sized for the pool depends on the pool size and the rendering mode only. -/
theorem sizedFor_congr {s t : BillboardSet} {buf : HardwareVertexBuffer}
    (hp : t.mPointRendering = s.mPointRendering) (hs : t.mPoolSize = s.mPoolSize)
    (h : SizedFor s buf) : SizedFor t buf := by
  unfold SizedFor billboardStride at *
  rw [hp, hs]
  exact h

/-- Being sized for the pool does not depend on what the storage holds. -/
theorem sizedFor_contents {s : BillboardSet} {buf : HardwareVertexBuffer}
    {contents1 : List BufferWord} (hlen : contents1.length = buf.contents.length)
    (h : SizedFor s buf) : SizedFor s { buf with contents := contents1 } := by
  obtain ⟨h1, h2, h3⟩ := h
  exact ⟨h1, h2, by show contents1.length + _ = _; rw [hlen]; exact h3⟩

/-- `injectBillboard` keeps the cursor invariant and the stride. -/
theorem injectBillboard_cursor {M : Math} {E : Scene} {s t : BillboardSet} {bb : Billboard}
    {locked : Nat} (h : s.injectBillboard M E bb = some t) (hinv : CursorInv s locked) :
    CursorInv t locked ∧ t.billboardStride = s.billboardStride := by
  by_cases hcount : s.mNumVisibleBillboards = s.mPoolSize
  · simp only [injectBillboard, hcount, if_true, Option.some.injEq] at h
    subst h
    exact ⟨hinv, rfl⟩
  · by_cases hvis : s.billboardVisible E bb = true
    · rw [injectBillboard_of_visible M E s bb hcount hvis] at h
      obtain ⟨s1, offsets, h1, hs1⟩ := injectOffsets_some M s bb
      rw [h1, Option.some_bind, Option.map_eq_some'] at h
      obtain ⟨s2, h2, rfl⟩ := h
      have hs2 := genVertices_frame h2
      obtain ⟨hadv, buf1, contents1, hb1, hb2, hlen1, hle1⟩ := genVertices_advance h2
      obtain ⟨hptr, hcreated, buf, hb, hsized, hlen, _⟩ := hinv
      have e1 : s1.mLockPtr = s.mLockPtr := by rw [hs1]
      have e2 : s1.billboardStride = s.billboardStride := by
        unfold billboardStride; rw [hs1]
      have e3 : s1.mMainBuf = s.mMainBuf := by rw [hs1]
      have e4 : s2.mNumVisibleBillboards = s.mNumVisibleBillboards := by rw [hs2, hs1]
      have e5 : s2.mPoolSize = s.mPoolSize := by rw [hs2, hs1]
      have e6 : s2.mPointRendering = s.mPointRendering := by rw [hs2, hs1]
      have e7 : s2.mBuffersCreated = s.mBuffersCreated := by rw [hs2, hs1]
      have hbuf : buf1 = buf := by
        have : some buf1 = some buf := by rw [← hb1, e3, hb]
        injection this
      subst hbuf
      have hstride : billboardStride
          { s2 with mNumVisibleBillboards := s2.mNumVisibleBillboards + 1 } =
          s.billboardStride := by
        show (if s2.mPointRendering then 4 else 24) = _
        rw [e6]; rfl
      refine ⟨⟨?_, ?_, { buf1 with contents := contents1 }, hb2, ?_, ?_, ?_⟩, hstride⟩
      · rw [hstride]
        show s2.mLockPtr = (s2.mNumVisibleBillboards + 1) * s.billboardStride
        rw [hadv, e1, e2, e4, hptr]
        ring
      · show s2.mBuffersCreated = true
        rw [e7]; exact hcreated
      · exact sizedFor_congr e6 e5 (sizedFor_contents hlen1 hsized)
      · rw [hstride]
        show contents1.length = _
        rw [hlen1, hlen]
      · show s2.mLockPtr ≤ contents1.length
        rw [hlen1]; exact hle1
    · have hv : s.billboardVisible E bb = false := by simpa using hvis
      simp only [injectBillboard, if_neg hcount, hv, Bool.not_false, if_true,
        Option.some.injEq] at h
      subst h
      exact ⟨hinv, rfl⟩

/-- A run of injections keeps the cursor invariant and the stride. -/
theorem injectAll_cursor {M : Math} {E : Scene} {locked : Nat} (bbs : List Billboard) :
    ∀ {s t : BillboardSet}, s.injectAll M E bbs = some t → CursorInv s locked →
      CursorInv t locked ∧ t.billboardStride = s.billboardStride := by
  induction bbs with
  | nil =>
    intro s t h hinv
    simp only [injectAll, Option.some.injEq] at h
    subst h
    exact ⟨hinv, rfl⟩
  | cons bb bbs ih =>
    intro s t h hinv
    simp only [injectAll, Option.bind_eq_some] at h
    obtain ⟨s1, h1, h2⟩ := h
    obtain ⟨hc, hs⟩ := injectBillboard_cursor h1 hinv
    obtain ⟨hc2, hs2⟩ := ih h2 hc
    exact ⟨hc2, by rw [hs2, hs]⟩

/-- The buffer `_createBuffers` allocates is sized for the whole pool. -/
theorem createBuffers_sized (s : BillboardSet) :
    s._createBuffers.mBuffersCreated = true ∧
    ∃ buf, s._createBuffers.mMainBuf = some buf ∧ SizedFor s buf := by
  unfold _createBuffers SizedFor billboardStride
  cases hp : s.mPointRendering
  · refine ⟨rfl, _, rfl, rfl, rfl, ?_⟩
    simp only [Bool.false_eq_true, ↓reduceIte, List.length_replicate, List.length_nil]
    omega
  · refine ⟨rfl, _, rfl, rfl, rfl, ?_⟩
    simp only [↓reduceIte, List.length_replicate, List.length_nil]
    omega

/-- After its buffer check `beginBillboards` has buffers sized for the whole pool. -/
theorem ensureBuffers_sized (s : BillboardSet) (h : BuffersSized s) :
    s.ensureBuffers.mBuffersCreated = true ∧
    ∃ buf, s.ensureBuffers.mMainBuf = some buf ∧ SizedFor s buf := by
  unfold ensureBuffers
  cases hc : s.mBuffersCreated
  · simp only [Bool.not_false, ↓reduceIte]
    exact createBuffers_sized s
  · simp only [Bool.not_true, Bool.false_eq_true, ↓reduceIte]
    exact ⟨hc, h hc⟩

/-- Locking a buffer sized for the pool maps as many words as the length asks for, as far as
the storage goes, and keeps the buffer sized for the pool. -/
theorem lock_sized {s : BillboardSet} {buf : HardwareVertexBuffer} (length : Nat)
    (h : SizedFor s buf) :
    SizedFor s (buf.lock length) ∧
    (buf.lock length).contents.length = min (length / 4) (s.mPoolSize * s.billboardStride) := by
  obtain ⟨h1, h2, h3⟩ := h
  refine ⟨⟨h1, h2, ?_⟩, ?_⟩
  · simp only [HardwareVertexBuffer.lock, List.length_take, List.length_drop,
      List.length_append]
    omega
  · simp only [HardwareVertexBuffer.lock, List.length_take, List.length_append]
    rw [h3]

/-- A `beginBillboards` on a set whose buffers are sized for the pool leaves the cursor at
the start of the locked region, which holds one stride per locked billboard, with no
billboard counted. -/
theorem beginBillboards_cursor {M : Math} {s t : BillboardSet} {numBillboards : Nat}
    (hsized : BuffersSized s) (h : s.beginBillboards M numBillboards = some t) :
    CursorInv t (s.lockedBillboards numBillboards) ∧
      t.billboardStride = s.billboardStride ∧ t.mNumVisibleBillboards = 0 ∧
      t.mPoolSize = s.mPoolSize := by
  obtain ⟨hcnt, hptr, hpool⟩ := beginBillboards_some h
  unfold beginBillboards at h
  split at h
  · simp at h
  · rename_i s5 hprep
    obtain ⟨buf, length, hb, ht, hlen1, hlen0⟩ := lockBuffer_frame h
    obtain ⟨hcr, buf0, hb0, hs0⟩ := ensureBuffers_sized s hsized
    have hef := ensureBuffers_frame s
    have hepr : s.ensureBuffers.mPointRendering = s.mPointRendering := by rw [hef]
    have hepool : s.ensureBuffers.mPoolSize = s.mPoolSize := by rw [hef]
    have h5 : s5.mMainBuf = some buf0 ∧ s5.mPointRendering = s.mPointRendering ∧
        s5.mBuffersCreated = true ∧ s5.mPoolSize = s.mPoolSize := by
      obtain ⟨h1, h2, h3⟩ := prepareOffsets_some hprep
      by_cases hp : s.ensureBuffers.mPointRendering = true
      · rw [h1 hp]; exact ⟨hb0, hepr, hcr, hepool⟩
      · have hp2 : s.ensureBuffers.mPointRendering = false := by simpa using hp
        by_cases hq : s.ensureBuffers.perBillboardAxes = true
        · rw [h2 hp2 hq]; exact ⟨hb0, hepr, hcr, hepool⟩
        · have hq2 : s.ensureBuffers.perBillboardAxes = false := by simpa using hq
          rw [(h3 hp2 hq2).2]; exact ⟨hb0, hepr, hcr, hepool⟩
    obtain ⟨h5b, h5p, h5c, h5s⟩ := h5
    have hbuf : buf = buf0 := by
      have : some buf = some buf0 := by rw [← hb]; exact h5b
      injection this
    subst hbuf
    have tp : t.mPointRendering = s.mPointRendering := by rw [ht]; exact h5p
    have hstride : t.billboardStride = s.billboardStride := by
      unfold billboardStride; rw [tp]
    obtain ⟨hls, hll⟩ := lock_sized length hs0
    have hwords : length / 4 = s.lockedBillboards numBillboards * s.billboardStride := by
      obtain ⟨hv, hn, _⟩ := hs0
      unfold lockedBillboards billboardStride
      by_cases hn0 : numBillboards = 0
      · rw [hlen0 hn0, if_pos hn0]
        unfold HardwareVertexBuffer.getSizeInBytes
        rw [hv, hn]
        split <;> omega
      · rw [hlen1 hn0, if_neg hn0, hv]
        show min s5.mPoolSize numBillboards *
          (if s5.mPointRendering then _ else _) / 4 = _
        rw [h5s, h5p]
        split <;> omega
    have hle : s.lockedBillboards numBillboards * s.billboardStride ≤
        s.mPoolSize * s.billboardStride := by
      apply Nat.mul_le_mul_right
      unfold lockedBillboards
      split
      · exact Nat.le_refl _
      · exact Nat.min_le_left _ _
    refine ⟨⟨?_, ?_, buf.lock length, by rw [ht], ?_, ?_, ?_⟩, hstride, hcnt, hpool⟩
    · rw [hptr, hcnt]; simp
    · rw [ht]; exact h5c
    · exact sizedFor_congr tp hpool hls
    · rw [hstride, hll, hwords]
      exact Nat.min_eq_left hle
    · rw [hptr]; exact Nat.zero_le _

/-- With the cursor invariant, an injection while fewer billboards were written than are
locked is defined when the texcoord rectangle exists: no store leaves the locked region. -/
theorem injectBillboard_defined (M : Math) (E : Scene) (s : BillboardSet) (bb : Billboard)
    (r : FloatRect) (locked : Nat) (hinv : CursorInv s locked)
    (hlt : s.mNumVisibleBillboards < locked) (hr : s.texcoordRect bb = some r) :
    ∃ t, s.injectBillboard M E bb = some t := by
  by_cases hcount : s.mNumVisibleBillboards = s.mPoolSize
  · exact ⟨s, by simp [injectBillboard, hcount]⟩
  · by_cases hvis : s.billboardVisible E bb = true
    · obtain ⟨s1, offsets, h1, hs1⟩ := injectOffsets_some M s bb
      obtain ⟨hptr, _, buf, hb, _, hlen, _⟩ := hinv
      have e1 : s1.mLockPtr = s.mLockPtr := by rw [hs1]
      have e3 : s1.mMainBuf = some buf := by rw [hs1]; exact hb
      have e6 : s1.mPointRendering = s.mPointRendering := by rw [hs1]
      have hr1 : s1.texcoordRect bb = some r := by
        have : s1.texcoordRect bb = s.texcoordRect bb := by
          unfold texcoordRect
          rw [hs1]
        rw [this, hr]
      have hwl := billboardWords_length M E s1 offsets bb r
      rw [e6] at hwl
      have hfit : s1.mLockPtr + (billboardWords M E s1 offsets bb r).length ≤
          buf.contents.length := by
        rw [e1, hwl, hlen, hptr]
        have hlt1 : s.mNumVisibleBillboards + 1 ≤ locked := hlt
        calc s.mNumVisibleBillboards * s.billboardStride + (if s.mPointRendering then 4 else 24)
            = (s.mNumVisibleBillboards + 1) * s.billboardStride := by
              unfold billboardStride; ring
          _ ≤ locked * s.billboardStride := Nat.mul_le_mul_right _ hlt1
      obtain ⟨t2, hg, _⟩ := genVertices_of_fits M E s1 offsets bb buf r e3 hr1 hfit
      refine ⟨{ t2 with mNumVisibleBillboards := t2.mNumVisibleBillboards + 1 }, ?_⟩
      rw [injectBillboard_of_visible M E s bb hcount hvis, h1, Option.some_bind, hg]
      rfl
    · have hv : s.billboardVisible E bb = false := by simpa using hvis
      exact ⟨s, by simp [injectBillboard, hcount, hv]⟩

/-- Within a frame the buffers are sized for the pool. -/
theorem buffersSized_of_cursorInv {s : BillboardSet} {locked : Nat} (h : CursorInv s locked) :
    BuffersSized s := by
  obtain ⟨_, _, buf, hb, hs, _⟩ := h
  exact fun _ => ⟨buf, hb, hs⟩

/-- `endBillboards` keeps the buffers sized for the pool. -/
theorem buffersSized_endBillboards {s t : BillboardSet} (h : BuffersSized s)
    (ht : s.endBillboards = some t) : BuffersSized t := by
  unfold endBillboards at ht
  split at ht
  · simp at ht
  · rename_i buf hbuf
    simp only [Option.some.injEq] at ht
    subst ht
    intro hc
    obtain ⟨buf0, hb0, hs0⟩ := h hc
    rw [hbuf] at hb0
    injection hb0 with hb0
    subst hb0
    exact ⟨buf.unlock, rfl, hs0⟩

/-- `setPoolSize` keeps the buffers sized for the pool: it changes nothing or destroys
them. -/
theorem buffersSized_setPoolSize {s : BillboardSet} (size : Nat) (h : BuffersSized s) :
    BuffersSized (s.setPoolSize size) := by
  by_cases hown : s.mExternalData = false
  · by_cases hle : size ≤ s.mBillboardPool.length
    · rw [setPoolSize_of_ge s size hown hle]; exact h
    · intro hc
      simp [setPoolSize, hown, hle, _destroyBuffers, increasePool] at hc
  · intro hc
    simp [setPoolSize, hown, _destroyBuffers] at hc

/-- Whether the buffers are sized for the pool depends on the buffers, the pool size and
the rendering mode only. -/
theorem buffersSized_of_frame {s t : BillboardSet} (h : BuffersSized s)
    (hc : t.mBuffersCreated = s.mBuffersCreated) (hb : t.mMainBuf = s.mMainBuf)
    (hp : t.mPointRendering = s.mPointRendering) (hs : t.mPoolSize = s.mPoolSize) :
    BuffersSized t := by
  intro htc
  rw [hc] at htc
  obtain ⟨buf, hbuf, hsz⟩ := h htc
  exact ⟨buf, by rw [hb]; exact hbuf, sizedFor_congr hp hs hsz⟩

theorem buffersSized_spliceToFree {s t : BillboardSet} (it : Nat) (h : BuffersSized s)
    (ht : s.spliceToFree it = some t) : BuffersSized t := by
  unfold spliceToFree at ht
  split at ht
  · simp at ht
  · simp only [Option.some.injEq] at ht
    subst ht
    exact buffersSized_of_frame h rfl rfl rfl rfl

theorem buffersSized_getNewBillboard {M : Math} {s t : BillboardSet} {position : Vector3}
    {colour : ColourValue} {r : Option Nat} (h : BuffersSized s)
    (ht : getNewBillboard M s position colour = some (r, t)) : BuffersSized t := by
  unfold getNewBillboard at ht
  split at ht
  · simp at ht
  · simp only [Option.some.injEq, Prod.mk.injEq] at ht
    obtain ⟨_, ht⟩ := ht
    subst ht
    exact buffersSized_of_frame h rfl rfl rfl rfl

/-- Every pool operation keeps the buffers sized for the pool. -/
theorem buffersSized_step {M : Math} {s t : BillboardSet} (op : Op) (h : BuffersSized s)
    (ht : s.step M op = some t) : BuffersSized t := by
  cases op with
  | createBillboard position colour =>
    simp only [step, Option.map_eq_some'] at ht
    obtain ⟨⟨r, t1⟩, hc, rfl⟩ := ht
    unfold createBillboard at hc
    split at hc
    · split at hc
      · exact buffersSized_getNewBillboard (buffersSized_setPoolSize _ h) hc
      · simp only [Option.some.injEq, Prod.mk.injEq] at hc
        rw [← hc.2]
        exact h
    · exact buffersSized_getNewBillboard h hc
  | removeBillboard index =>
    simp only [step, removeBillboard] at ht
    split at ht
    · exact buffersSized_spliceToFree _ h ht
    · simp at ht
  | removeBillboardByPointer pBill =>
    simp only [step, removeBillboardByPointer] at ht
    split at ht
    · exact buffersSized_spliceToFree _ h ht
    · simp at ht
  | clear =>
    simp only [step, Option.some.injEq] at ht
    subst ht
    exact buffersSized_of_frame h rfl rfl rfl rfl
  | setPoolSize size =>
    simp only [step, Option.some.injEq] at ht
    subst ht
    exact buffersSized_setPoolSize size h
  | sortBillboards =>
    simp only [step, Option.some.injEq] at ht
    subst ht
    rw [sortBillboards_eq]
    exact buffersSized_of_frame h rfl rfl rfl rfl
  | setAutoextend b =>
    simp only [step, Option.some.injEq] at ht
    subst ht
    exact h

/-- A newly constructed set has no buffers yet. -/
theorem buffersSized_mk (uninit : BillboardSet) (poolSize : Nat) (externalData : Bool) :
    BuffersSized (mk0 uninit) ∧ BuffersSized (mk3 uninit poolSize externalData) := by
  constructor
  · intro hc
    simp [mk0, setDefaultDimensions, setTextureStacksAndSlices] at hc
  · unfold mk3
    simp only [setTextureStacksAndSlices]
    refine buffersSized_of_frame (buffersSized_setPoolSize poolSize ?_) rfl rfl rfl rfl
    intro hc
    simp [setDefaultDimensions] at hc

/-- The offsets `injectBillboard` passes to `genVertices` when no axes are generated per
billboard: the shared offsets, or those of the own dimensions of a billboard that has them
when not all billboards share the default size. -/
theorem injectOffsets_shared (M : Math) (s : BillboardSet) (bb : Billboard)
    (h : s.mPointRendering = true ∨ s.perBillboardAxes = false) :
    s.injectOffsets M bb =
      some (s,
        if s.mAllDefaultSize = true ∨ s.mPointRendering = true ∨ bb.mOwnDimensions = false then
          s.mVOffset
        else
          genVertOffsets s.mLeftOff s.mRightOff s.mTopOff s.mBottomOff bb.mWidth bb.mHeight
            s.mCamX s.mCamY) := by
  have hper : (!s.mPointRendering && s.perBillboardAxes) = false := by
    rcases h with h | h <;> simp [h]
  unfold injectOffsets
  simp only [hper, Bool.false_eq_true, ↓reduceIte]
  cases hall : s.mAllDefaultSize
  · cases hpoint : s.mPointRendering
    · have hp2 : s.perBillboardAxes = false := by
        rcases h with h | h
        · rw [hpoint] at h; cases h
        · exact h
      have hinner : (s.mBillboardType == BillboardType.BBT_ORIENTED_SELF ||
          s.mBillboardType == BillboardType.BBT_PERPENDICULAR_SELF || bb.mOwnDimensions ||
          (s.mAccurateFacing &&
            s.mBillboardType != BillboardType.BBT_PERPENDICULAR_COMMON)) =
          bb.mOwnDimensions := by
        unfold perBillboardAxes at hp2
        simp only [Bool.or_eq_false_iff] at hp2
        obtain ⟨⟨h1, h2⟩, h3⟩ := hp2
        rw [h1, h2, h3]
        simp
      rw [hinner]
      cases hown : bb.mOwnDimensions <;> simp
    · simp
  · simp

/-- `beginBillboards` changes neither the rendering mode nor whether axes are generated per
billboard. -/
theorem beginBillboards_mode {M : Math} {s t : BillboardSet} {numBillboards : Nat}
    (h : s.beginBillboards M numBillboards = some t) :
    t.mPointRendering = s.mPointRendering ∧ t.perBillboardAxes = s.perBillboardAxes := by
  unfold beginBillboards at h
  split at h
  · simp at h
  · rename_i s5 hprep
    obtain ⟨buf, length, _, ht, _, _⟩ := lockBuffer_frame h
    have hef := ensureBuffers_frame s
    have hepr : s.ensureBuffers.mPointRendering = s.mPointRendering := by rw [hef]
    have heper : s.ensureBuffers.perBillboardAxes = s.perBillboardAxes := by
      unfold perBillboardAxes; rw [hef]
    have h5 : s5.mPointRendering = s.mPointRendering ∧
        s5.perBillboardAxes = s.perBillboardAxes := by
      obtain ⟨h1, h2, h3⟩ := prepareOffsets_some hprep
      by_cases hp : s.ensureBuffers.mPointRendering = true
      · rw [h1 hp]; exact ⟨hepr, heper⟩
      · have hp2 : s.ensureBuffers.mPointRendering = false := by simpa using hp
        by_cases hq : s.ensureBuffers.perBillboardAxes = true
        · rw [h2 hp2 hq]; exact ⟨hepr, heper⟩
        · have hq2 : s.ensureBuffers.perBillboardAxes = false := by simpa using hq
          rw [(h3 hp2 hq2).2]; exact ⟨hepr, heper⟩
    constructor
    · rw [ht]; exact h5.1
    · have : t.perBillboardAxes = s5.perBillboardAxes := by
        unfold perBillboardAxes; rw [ht]
      rw [this]; exact h5.2

/-! ## The claims -/

/-- C1. Pool invariant: in every state an own-data set reaches from its constructor by a
sequence of createBillboard, removeBillboard (by index or by handle), clear and setPoolSize
operations (sorting and setAutoextend included), the number of active billboards plus the
number of free billboards equals the pool capacity, the size of the pool vector, which
getPoolSize reports as an unsigned int. -/
theorem C1_pool_invariant (M : Math) (uninit s0 s : BillboardSet) (poolSize : Nat)
    (ops : List Op) (h0 : s0 = mk0 uninit ∨ s0 = mk3 uninit poolSize false)
    (h : s0.run M ops = some s) :
    s.mActiveBillboards.length + s.mFreeBillboards.length = s.mBillboardPool.length ∧
    s.getPoolSize = (s.mActiveBillboards.length + s.mFreeBillboards.length) % UINT_RANGE := by
  have hinv0 : PoolInv s0 := by
    rcases h0 with rfl | rfl
    · exact poolInv_mk0 uninit
    · exact poolInv_mk3 uninit poolSize false
  have hlen := poolInv_length (poolInv_run ops hinv0 h)
  exact ⟨hlen, by rw [hlen]; rfl⟩

/-- Witness for C1: the example run from a set of capacity 3 ends with capacity 5, one
active and four free billboards. -/
theorem C1_pool_invariant_witness :
    poolShape (stateAfter 3 exampleOps) = (5, 1, 4) ∧
    ((stateAfter 3 exampleOps).mActiveBillboards.length +
        (stateAfter 3 exampleOps).mFreeBillboards.length =
      (stateAfter 3 exampleOps).mBillboardPool.length ∧
    (stateAfter 3 exampleOps).getPoolSize =
      ((stateAfter 3 exampleOps).mActiveBillboards.length +
        (stateAfter 3 exampleOps).mFreeBillboards.length) % UINT_RANGE) :=
  ⟨by decide, C1_pool_invariant exampleMath default (mk3 default 3 false) _ 3 exampleOps
    (Or.inr rfl) rfl⟩

/-- C2. Exactly-one-list and no double issue: in every state reachable from a newly
constructed own-data set by createBillboard, removeBillboard, clear, setPoolSize and sorting,
every pool record occurs exactly once in the active list followed by the free list, the two
lists hold nothing but pool records, and a billboard handed out by createBillboard was not in
the active list before the call. -/
theorem C2_exactly_one_list (M : Math) (uninit s0 s : BillboardSet) (poolSize : Nat)
    (ops : List Op) (h0 : s0 = mk0 uninit ∨ s0 = mk3 uninit poolSize false)
    (h : s0.run M ops = some s) :
    (∀ bill, bill < s.mBillboardPool.length →
      (s.mActiveBillboards ++ s.mFreeBillboards).count bill = 1) ∧
    (∀ bill, bill ∈ s.mActiveBillboards ++ s.mFreeBillboards →
      bill < s.mBillboardPool.length) ∧
    (∀ position colour newBill t,
      s.createBillboard M position colour = some (some newBill, t) →
        newBill ∉ s.mActiveBillboards) := by
  have hinv0 : PoolInv s0 := by
    rcases h0 with rfl | rfl
    · exact poolInv_mk0 uninit
    · exact poolInv_mk3 uninit poolSize false
  have hinv : PoolInv s := poolInv_run ops hinv0 h
  refine ⟨?_, ?_, ?_⟩
  · intro bill hb
    have hmem : bill ∈ s.mActiveBillboards ++ s.mFreeBillboards :=
      (List.Perm.mem_iff hinv).mpr (List.mem_range.mpr hb)
    exact List.count_eq_one_of_mem (poolInv_nodup hinv) hmem
  · intro bill hb
    exact List.mem_range.mp ((List.Perm.mem_iff hinv).mp hb)
  · intro position colour newBill t hc hmem
    obtain ⟨s1, rest, hs1, hfree, _, _, _⟩ := createBillboard_some hc
    have h1 : PoolInv s1 := by
      rcases hs1 with rfl | ⟨_, _, rfl⟩
      · exact hinv
      · exact poolInv_setPoolSize _ hinv
    have hact : s1.mActiveBillboards = s.mActiveBillboards := by
      rcases hs1 with rfl | ⟨_, _, rfl⟩
      · rfl
      · exact setPoolSize_active _ _
    have hnd := poolInv_nodup h1
    rw [hact, hfree] at hnd
    have := (List.nodup_append.mp hnd).2.2
    exact this hmem (List.mem_cons_self _ _)

/-- Witness for C2: after the example run from a set of capacity 3 the active list is [2]
and the free list is [0, 1, 3, 4]. -/
theorem C2_exactly_one_list_witness :
    ((stateAfter 3 exampleOps).mActiveBillboards = [2] ∧
      (stateAfter 3 exampleOps).mFreeBillboards = [0, 1, 3, 4]) ∧
    ((∀ bill, bill < (stateAfter 3 exampleOps).mBillboardPool.length →
      ((stateAfter 3 exampleOps).mActiveBillboards ++
        (stateAfter 3 exampleOps).mFreeBillboards).count bill = 1) ∧
    (∀ bill, bill ∈ (stateAfter 3 exampleOps).mActiveBillboards ++
        (stateAfter 3 exampleOps).mFreeBillboards →
      bill < (stateAfter 3 exampleOps).mBillboardPool.length) ∧
    (∀ position colour newBill t,
      (stateAfter 3 exampleOps).createBillboard exampleMath position colour =
          some (some newBill, t) →
        newBill ∉ (stateAfter 3 exampleOps).mActiveBillboards)) :=
  ⟨by decide, C2_exactly_one_list exampleMath default (mk3 default 3 false) _ 3 exampleOps
    (Or.inr rfl) rfl⟩

/-- C3. createBillboard returns the null result exactly when the free list is empty and
auto-extend is off, and then the whole state of the set (capacity, lists, bounding box and
radius included) is what it was before the call. -/
theorem C3_createBillboard_null_iff (M : Math) (s : BillboardSet) (position : Vector3)
    (colour : ColourValue) :
    ((∃ t, s.createBillboard M position colour = some (none, t)) ↔
      (s.mFreeBillboards = [] ∧ s.mAutoExtendPool = false)) ∧
    (∀ t, s.createBillboard M position colour = some (none, t) → t = s) := by
  refine ⟨⟨?_, ?_⟩, ?_⟩
  · rintro ⟨t, ht⟩
    exact (createBillboard_null ht).2
  · rintro ⟨hfree, hauto⟩
    exact ⟨s, by simp [createBillboard, hfree, hauto]⟩
  · intro t ht
    exact (createBillboard_null ht).1

/-- C4. A set of capacity 0 with auto-extend on does not grow on createBillboard: the
doubling asks for `0 * 2 = 0` records, `setPoolSize 0` returns at once, the free list stays
empty and the call reads the front of an empty list.  This holds for the default-constructed
set and for a set constructed with pool size zero. -/
theorem C4_zero_capacity_create_undefined (M : Math) (uninit : BillboardSet)
    (position : Vector3) (colour : ColourValue) :
    (mk3 uninit 0 false).mAutoExtendPool = true ∧
    (mk3 uninit 0 false).mBillboardPool.length = 0 ∧
    ((mk3 uninit 0 false).setPoolSize
      ((mk3 uninit 0 false).getPoolSize * 2 % UINT_RANGE)).mBillboardPool.length = 0 ∧
    (mk3 uninit 0 false).createBillboard M position colour = none ∧
    (mk0 uninit).createBillboard M position colour = none := by
  refine ⟨rfl, rfl, rfl, rfl, rfl⟩

/-- C5. Geometric doubling breaks down at capacity `2 ^ 31`: on the own-data, auto-extending
set constructed with that pool size and exhausted by `2 ^ 31` creations, the doubled size
`2 ^ 32` wraps to 0 in `unsigned int`, `setPoolSize(0)` adds no record, and createBillboard
reads the front of an empty free list instead of making the capacity `2 ^ 32`.  For every
capacity `c` with `1 <= c < 2 ^ 31`, auto-extend on and an empty free list (so `c` active
billboards), createBillboard returns the first new record `c` and makes the capacity exactly
`2 * c`, the active count `c + 1` and the free count `c - 1`; capacity 2 with three creates in
sequence gives capacity 4, active count 3 and free count 1. -/
theorem C5_doubling_wraps_undefined :
    (fullPool.mExternalData = false ∧ fullPool.mAutoExtendPool = true ∧
      fullPool.mBillboardPool.length = 2 ^ 31 ∧ fullPool.mActiveBillboards.length = 2 ^ 31 ∧
      fullPool.mFreeBillboards = [] ∧
      fullPool.getPoolSize * 2 % UINT_RANGE = 0 ∧
      fullPool.createBillboard exampleMath Vector3.ZERO ⟨1, 1, 1, 1⟩ = none) ∧
    (∀ (M : Math) (s : BillboardSet) (c : Nat) (position : Vector3) (colour : ColourValue),
      s.mExternalData = false → s.mAutoExtendPool = true → s.mBillboardPool.length = c →
      1 ≤ c → c < 2 ^ 31 → s.mFreeBillboards = [] → s.mActiveBillboards.length = c →
      ∃ t, s.createBillboard M position colour = some (some c, t) ∧
        t.mBillboardPool.length = 2 * c ∧
        t.mActiveBillboards.length = c + 1 ∧
        t.mFreeBillboards.length = c - 1 ∧
        t.mActiveBillboards = s.mActiveBillboards ++ [c] ∧
        t.mFreeBillboards = List.range' (c + 1) (c - 1)) ∧
    poolShape (stateAfter 2 [createAtOrigin, createAtOrigin]) = (2, 2, 0) ∧
    poolShape (stateAfter 2 [createAtOrigin, createAtOrigin, createAtOrigin]) = (4, 3, 1) := by
  have h := freshPool_fullPool
  have hwrap : ∀ s : BillboardSet, s.mBillboardPool.length = 2 ^ 31 →
      s.getPoolSize * 2 % UINT_RANGE = 0 := by
    intro s hs
    unfold getPoolSize UINT_RANGE
    rw [hs]
    decide
  refine ⟨⟨h.1, h.2.1, h.2.2.1, ?_, ?_, hwrap _ h.2.2.1, freshPool_full_undefined _ _ _ _ h⟩, ?_,
    by decide, by decide⟩
  · rw [h.2.2.2.1, List.length_range']
  · rw [h.2.2.2.2, Nat.sub_self]
    rfl
  · intro M s c position colour hown hauto hcap hc hfit hfree hact
    obtain ⟨t, ht, hlen, htact, htfree⟩ :=
      createBillboard_doubles M s c position colour hown hauto hcap hc hfit hfree
    refine ⟨t, ht, hlen, ?_, ?_, htact, htfree⟩
    · rw [htact, List.length_append, hact]; rfl
    · rw [htfree, List.length_range']

/-- C6. When the free list is non-empty, createBillboard returns the record at the front of
the free list; that record becomes the last element of the active list behind the previously
active records, whose order is kept, and the remaining free records keep their order. -/
theorem C6_createBillboard_pops_front (M : Math) (s : BillboardSet) (position : Vector3)
    (colour : ColourValue) (bill : Nat) (rest : List Nat)
    (hfree : s.mFreeBillboards = bill :: rest) :
    ∃ t, s.createBillboard M position colour = some (some bill, t) ∧
      t.mActiveBillboards = s.mActiveBillboards ++ [bill] ∧
      t.mFreeBillboards = rest ∧
      t.mBillboardPool.length = s.mBillboardPool.length := by
  obtain ⟨t, ht, hact, hfr, hlen, _, _⟩ :=
    createBillboard_of_free_cons M s position colour bill rest hfree
  exact ⟨t, ht, hact, hfr, hlen⟩

/-- Witness for C6: on a fresh set of capacity 3 the first create returns record 0, the
front of the free list [0, 1, 2]. -/
theorem C6_createBillboard_pops_front_witness :
    (stateAfter 3 []).mFreeBillboards = 0 :: [1, 2] ∧
    ∃ t, (stateAfter 3 []).createBillboard exampleMath Vector3.ZERO ⟨1, 1, 1, 1⟩ =
        some (some 0, t) ∧
      t.mActiveBillboards = (stateAfter 3 []).mActiveBillboards ++ [0] ∧
      t.mFreeBillboards = [1, 2] ∧
      t.mBillboardPool.length = (stateAfter 3 []).mBillboardPool.length :=
  ⟨rfl, C6_createBillboard_pops_front exampleMath (stateAfter 3 []) Vector3.ZERO ⟨1, 1, 1, 1⟩
    0 [1, 2] rfl⟩

/-- C7. The index walk breaks down at one input: with `2 ^ 33 - 1` active billboards and index
`2 ^ 32 - 1` the backward walk is chosen, its step count `size - index` is computed in
`unsigned int` and wraps to 0, the iterator stays at `end()`, and getBillboard dereferences
and removeBillboard splices `end()`; neither reaches the record at that index.  For every
other `unsigned int` index `i` smaller than the active count, removeBillboard(i) removes
exactly the i-th active billboard counted from the front, the record getBillboard(i) returns,
whether the walk starts from the front or from the end; it appends that record to the back of
the free list and leaves the other active billboards in the same relative order.  With the
active list [0, 1, 2, 3] index 1 is reached by the forward walk and index 2 by the backward
walk. -/
theorem C7_backward_walk_wraps :
    (hugeActive.mActiveBillboards.length = 2 ^ 33 - 1 ∧
      2 ^ 32 - 1 < 2 ^ 33 - 1 ∧
      hugeActive.locate (2 ^ 32 - 1) = 2 ^ 33 - 1 ∧
      hugeActive.getBillboard (2 ^ 32 - 1) = none ∧
      hugeActive.removeBillboard (2 ^ 32 - 1) = none) ∧
    (∀ (s : BillboardSet) (i : Nat), i < s.mActiveBillboards.length → i < UINT_RANGE →
      ¬ (s.mActiveBillboards.length = 2 * UINT_RANGE - 1 ∧ i = UINT_RANGE - 1) →
      s.locate i = i ∧
      ∃ bill, s.mActiveBillboards[i]? = some bill ∧
        s.getBillboard i = some bill ∧
        s.removeBillboard i = some (removeBillboardSpec s i bill)) ∧
    (fourActive.mActiveBillboards = [0, 1, 2, 3] ∧
      (fourActive.removeBillboard 1).map poolShape = some (4, 3, 1) ∧
      (fourActive.removeBillboard 1).map (fun t => t.mActiveBillboards) = some [0, 2, 3] ∧
      (fourActive.removeBillboard 2).map (fun t => t.mActiveBillboards) = some [0, 1, 3]) := by
  refine ⟨⟨hugeActive_length, by norm_num, hugeActive_locate,
    getBillboard_of_locate_end _ _ (hugeActive_locate.trans hugeActive_length.symm),
    removeBillboard_of_locate_end _ _ (hugeActive_locate.trans hugeActive_length.symm)⟩,
    ?_, by decide⟩
  intro s i hi hu hedge
  have hloc := locate_eq s i hi hu hedge
  have hget : s.mActiveBillboards[i]? = some (s.mActiveBillboards.get ⟨i, hi⟩) := by
    simp [List.getElem?_eq_getElem hi]
  refine ⟨hloc, _, hget, ?_, ?_⟩
  · unfold getBillboard
    rw [if_pos hi, hloc, hget]
  · unfold removeBillboard spliceToFree
    rw [if_pos hi, hloc, hget]
    simp only [removeBillboardSpec, List.eraseIdx_eq_take_drop_succ]

/-- C8. clear empties the active list and makes the free list the old free list followed by
the old active list in order; the pool vector, hence every record and the capacity, and the
recorded pool size are unchanged. -/
theorem C8_clear (s : BillboardSet) :
    s.clear.mActiveBillboards = [] ∧
    s.clear.mFreeBillboards = s.mFreeBillboards ++ s.mActiveBillboards ∧
    s.clear.mBillboardPool = s.mBillboardPool ∧
    s.clear.mPoolSize = s.mPoolSize ∧
    s.clear.getPoolSize = s.getPoolSize :=
  ⟨rfl, rfl, rfl, rfl, rfl⟩

/-- C9. Growth monotonicity: for every set and every `n` the capacity (the size of the pool
vector, which getPoolSize reports) after setPoolSize(n) is at least the capacity before, and
when `n` is at most the current capacity the pool vector, the active list and the free list
are unchanged. -/
theorem C9_setPoolSize_monotone (s : BillboardSet) (n : Nat) :
    s.mBillboardPool.length ≤ (s.setPoolSize n).mBillboardPool.length ∧
    (n ≤ s.mBillboardPool.length →
      (s.setPoolSize n).mBillboardPool = s.mBillboardPool ∧
      (s.setPoolSize n).getPoolSize = s.getPoolSize ∧
      (s.setPoolSize n).mActiveBillboards = s.mActiveBillboards ∧
      (s.setPoolSize n).mFreeBillboards = s.mFreeBillboards) := by
  by_cases hown : s.mExternalData = false
  · by_cases hle : n ≤ s.mBillboardPool.length
    · rw [setPoolSize_of_ge s n hown hle]
      exact ⟨Nat.le_refl _, fun _ => ⟨rfl, rfl, rfl, rfl⟩⟩
    · have hlt : s.mBillboardPool.length < n := by omega
      refine ⟨?_, fun h => absurd h hle⟩
      rw [setPoolSize_pool_of_lt s n hown hlt]
      simp
  · have hext : s.mExternalData = true := by simpa using hown
    rw [setPoolSize_external s n hext]
    exact ⟨Nat.le_refl _, fun _ => ⟨rfl, rfl, rfl, rfl⟩⟩

/-- C10. For an own-data set with capacity `c` and `n > c`, setPoolSize(n) makes the capacity
exactly `n` by appending `n - c` new records to the pool vector, appends their handles
`c, c+1, ..., n-1` to the back of the free list in pool order, leaves the active list
unchanged, records `n` as the pool size (getPoolSize reports it as an unsigned int), and
leaves the GPU buffers destroyed with the buffers-created flag false. -/
theorem C10_setPoolSize_grows (s : BillboardSet) (c n : Nat)
    (hown : s.mExternalData = false) (hcap : s.mBillboardPool.length = c) (hn : c < n) :
    (s.setPoolSize n).mBillboardPool.length = n ∧
    (s.setPoolSize n).mBillboardPool =
      s.mBillboardPool ++ List.replicate (n - c) Billboard.new ∧
    (s.setPoolSize n).mFreeBillboards = s.mFreeBillboards ++ List.range' c (n - c) ∧
    (s.setPoolSize n).mActiveBillboards = s.mActiveBillboards ∧
    (s.setPoolSize n).mPoolSize = n ∧
    (s.setPoolSize n).getPoolSize = n % UINT_RANGE ∧
    (s.setPoolSize n).mBuffersCreated = false ∧
    (s.setPoolSize n).mVertexData = none ∧
    (s.setPoolSize n).mIndexData = none ∧
    (s.setPoolSize n).mMainBuf = none := by
  subst hcap
  have hpool := setPoolSize_pool_of_lt s n hown hn
  have hnle : ¬ n ≤ s.mBillboardPool.length := by omega
  have hlen : (s.setPoolSize n).mBillboardPool.length = n := by
    rw [hpool]; simp; omega
  refine ⟨hlen, hpool, setPoolSize_free_of_lt s n hown hn, setPoolSize_active s n, ?_, ?_, ?_,
    ?_, ?_, ?_⟩
  · simp [setPoolSize, hown, hnle, _destroyBuffers, increasePool]
  · unfold getPoolSize
    rw [hlen]
  all_goals simp [setPoolSize, hown, hnle, _destroyBuffers, increasePool]

/-- Witness for C10: growing a fresh set of capacity 3 to 5 appends the handles 3 and 4 to
the free list. -/
theorem C10_setPoolSize_grows_witness :
    ((stateAfter 3 []).setPoolSize 5).mFreeBillboards = [0, 1, 2, 3, 4] ∧
    (((stateAfter 3 []).setPoolSize 5).mBillboardPool.length = 5 ∧
    ((stateAfter 3 []).setPoolSize 5).mBillboardPool =
      (stateAfter 3 []).mBillboardPool ++ List.replicate (5 - 3) Billboard.new ∧
    ((stateAfter 3 []).setPoolSize 5).mFreeBillboards =
      (stateAfter 3 []).mFreeBillboards ++ List.range' 3 (5 - 3) ∧
    ((stateAfter 3 []).setPoolSize 5).mActiveBillboards = (stateAfter 3 []).mActiveBillboards ∧
    ((stateAfter 3 []).setPoolSize 5).mPoolSize = 5 ∧
    ((stateAfter 3 []).setPoolSize 5).getPoolSize = 5 % UINT_RANGE ∧
    ((stateAfter 3 []).setPoolSize 5).mBuffersCreated = false ∧
    ((stateAfter 3 []).setPoolSize 5).mVertexData = none ∧
    ((stateAfter 3 []).setPoolSize 5).mIndexData = none ∧
    ((stateAfter 3 []).setPoolSize 5).mMainBuf = none) :=
  ⟨rfl, C10_setPoolSize_grows (stateAfter 3 []) 3 5 rfl rfl (by decide)⟩

/-- C11. A successful createBillboard(position, colour), on a set whose free handles lie within
the pool, returns a handle to a record whose position and colour are the arguments and whose
direction is the zero vector, rotation 0, texcoord index 0 (with the explicit-rectangle flag
cleared) and own-dimensions flag cleared, whatever the recycled record held before; the record
is also tied to the set. -/
theorem C11_createBillboard_resets (M : Math) (s t : BillboardSet) (position : Vector3)
    (colour : ColourValue) (newBill : Nat)
    (hvalid : ∀ b ∈ s.mFreeBillboards, b < s.mBillboardPool.length)
    (hc : s.createBillboard M position colour = some (some newBill, t)) :
    ∃ b, t.mBillboardPool[newBill]? = some b ∧
      b.mPosition = position ∧ b.mColour = colour ∧ b.mDirection = Vector3.ZERO ∧
      b.mRotation = 0 ∧ b.mTexcoordIndex = 0 ∧ b.mUseTexcoordRect = false ∧
      b.mOwnDimensions = false ∧ b.mParentSet = true := by
  have key : ∀ s1 : BillboardSet, (∀ b ∈ s1.mFreeBillboards, b < s1.mBillboardPool.length) →
      getNewBillboard M s1 position colour = some (some newBill, t) →
      ∃ b, t.mBillboardPool[newBill]? = some b ∧
        b.mPosition = position ∧ b.mColour = colour ∧ b.mDirection = Vector3.ZERO ∧
        b.mRotation = 0 ∧ b.mTexcoordIndex = 0 ∧ b.mUseTexcoordRect = false ∧
        b.mOwnDimensions = false ∧ b.mParentSet = true := by
    intro s1 hv hg
    obtain ⟨hmem, hpool⟩ := getNewBillboard_pool hg
    have hlt := hv newBill hmem
    refine ⟨resetBillboard (s1.mBillboardPool[newBill]) position colour, ?_, rfl, rfl, rfl, rfl,
      rfl, rfl, rfl, rfl⟩
    rw [hpool, List.getElem?_modify, List.getElem?_eq_getElem hlt]
    simp
  unfold createBillboard at hc
  split at hc
  · split at hc
    · exact key _ (setPoolSize_free_valid s _ hvalid) hc
    · simp at hc
  · exact key s hvalid hc

/-- Witness for C11: creating at (7, 8, 9) on a set whose only free record still holds own
dimensions, a rotation, a direction and a texcoord rectangle from an earlier use. -/
theorem C11_createBillboard_resets_witness :
    ∃ b, recycledCreated.mBillboardPool[0]? = some b ∧
      b.mPosition = ⟨7, 8, 9⟩ ∧ b.mColour = ⟨1, 1, 1, 1⟩ ∧ b.mDirection = Vector3.ZERO ∧
      b.mRotation = 0 ∧ b.mTexcoordIndex = 0 ∧ b.mUseTexcoordRect = false ∧
      b.mOwnDimensions = false ∧ b.mParentSet = true :=
  C11_createBillboard_resets exampleMath recycledSet recycledCreated ⟨7, 8, 9⟩ ⟨1, 1, 1, 1⟩ 0
    (by decide) rfl

/-- C13. In an ORIENTED_SELF set with default dimensions 100 x 100 whose all-default-size flag
is false, injectBillboard computes the corner offsets of a billboard whose own-dimensions flag
is not set from the width and height fields of the billboard (5 x 5 here) and not from the
default dimensions of the set: the offsets are those of the centred 5 x 5 quad, which differ
from those of the centred 100 x 100 quad that the same call yields when the all-default-size
flag is true. -/
theorem C13_default_dimensions_ignored :
    staleBillboard.mOwnDimensions = false ∧
    selfOrientedSet.mDefaultWidth = 100 ∧ selfOrientedSet.mDefaultHeight = 100 ∧
    selfOrientedSet.mAllDefaultSize = false ∧
    (selfOrientedSet.injectOffsets exampleMath staleBillboard).map Prod.snd =
      some (centredQuad 5 5) ∧
    centredQuad 5 5 ≠ centredQuad 100 100 ∧
    (injectOffsets exampleMath { selfOrientedSet with mAllDefaultSize := true }
      staleBillboard).map Prod.snd = some (centredQuad 100 100) := by
  have haxis := selfOriented_axis
  refine ⟨rfl, rfl, rfl, rfl, ?_, ?_, ?_⟩
  · have h1 : (selfOrientedSet.injectOffsets exampleMath staleBillboard).map Prod.snd =
        some (genVertOffsets (-1/2) (1/2) (1/2) (-1/2) 5 5
          (Vector3.normalise exampleMath
            (Vector3.crossProduct ⟨0, 0, -1⟩ staleBillboard.mDirection)) ⟨0, 1, 0⟩) := rfl
    rw [h1, haxis, genVertOffsets_centred]
  · simp only [centredQuad, ne_eq, CornerOffsets.mk.injEq, Vector3.mk.injEq]
    norm_num
  · have h1 : (injectOffsets exampleMath { selfOrientedSet with mAllDefaultSize := true }
        staleBillboard).map Prod.snd =
        some (genVertOffsets (-1/2) (1/2) (1/2) (-1/2) 100 100
          (Vector3.normalise exampleMath
            (Vector3.crossProduct ⟨0, 0, -1⟩ staleBillboard.mDirection)) ⟨0, 1, 0⟩) := rfl
    rw [h1, haxis, genVertOffsets_centred]

/-- C14. After _sortBillboards the active list is a permutation of the active list before the
call, in non-decreasing order of the key of the spec (minus the squared distance from the
camera position in DISTANCE mode, the dot product of minus the camera direction with the
position in DIRECTION mode); the records are untouched; the mode is DISTANCE exactly when
accurate facing is on or the type is PERPENDICULAR_SELF or PERPENDICULAR_COMMON; and in
DISTANCE mode the squared distance is non-increasing along the list. -/
theorem C14_sort_correct (s : BillboardSet) :
    s._sortBillboards.mActiveBillboards.Perm s.mActiveBillboards ∧
    s._sortBillboards.mActiveBillboards.Sorted (fun a b => sortKeySpec s a ≤ sortKeySpec s b) ∧
    s._sortBillboards.mBillboardPool = s.mBillboardPool ∧
    (s._getSortMode = SortMode.SM_DISTANCE ↔
      (s.mAccurateFacing = true ∨
       s.mBillboardType = BillboardType.BBT_PERPENDICULAR_SELF ∨
       s.mBillboardType = BillboardType.BBT_PERPENDICULAR_COMMON)) ∧
    (s._getSortMode = SortMode.SM_DISTANCE →
      s._sortBillboards.mActiveBillboards.Sorted (fun a b =>
        (s.mCamPos - (s.deref a).mPosition).squaredLength ≥
          (s.mCamPos - (s.deref b).mPosition).squaredLength)) := by
  have hmode : s._getSortMode = SortMode.SM_DISTANCE ↔
      (s.mAccurateFacing = true ∨
       s.mBillboardType = BillboardType.BBT_PERPENDICULAR_SELF ∨
       s.mBillboardType = BillboardType.BBT_PERPENDICULAR_COMMON) := by
    unfold _getSortMode
    by_cases h : s.mAccurateFacing = true ∨
        s.mBillboardType = BillboardType.BBT_PERPENDICULAR_SELF ∨
        s.mBillboardType = BillboardType.BBT_PERPENDICULAR_COMMON
    · have h2 : (s.mAccurateFacing ||
          s.mBillboardType == BillboardType.BBT_PERPENDICULAR_SELF ||
          s.mBillboardType == BillboardType.BBT_PERPENDICULAR_COMMON) = true := by
        simpa [or_assoc] using h
      simp [h2, h]
    · have h2 : ¬ (s.mAccurateFacing ||
          s.mBillboardType == BillboardType.BBT_PERPENDICULAR_SELF ||
          s.mBillboardType == BillboardType.BBT_PERPENDICULAR_COMMON) = true := by
        simpa [or_assoc] using h
      simp [h2, h]
  have hsorted := radixSort_sorted (sortKeySpec s) s.mActiveBillboards
  refine ⟨?_, ?_, ?_, hmode, ?_⟩
  · rw [sortBillboards_eq]; exact radixSort_perm _ _
  · rw [sortBillboards_eq]; exact hsorted
  · rw [sortBillboards_eq]
  · intro hd
    rw [sortBillboards_eq]
    have hcond := hmode.mp hd
    refine List.Pairwise.imp ?_ hsorted
    intro a b hab
    simp only [sortKeySpec, hcond, if_true] at hab
    linarith

/-- C15. getParametricOffsets yields, for each of the nine origin types, the bounds of the
3 x 3 grid of the spec: left is 0, -1/2, -1 by column with right = left + 1, top is 0, 1/2, 1
by row with bottom = top - 1. In particular TOP_LEFT gives (0, 1, 0, -1), CENTER gives
(-1/2, 1/2, 1/2, -1/2) and BOTTOM_RIGHT gives (-1, 0, 1, 0). -/
theorem C15_getParametricOffsets (s : BillboardSet) :
    s.getParametricOffsets = parametricOffsetsSpec s.mOriginType ∧
    parametricOffsetsSpec BillboardOrigin.BBO_TOP_LEFT = (0, 1, 0, -1) ∧
    parametricOffsetsSpec BillboardOrigin.BBO_CENTER = (-1/2, 1/2, 1/2, -1/2) ∧
    parametricOffsetsSpec BillboardOrigin.BBO_BOTTOM_RIGHT = (-1, 0, 1, 0) := by
  refine ⟨?_, ?_, ?_, ?_⟩
  · unfold getParametricOffsets parametricOffsetsSpec
    cases s.mOriginType <;> norm_num
  all_goals (unfold parametricOffsetsSpec; norm_num)

/-- C16. genVertOffsets is a function of (left, right, top, bottom, width, height, x, y) alone
and yields offsets[0] = x*(left*width) + y*(top*height),
offsets[1] = x*(right*width) + y*(top*height), offsets[2] = x*(left*width) + y*(bottom*height)
and offsets[3] = x*(right*width) + y*(bottom*height). -/
theorem C16_genVertOffsets (inleft inright intop inbottom width height : Real)
    (x y : Vector3) :
    (genVertOffsets inleft inright intop inbottom width height x y).v0 =
      x.scale (inleft * width) + y.scale (intop * height) ∧
    (genVertOffsets inleft inright intop inbottom width height x y).v1 =
      x.scale (inright * width) + y.scale (intop * height) ∧
    (genVertOffsets inleft inright intop inbottom width height x y).v2 =
      x.scale (inleft * width) + y.scale (inbottom * height) ∧
    (genVertOffsets inleft inright intop inbottom width height x y).v3 =
      x.scale (inright * width) + y.scale (inbottom * height) :=
  ⟨rfl, rfl, rfl, rfl⟩

/-- C17. Offset symmetry: for origin type CENTER and every width, height and pair of axis
vectors, the four corner offsets produced by getParametricOffsets followed by genVertOffsets
sum to the zero vector (in exact arithmetic). -/
theorem C17_offset_symmetry (s : BillboardSet) (width height : Real) (x y : Vector3)
    (hc : s.mOriginType = BillboardOrigin.BBO_CENTER) :
    (s.cornerOffsetsFor width height x y).v0 + (s.cornerOffsetsFor width height x y).v1 +
      (s.cornerOffsetsFor width height x y).v2 + (s.cornerOffsetsFor width height x y).v3 =
      Vector3.ZERO := by
  simp only [cornerOffsetsFor, getParametricOffsets, hc, genVertOffsets, vector3_add_def,
    Vector3.scale, Vector3.ZERO, Vector3.mk.injEq]
  refine ⟨?_, ?_, ?_⟩ <;> ring

/-- Witness for C17: a freshly constructed set has origin type CENTER, and its offsets for a
3 x 7 quad along the axes (1, 2, 3) and (-4, 5, 6) sum to zero. -/
theorem C17_offset_symmetry_witness :
    (stateAfter 1 []).mOriginType = BillboardOrigin.BBO_CENTER ∧
    ((stateAfter 1 []).cornerOffsetsFor 3 7 ⟨1, 2, 3⟩ ⟨-4, 5, 6⟩).v0 +
      ((stateAfter 1 []).cornerOffsetsFor 3 7 ⟨1, 2, 3⟩ ⟨-4, 5, 6⟩).v1 +
      ((stateAfter 1 []).cornerOffsetsFor 3 7 ⟨1, 2, 3⟩ ⟨-4, 5, 6⟩).v2 +
      ((stateAfter 1 []).cornerOffsetsFor 3 7 ⟨1, 2, 3⟩ ⟨-4, 5, 6⟩).v3 = Vector3.ZERO :=
  ⟨rfl, C17_offset_symmetry (stateAfter 1 []) 3 7 ⟨1, 2, 3⟩ ⟨-4, 5, 6⟩ rfl⟩

/-- C18. For every set and billboard genBillboardAxes is defined and follows the per-mode rule
of the spec: the camera direction becomes normalise(billboard position - camera position) when
accurate facing is on and the type is POINT, ORIENTED_COMMON or ORIENTED_SELF, and is kept
otherwise; POINT without accurate facing gives right = camQ*UNIT_X and up = camQ*UNIT_Y;
ORIENTED_COMMON gives up = common direction and right = normalise(cross(camDir, up));
ORIENTED_SELF gives up = the direction of the billboard and right = normalise(cross(camDir,
up)); PERPENDICULAR_COMMON gives right = cross(commonUp, commonDirection) without
normalisation and up = cross(commonDirection, right); PERPENDICULAR_SELF gives right =
normalise(cross(commonUp, direction)) and up = cross(direction, right). -/
theorem C18_genBillboardAxes (M : Math) (s : BillboardSet) (bb : Billboard) :
    genBillboardAxes M s (some bb) =
      some ({ s with mCamDir := camDirSpec M s bb }, (axesSpec M s bb).1,
        (axesSpec M s bb).2) := by
  unfold genBillboardAxes
  rw [accurateCamDir_some]
  unfold axesSpec
  cases htype : s.mBillboardType <;> cases hacc : s.mAccurateFacing <;> simp [htype, hacc]

/-- C19. Orientation orthogonality: in POINT mode without accurate facing, for every unit
camera-orientation quaternion, genBillboardAxes leaves the set unchanged and yields
right = camQ*UNIT_X and up = camQ*UNIT_Y, each of squared length 1 and with dot product 0. -/
theorem C19_orientation_orthogonality (M : Math) (s : BillboardSet) (bb : Option Billboard)
    (htype : s.mBillboardType = BillboardType.BBT_POINT)
    (hacc : s.mAccurateFacing = false)
    (hunit : s.mCamQ.w * s.mCamQ.w + s.mCamQ.x * s.mCamQ.x + s.mCamQ.y * s.mCamQ.y +
      s.mCamQ.z * s.mCamQ.z = 1) :
    ∃ right up, genBillboardAxes M s bb = some (s, right, up) ∧
      right = s.mCamQ.rotate Vector3.UNIT_X ∧ up = s.mCamQ.rotate Vector3.UNIT_Y ∧
      right.squaredLength = 1 ∧ up.squaredLength = 1 ∧ right.dotProduct up = 0 := by
  refine ⟨s.mCamQ.rotate Vector3.UNIT_X, s.mCamQ.rotate Vector3.UNIT_Y, ?_, rfl, rfl, ?_, ?_, ?_⟩
  · unfold genBillboardAxes accurateCamDir
    simp [htype, hacc]
  · simp only [Quaternion.rotate, Vector3.squaredLength, Vector3.crossProduct, Vector3.scale,
      Vector3.UNIT_X, vector3_add_def]
    linear_combination (4 * s.mCamQ.y * s.mCamQ.y + 4 * s.mCamQ.z * s.mCamQ.z) * hunit
  · simp only [Quaternion.rotate, Vector3.squaredLength, Vector3.crossProduct, Vector3.scale,
      Vector3.UNIT_Y, vector3_add_def]
    linear_combination (4 * s.mCamQ.x * s.mCamQ.x + 4 * s.mCamQ.z * s.mCamQ.z) * hunit
  · simp only [Quaternion.rotate, Vector3.dotProduct, Vector3.crossProduct, Vector3.scale,
      Vector3.UNIT_X, Vector3.UNIT_Y, vector3_add_def]
    linear_combination (-4 * s.mCamQ.x * s.mCamQ.y) * hunit

/-- Witness for C19: the unit quaternion (1/2, 1/2, 1/2, 1/2), which turns the x axis into
the y axis. -/
theorem C19_orientation_orthogonality_witness :
    halfTurnedSet.mCamQ.rotate Vector3.UNIT_X = Vector3.UNIT_Y ∧
    ∃ right up, genBillboardAxes exampleMath halfTurnedSet none =
        some (halfTurnedSet, right, up) ∧
      right = halfTurnedSet.mCamQ.rotate Vector3.UNIT_X ∧
      up = halfTurnedSet.mCamQ.rotate Vector3.UNIT_Y ∧
      right.squaredLength = 1 ∧ up.squaredLength = 1 ∧ right.dotProduct up = 0 :=
  ⟨by
    simp only [halfTurnedSet, Quaternion.rotate, Vector3.crossProduct, Vector3.scale,
      Vector3.UNIT_X, Vector3.UNIT_Y, vector3_add_def, Vector3.mk.injEq]
    norm_num,
   C19_orientation_orthogonality exampleMath halfTurnedSet none rfl rfl (by
    simp only [halfTurnedSet]
    norm_num)⟩

/-- C22. setTextureStacksAndSlices(stacks, slices) with stacks >= 1 and slices >= 1 stores
exactly stacks * slices rectangles, and the rectangle at index v * slices + u, for u < slices
and v < stacks, is (left = u / slices, right = (u + 1) / slices, top = v / stacks,
bottom = (v + 1) / stacks). -/
theorem C22_setTextureStacksAndSlices (s : BillboardSet) (nStacks nSlices : Nat)
    (hstacks : 1 ≤ nStacks) (hslices : 1 ≤ nSlices) :
    (s.setTextureStacksAndSlices nStacks nSlices).mTextureCoords.length = nStacks * nSlices ∧
    ∀ u v : Nat, u < nSlices → v < nStacks →
      (s.setTextureStacksAndSlices nStacks nSlices).mTextureCoords[v * nSlices + u]? =
        some { left := (u : Real) / (nSlices : Real),
               right := ((u : Real) + 1) / (nSlices : Real),
               top := (v : Real) / (nStacks : Real),
               bottom := ((v : Real) + 1) / (nStacks : Real) } := by
  rw [setTextureStacksAndSlices_coords s nStacks nSlices hstacks hslices]
  obtain ⟨hlen, hget⟩ := flatMap_rows nSlices
    (fun v => (List.range nSlices).map fun u => gridRect nStacks nSlices u v)
    (fun v => by simp) nStacks
  refine ⟨hlen, ?_⟩
  intro u v hu hv
  rw [hget u v hu hv]
  simp [hu, gridRect]

/-- Witness for C22: stacks = 2 and slices = 2 give four rectangles, index 0 being
(left 0, right 1/2, top 0, bottom 1/2) and index 3 (left 1/2, right 1, top 1/2, bottom 1). -/
theorem C22_setTextureStacksAndSlices_witness :
    ((stateAfter 1 []).setTextureStacksAndSlices 2 2).mTextureCoords =
      [{ left := 0, right := 1/2, top := 0, bottom := 1/2 },
       { left := 1/2, right := 1, top := 0, bottom := 1/2 },
       { left := 0, right := 1/2, top := 1/2, bottom := 1 },
       { left := 1/2, right := 1, top := 1/2, bottom := 1 }] ∧
    (((stateAfter 1 []).setTextureStacksAndSlices 2 2).mTextureCoords.length = 2 * 2 ∧
    ∀ u v : Nat, u < 2 → v < 2 →
      ((stateAfter 1 []).setTextureStacksAndSlices 2 2).mTextureCoords[v * 2 + u]? =
        some { left := (u : Real) / ((2 : Nat) : Real),
               right := ((u : Real) + 1) / ((2 : Nat) : Real),
               top := (v : Real) / ((2 : Nat) : Real),
               bottom := ((v : Real) + 1) / ((2 : Nat) : Real) }) :=
  ⟨by
    rw [setTextureStacksAndSlices_coords _ 2 2 (by decide) (by decide)]
    simp [List.range_succ, gridRect],
   C22_setTextureStacksAndSlices (stateAfter 1 []) 2 2 (by decide) (by decide)⟩

/-- C23. After clear() a full recompute of the bounds (_updateBounds) yields the null box and
the radius 0, and so does _updateBounds on every set whose active list is empty, whatever
the bounds were before. -/
theorem C23_updateBounds_empty (M : Math) (invWorld : Option (Vector3 → Vector3))
    (s : BillboardSet) :
    ((s.clear)._updateBounds M invWorld).mAABB = AxisAlignedBox.null ∧
    ((s.clear)._updateBounds M invWorld).mBoundingRadius = 0 ∧
    (s.mActiveBillboards = [] →
      (s._updateBounds M invWorld).mAABB = AxisAlignedBox.null ∧
      (s._updateBounds M invWorld).mBoundingRadius = 0) := by
  refine ⟨rfl, rfl, ?_⟩
  intro h
  simp [_updateBounds, h, AxisAlignedBox.setNull]

/-- C24. For a non-empty active list in local space, _updateBounds sets the box to the
finite box whose minimum is the component-wise least coordinate of the active positions
minus a and whose maximum is the component-wise greatest coordinate plus a, with
a = max(default width, default height), and the radius to the square root of the greatest
squared length of an active position. With one active billboard at the origin and default
width = height = d the box is [-d, d] on each axis. -/
theorem C24_updateBounds_nonempty (M : Math) (invWorld : Option (Vector3 → Vector3))
    (s : BillboardSet) (hne : s.mActiveBillboards ≠ []) (hlocal : s.mWorldSpace = false) :
    (∃ mn mx : Vector3, ∃ q : Real,
      LeastOn (fun p => p.x) mn.x s.activePositions ∧
      LeastOn (fun p => p.y) mn.y s.activePositions ∧
      LeastOn (fun p => p.z) mn.z s.activePositions ∧
      GreatestOn (fun p => p.x) mx.x s.activePositions ∧
      GreatestOn (fun p => p.y) mx.y s.activePositions ∧
      GreatestOn (fun p => p.z) mx.z s.activePositions ∧
      GreatestOn Vector3.squaredLength q s.activePositions ∧
      (s._updateBounds M invWorld).mAABB =
        AxisAlignedBox.finite (mn - s.vecAdjust) (mx + s.vecAdjust) ∧
      (s._updateBounds M invWorld).mBoundingRadius = M.Sqrt q) ∧
    (∀ (bill : Nat) (d : Real), s.mActiveBillboards = [bill] →
      (s.deref bill).mPosition = Vector3.ZERO → s.mDefaultWidth = d → s.mDefaultHeight = d →
      (s._updateBounds M invWorld).mAABB = AxisAlignedBox.finite ⟨-d, -d, -d⟩ ⟨d, d, d⟩) := by
  constructor
  · obtain ⟨acc, ⟨h1, h2, h3, h4, h5, h6, h7⟩, hbox, hrad⟩ :=
      updateBounds_nonempty M invWorld s hne hlocal
    exact ⟨acc.1, acc.2.1, acc.2.2, h1, h2, h3, h4, h5, h6, h7, hbox, hrad⟩
  · intro bill d hact hpos hw hh
    have hp := boundsPosition_local invWorld s hlocal bill
    simp only [_updateBounds, hact, List.map_nil, List.foldl_nil, hp, hpos, hw, hh, max_self,
      AxisAlignedBox.setExtents, vector3_sub_def, vector3_add_def, Vector3.ZERO]
    simp

/-- Witness for C24: one billboard created at the origin in a set with default dimensions
100 x 100: the recomputed box and the box merged by createBillboard are both [-100, 100] on
each axis. -/
theorem C24_updateBounds_nonempty_witness :
    ((stateAfter 1 [createAtOrigin])._updateBounds exampleMath none).mAABB =
      AxisAlignedBox.finite ⟨-100, -100, -100⟩ ⟨100, 100, 100⟩ ∧
    (stateAfter 1 [createAtOrigin]).mAABB =
      AxisAlignedBox.finite ⟨-100, -100, -100⟩ ⟨100, 100, 100⟩ := by
  have h := C24_updateBounds_nonempty exampleMath none (stateAfter 1 [createAtOrigin])
    (by decide) rfl
  refine ⟨h.2 0 100 rfl rfl rfl rfl, ?_⟩
  have hbox : (stateAfter 1 [createAtOrigin]).mAABB =
      (AxisAlignedBox.null.merge (Vector3.ZERO - ⟨max 100 100, max 100 100, max 100 100⟩)).merge
        (Vector3.ZERO + ⟨max 100 100, max 100 100, max 100 100⟩) := rfl
  rw [hbox]
  simp only [AxisAlignedBox.merge, Vector3.makeFloor, Vector3.makeCeil, vector3_sub_def,
    vector3_add_def, Vector3.ZERO, max_self]
  norm_num

/-- C25. The index topology breaks down from quad 16384 on: with pool capacity 16385 and quad
rendering, the six indices `_createBuffers` writes for quad 16384 are 0, 2, 1, 1, 2, 3, those
of quad 0, not 65536, 65538, 65537, 65537, 65538, 65539, because every value is cast to a
16-bit index.  For every pool capacity and every quad number b below it the values written
are 4b, 4b+2, 4b+1, 4b+1, 4b+2, 4b+3 reduced modulo 65536, so for b < 16384 they are the two
triangles (0,2,1) and (1,2,3) over the four vertices 4b..4b+3 of that quad. -/
theorem C25_index_cast_aliases :
    ((stateAfter 16385 []).mPoolSize = 16385 ∧
      (stateAfter 16385 []).mPointRendering = false ∧
      (stateAfter 16385 []).quadIndicesWritten 16384 = some [0, 2, 1, 1, 2, 3] ∧
      (stateAfter 16385 []).quadIndicesWritten 0 = some [0, 2, 1, 1, 2, 3] ∧
      [0, 2, 1, 1, 2, 3] ≠
        [4 * 16384, 4 * 16384 + 2, 4 * 16384 + 1, 4 * 16384 + 1, 4 * 16384 + 2,
         4 * 16384 + 3]) ∧
    (∀ (s : BillboardSet) (bboard : Nat), s.mPointRendering = false → bboard < s.mPoolSize →
      s.quadIndicesWritten bboard =
        some [4 * bboard % 2 ^ 16, (4 * bboard + 2) % 2 ^ 16, (4 * bboard + 1) % 2 ^ 16,
              (4 * bboard + 1) % 2 ^ 16, (4 * bboard + 2) % 2 ^ 16,
              (4 * bboard + 3) % 2 ^ 16]) ∧
    (∀ (s : BillboardSet) (bboard : Nat), s.mPointRendering = false → bboard < s.mPoolSize →
      bboard < 16384 →
      s.quadIndicesWritten bboard =
        some [4 * bboard, 4 * bboard + 2, 4 * bboard + 1, 4 * bboard + 1, 4 * bboard + 2,
              4 * bboard + 3]) := by
  refine ⟨⟨rfl, rfl, ?_, ?_, by decide⟩, ?_, ?_⟩
  · rw [quadIndicesWritten_eq _ 16384 rfl (by show 16384 < 16385; decide)]
    rfl
  · rw [quadIndicesWritten_eq _ 0 rfl (by show 0 < 16385; decide)]
    rfl
  · intro s bboard hquad hb
    rw [quadIndicesWritten_eq s bboard hquad hb]
    simp only [quadIndices, USHORT_RANGE, Nat.mul_comm bboard 4]
  · intro s bboard hquad hb hshort
    rw [quadIndicesWritten_eq s bboard hquad hb, quadIndices_small bboard hshort]

/-- Counterexample for C26: in a POINT set whose all-default-size flag is false and whose
shared offsets are all zero, beginBillboards(1) stores the offsets of the centred 100 x 100
quad: the precomputation is performed although not all billboards share the default size. -/
theorem C26_shared_offsets_counterexample :
    resizedSet.mAllDefaultSize = false ∧
    resizedSet.mVOffset = ⟨⟨0, 0, 0⟩, ⟨0, 0, 0⟩, ⟨0, 0, 0⟩, ⟨0, 0, 0⟩⟩ ∧
    (resizedSet.beginBillboards exampleMath 1).map (fun t => t.mVOffset) =
      some (centredQuad 100 100) ∧
    centredQuad 100 100 ≠ ⟨⟨0, 0, 0⟩, ⟨0, 0, 0⟩, ⟨0, 0, 0⟩, ⟨0, 0, 0⟩⟩ := by
  refine ⟨rfl, rfl, ?_, ?_⟩
  · have h1 : (resizedSet.beginBillboards exampleMath 1).map (fun t => t.mVOffset) =
        some (genVertOffsets (-1/2) (1/2) (1/2) (-1/2) 100 100
          (Quaternion.rotate ⟨1, 0, 0, 0⟩ Vector3.UNIT_X)
          (Quaternion.rotate ⟨1, 0, 0, 0⟩ Vector3.UNIT_Y)) := rfl
    have hx : Quaternion.rotate ⟨1, 0, 0, 0⟩ Vector3.UNIT_X = ⟨1, 0, 0⟩ := by
      simp [Quaternion.rotate, Vector3.crossProduct, Vector3.scale, Vector3.UNIT_X,
        vector3_add_def]
    have hy : Quaternion.rotate ⟨1, 0, 0, 0⟩ Vector3.UNIT_Y = ⟨0, 1, 0⟩ := by
      simp [Quaternion.rotate, Vector3.crossProduct, Vector3.scale, Vector3.UNIT_Y,
        vector3_add_def]
    rw [h1, hx, hy, genVertOffsets_centred]
  · simp only [centredQuad, ne_eq, CornerOffsets.mk.injEq, Vector3.mk.injEq]
    norm_num

/-- C26, amended. beginBillboards performs the precomputation of the shared corner offsets
(genVertOffsets with the default width and height and the axes it has just stored) exactly
when the set is not point rendering and the mode does not need per-billboard axes, whatever
the all-default-size flag; otherwise it leaves the shared offsets as they were.  In the modes
where it is performed, injectBillboard passes the precomputed offsets on for every billboard
without own dimensions, also when the all-default-size flag is false. -/
theorem C26_shared_offsets (M : Math) (s t : BillboardSet) (numBillboards : Nat)
    (h : s.beginBillboards M numBillboards = some t) :
    (s.mPointRendering = false → s.perBillboardAxes = false →
      t.mVOffset = s.cornerOffsetsFor s.mDefaultWidth s.mDefaultHeight t.mCamX t.mCamY) ∧
    (s.mPointRendering = true ∨ s.perBillboardAxes = true → t.mVOffset = s.mVOffset) ∧
    (s.mPointRendering = false → s.perBillboardAxes = false →
      ∀ bb : Billboard, bb.mOwnDimensions = false →
        t.injectOffsets M bb = some (t, t.mVOffset)) := by
  obtain ⟨h1, h2⟩ := beginBillboards_offsets h
  obtain ⟨hp, hq⟩ := beginBillboards_mode h
  refine ⟨h1, h2, ?_⟩
  intro hpoint hper bb hown
  have h3 := injectOffsets_shared M t bb (Or.inr (by rw [hq]; exact hper))
  rw [h3, if_pos (Or.inr (Or.inr hown))]

/-- Witness for C26: the set of the counterexample after beginBillboards(1). -/
theorem C26_shared_offsets_witness :
    resizedBegun.mVOffset =
      resizedSet.cornerOffsetsFor 100 100 resizedBegun.mCamX resizedBegun.mCamY :=
  (C26_shared_offsets exampleMath resizedSet resizedBegun 1 rfl).1 rfl rfl

/-- C27. Incremental bounds overestimate: in every state a set reaches from its constructor
by createBillboard, removeBillboard (by index or by handle), clear, setPoolSize, sorting and
setAutoextend, the incrementally maintained bounding box contains the box that a full
recompute (_updateBounds) produces for the current active list. -/
theorem C27_incremental_bounds_contain (M : Math) (invWorld : Option (Vector3 → Vector3))
    (uninit s0 s : BillboardSet) (poolSize : Nat) (externalData : Bool) (ops : List Op)
    (h0 : s0 = mk0 uninit ∨ s0 = mk3 uninit poolSize externalData)
    (h : s0.run M ops = some s) :
    s.mAABB.contains (s._updateBounds M invWorld).mAABB := by
  have hinv0 : PoolInv s0 ∧ s0.mActiveBillboards = [] ∧ s0.mWorldSpace = false := by
    rcases h0 with rfl | rfl
    · exact ⟨poolInv_mk0 uninit, rfl, rfl⟩
    · exact ⟨poolInv_mk3 uninit poolSize externalData, mk3_active uninit poolSize externalData⟩
  obtain ⟨hp, hact, hw⟩ := hinv0
  have hc0 : Covers s0 := by
    intro bill hb
    rw [hact] at hb
    simp at hb
  obtain ⟨hc, hws⟩ := covers_run ops hp hc0 h
  exact contains_of_covers M invWorld s hc (by rw [hws, hw])

/-- Witness for C27: after creating billboards at the origin and at (10, 0, 0) and removing
the second, the maintained box reaches 110 on the x axis, the recomputed one 100. -/
theorem C27_incremental_bounds_contain_witness :
    (stateAfter 2 boundsOps).mAABB =
      AxisAlignedBox.finite ⟨-100, -100, -100⟩ ⟨110, 100, 100⟩ ∧
    ((stateAfter 2 boundsOps)._updateBounds exampleMath none).mAABB =
      AxisAlignedBox.finite ⟨-100, -100, -100⟩ ⟨100, 100, 100⟩ ∧
    (stateAfter 2 boundsOps).mAABB.contains
      ((stateAfter 2 boundsOps)._updateBounds exampleMath none).mAABB := by
  refine ⟨?_, ?_, C27_incremental_bounds_contain exampleMath none default (mk3 default 2 false)
    (stateAfter 2 boundsOps) 2 false boundsOps (Or.inr rfl) rfl⟩
  · have hbox : (stateAfter 2 boundsOps).mAABB =
        (((AxisAlignedBox.null.merge
            (Vector3.ZERO - ⟨max 100 100, max 100 100, max 100 100⟩)).merge
            (Vector3.ZERO + ⟨max 100 100, max 100 100, max 100 100⟩)).merge
            (⟨10, 0, 0⟩ - ⟨max 100 100, max 100 100, max 100 100⟩)).merge
            (⟨10, 0, 0⟩ + ⟨max 100 100, max 100 100, max 100 100⟩) := rfl
    rw [hbox]
    simp only [AxisAlignedBox.merge, Vector3.makeFloor, Vector3.makeCeil, vector3_sub_def,
      vector3_add_def, Vector3.ZERO, max_self]
    norm_num
  · have hbox : ((stateAfter 2 boundsOps)._updateBounds exampleMath none).mAABB =
        AxisAlignedBox.finite (Vector3.ZERO - ⟨max 100 100, max 100 100, max 100 100⟩)
          (Vector3.ZERO + ⟨max 100 100, max 100 100, max 100 100⟩) := rfl
    rw [hbox]
    simp only [vector3_sub_def, vector3_add_def, Vector3.ZERO, max_self]
    norm_num

/-- C30. Write-cursor accounting: every genVertices call that returns has advanced the
cursor by exactly 4 words in point-rendering mode and 24 words otherwise, in every branch.
Let the buffers of the set be sized for the whole pool whenever they exist, which holds after
construction and is kept by every pool operation, by the injections and by endBillboards, so
in every frame and not only the first.  Then after beginBillboards(n) and any sequence of
injections the cursor is (visible counter) strides past the start of the locked region, the
counter is at most the pool size, the buffer holds one stride per pool record, the locked
region holds one stride per locked billboard (the whole pool for n = 0, min(pool size, n)
otherwise), the cursor passes neither the end of the locked region nor that of the buffer,
and a further injection of a billboard with a valid texcoord rectangle is defined as long as
fewer billboards were written than are locked. -/
theorem C30_write_cursor (M : Math) (E : Scene) (s s1 s2 : BillboardSet) (n : Nat)
    (bbs : List Billboard) (hsized : BuffersSized s)
    (hbegin : s.beginBillboards M n = some s1) (hinject : s1.injectAll M E bbs = some s2) :
    (∀ (s0 t : BillboardSet) (offsets : CornerOffsets) (bb : Billboard),
      genVertices M E s0 offsets bb = some t →
      t.mLockPtr = s0.mLockPtr + (if s0.mPointRendering then 4 else 24)) ∧
    s2.mLockPtr = s2.mNumVisibleBillboards * (if s.mPointRendering then 4 else 24) ∧
    s2.mNumVisibleBillboards ≤ s.mPoolSize ∧
    (∃ buf, s2.mMainBuf = some buf ∧
      buf.contents.length + buf.unmapped.length =
        s.mPoolSize * (if s.mPointRendering then 4 else 24) ∧
      buf.contents.length = s.lockedBillboards n * (if s.mPointRendering then 4 else 24) ∧
      s2.mLockPtr ≤ buf.contents.length) ∧
    (∀ (bb : Billboard) (r : FloatRect), s2.mNumVisibleBillboards < s.lockedBillboards n →
      s2.texcoordRect bb = some r → ∃ t, s2.injectBillboard M E bb = some t) ∧
    BuffersSized s2 ∧
    (∀ s3, s2.endBillboards = some s3 → BuffersSized s3) ∧
    (∀ op t, s.step M op = some t → BuffersSized t) ∧
    (∀ uninit poolSize externalData,
      BuffersSized (mk0 uninit) ∧ BuffersSized (mk3 uninit poolSize externalData)) := by
  obtain ⟨hinv1, hst1, hc1, hp1⟩ := beginBillboards_cursor hsized hbegin
  obtain ⟨hinv2, hst2⟩ := injectAll_cursor bbs hinject hinv1
  obtain ⟨hp2, hle⟩ := injectAll_counter bbs hinject (by rw [hc1]; exact Nat.zero_le _)
  have hdef := fun bb r hlt hr =>
    injectBillboard_defined M E s2 bb r (s.lockedBillboards n) hinv2 hlt hr
  have hs2 := buffersSized_of_cursorInv hinv2
  obtain ⟨hptr, _, buf, hb, ⟨_, _, htot⟩, hlen, hin⟩ := hinv2
  have hst : s2.billboardStride = s.billboardStride := by rw [hst2, hst1]
  rw [hst] at hptr hlen htot
  rw [hp2, hp1] at htot hle
  exact ⟨fun s0 t offsets bb hg => (genVertices_advance hg).1, hptr, hle,
    ⟨buf, hb, htot, hlen, hin⟩, hdef, hs2,
    fun s3 h3 => buffersSized_endBillboards hs2 h3,
    fun op t ht => buffersSized_step op hsized ht,
    fun uninit poolSize externalData => buffersSized_mk uninit poolSize externalData⟩

/-- Witness for C30: in the second frame of a set of capacity 2, whose buffers exist already,
beginBillboards(1) and one injection leave the counter at 1 and the cursor at word 24; in its
first frame beginBillboards(2) and three injections leave the counter at 2 and the cursor at
word 48. -/
theorem C30_write_cursor_witness :
    secondFrameSet.mBuffersCreated = true ∧
    secondFrameInjected.mNumVisibleBillboards = 1 ∧ secondFrameInjected.mLockPtr = 1 * 24 ∧
    injectedSet.mNumVisibleBillboards = 2 ∧ injectedSet.mLockPtr = 2 * 24 := by
  have hsized : BuffersSized secondFrameSet :=
    fun _ => ⟨secondFrameSet.mMainBuf.getD default, rfl, rfl, rfl, rfl⟩
  obtain ⟨_, h1, _⟩ := C30_write_cursor exampleMath exampleScene secondFrameSet
    secondFrameBegun secondFrameInjected 1 [Billboard.new] hsized rfl rfl
  obtain ⟨_, h2, _⟩ := C30_write_cursor exampleMath exampleScene (stateAfter 2 []) begunSet
    injectedSet 2 [Billboard.new, Billboard.new, Billboard.new]
    (buffersSized_mk default 2 false).2 rfl rfl
  exact ⟨rfl, rfl, h1, rfl, h2⟩

end BillboardSet

namespace SceneFormatImporter

/-- On two entries that name each other as parent, neither call of `importSceneNode` returns
or throws, whatever the fuel: each call makes the other one first. -/
theorem importSceneNode_cyclic (fuel : Nat) :
    importSceneNode fuel freshImporter (some { parent_id := some 1, is_static := false }) false 0
        cyclicNodes = none ∧
    importSceneNode fuel freshImporter (some { parent_id := some 0, is_static := false }) false 1
        cyclicNodes = none := by
  induction fuel with
  | zero => exact ⟨rfl, rfl⟩
  | succ fuel ih =>
    obtain ⟨h0, h1⟩ := ih
    constructor
    · simp only [freshImporter, cyclicNodes] at h1 ⊢
      simp [importSceneNode, h1]
    · simp only [freshImporter, cyclicNodes] at h0 ⊢
      simp [importSceneNode, h0]

/-- C29. On the array of two entries that name each other as parent, importSceneNodes
neither returns nor throws, whatever the fuel: the recursion of importSceneNode does not
end. For comparison, a child listed before its parent is imported, and a parent index out of
range, a parent entry that is not an object and a parent entry without a node object each
raise ERR_ITEM_NOT_FOUND. -/
theorem C29_cyclic_parents_never_return :
    (∀ fuel, importSceneNodes fuel freshImporter cyclicNodes = none) ∧
    importSceneNodes 2 freshImporter forwardNodes =
      some (Except.ok
        { mCreatedSceneNodes := [(0, SceneNode.created 0), (1, SceneNode.root false)],
          sceneNodes := [(some (SceneNode.root false), false)] }) ∧
    importSceneNodes 1 freshImporter
        [SceneNodeValue.object (some { parent_id := some 5, is_static := false }) false] =
      some (Except.error
        { code := ExceptionCodes.ERR_ITEM_NOT_FOUND, nodeIdx := 0, parentIdx := some 5 }) ∧
    importSceneNodes 1 freshImporter
        [SceneNodeValue.object (some { parent_id := some 1, is_static := false }) false,
         SceneNodeValue.notObject] =
      some (Except.error
        { code := ExceptionCodes.ERR_ITEM_NOT_FOUND, nodeIdx := 0, parentIdx := some 1 }) ∧
    importSceneNodes 2 freshImporter
        [SceneNodeValue.object (some { parent_id := some 1, is_static := false }) false,
         SceneNodeValue.object none false] =
      some (Except.error
        { code := ExceptionCodes.ERR_ITEM_NOT_FOUND, nodeIdx := 1, parentIdx := none }) := by
  refine ⟨?_, rfl, rfl, rfl, rfl⟩
  intro fuel
  have h := (importSceneNode_cyclic fuel).1
  simp only [freshImporter, cyclicNodes] at h ⊢
  simp [importSceneNodes, importSceneNodesFrom, h]

end SceneFormatImporter

end Ogre
